import Mathlib

/-!
# go-promise: settlement, chaining and unwrapping of promises

A shallow embedding of `promise/promise.go`, `deferred/deferred.go` and
`panics/panics.go`.

* A `*Promise` is an address (`Ptr`) into a `Heap` of promise cells.
* A Go `error` is `Err := Option GoError`; `none` is the nil error.
* A Go `any` is a `Value`.
* A receive on the `wait` channel is enabled exactly when the channel has
  been closed; a function that reaches a receive on an open channel reports
  `Result.blocked` and has changed nothing.
* `unpackPromise` is recursive along the heap, so it carries a bound on the
  number of recursive calls (`fuel`); `Result.outOfFuel` is distinct from a
  returned value and from a blocked receive.
* Handlers are Go closures: they receive their argument and the heap, and
  return their result pair together with the heap they leave behind.
* The goroutines of a combinator share its variables; each access to a
  shared variable is one step of a step relation, and a schedule is the
  order in which the goroutines take their steps.
-/

namespace GoPromise

/-- Address of a heap-allocated promise (a Go `*Promise`). -/
abbrev Ptr := Nat

/-- Dynamic values of type `error` that are not nil: the result of
`errors.New` and the struct `PromiseAggregateError`. -/
inductive GoError where
  | errorString (s : String)
  | aggregate (Errors : List (Option GoError))

mutual
/-- Decidable equality of error values. -/
def GoError.decEq : (a b : GoError) → Decidable (a = b)
  | .errorString s, .errorString t =>
    if h : s = t then isTrue (by rw [h]) else isFalse (by intro e; cases e; exact h rfl)
  | .errorString _, .aggregate _ => isFalse (by intro e; cases e)
  | .aggregate _, .errorString _ => isFalse (by intro e; cases e)
  | .aggregate xs, .aggregate ys =>
    match GoError.decEqList xs ys with
    | isTrue h => isTrue (by rw [h])
    | isFalse h => isFalse (by intro e; cases e; exact h rfl)
/-- Decidable equality of `[]error`. -/
def GoError.decEqList : (a b : List (Option GoError)) → Decidable (a = b)
  | [], [] => isTrue rfl
  | [], _ :: _ => isFalse (by intro e; cases e)
  | _ :: _, [] => isFalse (by intro e; cases e)
  | none :: xs, none :: ys =>
    match GoError.decEqList xs ys with
    | isTrue h => isTrue (by rw [h])
    | isFalse h => isFalse (by intro e; cases e; exact h rfl)
  | none :: _, some _ :: _ => isFalse (by intro e; cases e)
  | some _ :: _, none :: _ => isFalse (by intro e; cases e)
  | some x :: xs, some y :: ys =>
    match GoError.decEq x y, GoError.decEqList xs ys with
    | isTrue h, isTrue h2 => isTrue (by rw [h, h2])
    | isFalse h, _ => isFalse (by intro e; cases e; exact h rfl)
    | _, isFalse h => isFalse (by intro e; cases e; exact h rfl)
end

instance : DecidableEq GoError := GoError.decEq

/-- A Go `error` interface value; `none` is nil. -/
abbrev Err := Option GoError

/-- A Go `any`. `promise p` is a `*Promise`; `slice a` is a slice whose
backing array lives at address `a`; `error e` is a value of a type that
implements `error`; the other constructors are plain data. -/
inductive Value where
  | nil
  | bool (b : Bool)
  | int (n : Int)
  | str (s : String)
  | promise (p : Ptr)
  | slice (a : Ptr)
  | error (e : GoError)
  deriving DecidableEq

/-- Whether the dynamic type of the value is not `*Promise`. -/
def Value.isPlain : Value → Bool
  | .promise _ => false
  | _ => true

/-- Constant `internalPending`. -/
abbrev internalPending : Nat := 0
/-- Constant `internalFulfilled`. -/
abbrev internalFulfilled : Nat := 1
/-- Constant `internalRejected`. -/
abbrev internalRejected : Nat := 2

/-- The struct `Promise`. `wait` records whether the channel has been
closed; nothing is ever sent on it. -/
structure Promise where
  wait : Bool
  status : Nat
  rejected : Err
  fulfilled : Value
  deriving DecidableEq

/-- The store of promise cells. -/
abbrev Heap := Ptr → Promise

/-- What a call has done when control leaves it. -/
inductive Result (α : Type) where
  | done (a : α)
  | blocked (ch : Ptr)
  | outOfFuel
  deriving DecidableEq

/-- The cell built by `createPromise`. -/
def newPromise : Promise :=
  { wait := false, status := internalPending, fulfilled := Value.nil, rejected := none }

/-- Function `createPromise`; `addr` is the address the allocator hands out. -/
def createPromise (addr : Ptr) (h : Heap) : Heap :=
  Function.update h addr newPromise

/-- The call `atomic.CompareAndSwapUint32(&promise.status, old, new)`. -/
def compareAndSwapStatus (c : Promise) (old new : Nat) : Bool × Promise :=
  if c.status = old then (true, { c with status := new }) else (false, c)

/-- The call `close(promise.wait)`. -/
def closeWait (c : Promise) : Promise := { c with wait := true }

/-- Function `fulfillPromise`. -/
def fulfillPromise (promise : Ptr) (unpacked : Value) (h : Heap) : Heap :=
  let cas := compareAndSwapStatus (h promise) internalPending internalFulfilled
  if cas.1 then
    Function.update h promise (closeWait { cas.2 with fulfilled := unpacked })
  else h

/-- Function `rejectPromise`. -/
def rejectPromise (promise : Ptr) (reason : Err) (h : Heap) : Heap :=
  let cas := compareAndSwapStatus (h promise) internalPending internalRejected
  if cas.1 then
    Function.update h promise (closeWait { cas.2 with rejected := reason })
  else h

/-- Function `unpackPromise`. `fuel` bounds the recursive calls. -/
def unpackPromise (h : Heap) : Nat → Value → Result (Value × Err)
  | fuel, .promise p =>
    if (h p).wait then
      if (h p).status = internalFulfilled then
        match fuel with
        | 0 => .outOfFuel
        | fuel + 1 => unpackPromise h fuel (h p).fulfilled
      else if (h p).status = internalRejected then
        .done (Value.nil, (h p).rejected)
      else .done (Value.promise p, none)
    else .blocked p
  | _, value => .done (value, none)

/-- Function `assignPromise`. -/
def assignPromise (fuel : Nat) (promise : Ptr) (packed : Value) (h : Heap) : Result Heap :=
  match unpackPromise h fuel packed with
  | .done (unpacked, reason) =>
    match reason with
    | some e => .done (rejectPromise promise (some e) h)
    | none => .done (fulfillPromise promise unpacked h)
  | .blocked ch => .blocked ch
  | .outOfFuel => .outOfFuel

/-- The verb `%p` of `fmt.Sprintf` applied to an address. -/
def fmtPointer (p : Ptr) : String := "0x" ++ String.mk (Nat.toDigits 16 p)

/-- The error built in `resolvePromise` for a promise resolved with itself. -/
def chainingCycleError (promise : Ptr) : GoError :=
  .errorString ("Chaining cycle detected for promise " ++ fmtPointer promise)

/-- Function `resolvePromise`. -/
def resolvePromise (fuel : Nat) (promise : Ptr) (packed : Value) (reason : Err) (h : Heap) :
    Result Heap :=
  if packed = Value.promise promise then
    .done (rejectPromise promise (some (chainingCycleError promise)) h)
  else
    match reason with
    | some e => .done (rejectPromise promise (some e) h)
    | none => assignPromise fuel promise packed h

/-- Method `Wait`. -/
def Wait (self : Ptr) (h : Heap) : Result (Value × Err) :=
  if (h self).wait then .done ((h self).fulfilled, (h self).rejected) else .blocked self

/-- The heap a call leaves behind: a call that is blocked or has run out of
fuel has written nothing. -/
def Result.heapOr (r : Result Heap) (h : Heap) : Heap :=
  match r with
  | .done h1 => h1
  | _ => h

/-! ## Deferred -/

/-- The struct `Deferred`. The fields `Resolve` and `Reject` are the two
closures over `Promise` that `promise.New` hands out. -/
structure Deferred where
  Promise : Ptr
  deriving DecidableEq

/-- Function `deferred.New` (through `promise.New`). -/
def Deferred.New (addr : Ptr) (h : Heap) : Deferred × Heap :=
  ({ Promise := addr }, createPromise addr h)

/-- The closure `func(result any) { assignPromise(promise, result) }`. -/
def Deferred.Resolve (d : Deferred) (fuel : Nat) (result : Value) (h : Heap) : Result Heap :=
  assignPromise fuel d.Promise result h

/-- The closure `func(reason error) { rejectPromise(promise, reason) }`. -/
def Deferred.Reject (d : Deferred) (reason : Err) (h : Heap) : Result Heap :=
  .done (rejectPromise d.Promise reason h)

/-- One settlement attempt on a deferred. -/
inductive Attempt where
  | resolve (v : Value)
  | reject (r : Err)
  deriving DecidableEq

/-- Whether the attempt carries no promise. -/
def Attempt.isPlain : Attempt → Bool
  | .resolve v => v.isPlain
  | .reject _ => true

/-- Run one settlement attempt. -/
def Deferred.attempt (d : Deferred) (fuel : Nat) (a : Attempt) (h : Heap) : Result Heap :=
  match a with
  | .resolve v => d.Resolve fuel v h
  | .reject r => d.Reject r h

/-- Run settlement attempts one after the other. -/
def Deferred.attempts (d : Deferred) (fuel : Nat) (as : List Attempt) (h : Heap) : Heap :=
  as.foldl (fun acc a => (d.attempt fuel a acc).heapOr acc) h

/-- The cell a pending promise turns into under the attempt. -/
def Attempt.settle (c : Promise) : Attempt → Promise
  | .resolve v => { c with status := internalFulfilled, fulfilled := v, wait := true }
  | .reject r => { c with status := internalRejected, rejected := r, wait := true }

/-! ## Nests of settled promises -/

/-- The candidate is the plain value `V` wrapped in `n` promises, each closed
and fulfilled with the next level. -/
def nestedFulfilled (h : Heap) (V : Value) : Nat → Value → Bool
  | 0, c => V.isPlain && decide (c = V)
  | n + 1, .promise p =>
    (h p).wait && decide ((h p).status = internalFulfilled) && nestedFulfilled h V n (h p).fulfilled
  | _ + 1, _ => false

/-- The candidate is a promise below which, after `n` closed and fulfilled
promises, a closed promise rejected with `R` is found. -/
def nestedRejected (h : Heap) (R : Err) : Nat → Value → Bool
  | 0, .promise p => (h p).wait && decide ((h p).status = internalRejected) && decide ((h p).rejected = R)
  | n + 1, .promise p =>
    (h p).wait && decide ((h p).status = internalFulfilled) && nestedRejected h R n (h p).fulfilled
  | _, _ => false

/-- The heap in which every cell is as `createPromise` builds it. -/
def emptyHeap : Heap := fun _ => newPromise

/-! ## Chaining: `Then`, `Catch`, `ThenCatch`, `Finally` -/

/-- The type `PromiseThen`: a closure from the result and the heap to its
return pair and the heap it leaves. -/
abbrev PromiseThen := Value → Heap → (Value × Err) × Heap

/-- The type `PromiseCatch`. -/
abbrev PromiseCatch := Err → Heap → (Value × Err) × Heap

/-- The type `PromiseFinally`. -/
abbrev PromiseFinally := Heap → Err × Heap

/-- One handler invocation, with the argument passed. -/
inductive Call where
  | onFulfilled (result : Value)
  | onRejected (reason : Err)
  | onFinally
  deriving DecidableEq

/-- Where control is when a goroutine stops running. -/
inductive Control where
  | returned
  | blocked (ch : Ptr)
  | outOfFuel
  deriving DecidableEq

/-- What a continuation goroutine has done: the heap it leaves, the handler
invocations it made, in order, and where it stopped. -/
structure Run where
  heap : Heap
  calls : List Call
  control : Control

/-- A goroutine that ends with the call whose result is `r`, started in `h`
after the invocations `calls`. -/
def Run.ofResult (r : Result Heap) (h : Heap) (calls : List Call) : Run :=
  match r with
  | .done h1 => { heap := h1, calls := calls, control := .returned }
  | .blocked ch => { heap := h, calls := calls, control := .blocked ch }
  | .outOfFuel => { heap := h, calls := calls, control := .outOfFuel }

/-- Method `Then`, the goroutine it starts. `promise` is the derived promise,
which the method built with `createPromise` and returned. -/
def Then.goroutine (self promise : Ptr) (then_ : PromiseThen) (fuel : Nat) (h : Heap) : Run :=
  if (h self).wait then
    if (h self).status = internalFulfilled then
      let r := then_ (h self).fulfilled h
      Run.ofResult (resolvePromise fuel promise r.1.1 r.1.2 r.2) r.2
        [.onFulfilled (h self).fulfilled]
    else if (h self).status = internalRejected then
      { heap := rejectPromise promise (h self).rejected h, calls := [], control := .returned }
    else { heap := h, calls := [], control := .returned }
  else { heap := h, calls := [], control := .blocked self }

/-- Method `Catch`, the goroutine it starts. -/
def Catch.goroutine (self promise : Ptr) (catch_ : PromiseCatch) (fuel : Nat) (h : Heap) : Run :=
  if (h self).wait then
    if (h self).status = internalFulfilled then
      { heap := fulfillPromise promise (h self).fulfilled h, calls := [], control := .returned }
    else if (h self).status = internalRejected then
      let r := catch_ (h self).rejected h
      Run.ofResult (resolvePromise fuel promise r.1.1 r.1.2 r.2) r.2
        [.onRejected (h self).rejected]
    else { heap := h, calls := [], control := .returned }
  else { heap := h, calls := [], control := .blocked self }

/-- Method `ThenCatch`, the goroutine it starts. -/
def ThenCatch.goroutine (self promise : Ptr) (then_ : PromiseThen) (catch_ : PromiseCatch)
    (fuel : Nat) (h : Heap) : Run :=
  if (h self).wait then
    if (h self).status = internalFulfilled then
      let r := then_ (h self).fulfilled h
      Run.ofResult (resolvePromise fuel promise r.1.1 r.1.2 r.2) r.2
        [.onFulfilled (h self).fulfilled]
    else if (h self).status = internalRejected then
      let r := catch_ (h self).rejected h
      Run.ofResult (resolvePromise fuel promise r.1.1 r.1.2 r.2) r.2
        [.onRejected (h self).rejected]
    else { heap := h, calls := [], control := .returned }
  else { heap := h, calls := [], control := .blocked self }

/-- Method `Finally`, the goroutine it starts. -/
def Finally.goroutine (self promise : Ptr) (finally_ : PromiseFinally) (h : Heap) : Run :=
  if (h self).wait then
    let r := finally_ h
    match r.1 with
    | some e =>
      { heap := rejectPromise promise (some e) r.2, calls := [.onFinally], control := .returned }
    | none =>
      if (r.2 self).status = internalFulfilled then
        { heap := fulfillPromise promise (r.2 self).fulfilled r.2, calls := [.onFinally],
          control := .returned }
      else if (r.2 self).status = internalRejected then
        { heap := rejectPromise promise (r.2 self).rejected r.2, calls := [.onFinally],
          control := .returned }
      else { heap := r.2, calls := [.onFinally], control := .returned }
  else { heap := h, calls := [], control := .blocked self }

/-- Method `Error` of an error value. The struct `PromiseAggregateError`
embeds a nil `error`, so the promoted method has no message to give. -/
def GoError.Error : GoError → Option String
  | .errorString s => some s
  | .aggregate _ => none

/-- Function `strings.Contains`, as the tests use it in `assertError`. -/
def stringsContains (s substr : String) : Prop := substr.data <:+: s.data

instance (s substr : String) : Decidable (stringsContains s substr) := by
  unfold stringsContains
  infer_instance

/-- A handler that returns `(nil, nil)` and touches nothing. -/
def thenNil : PromiseThen := fun _ h => ((Value.nil, none), h)

/-- A handler that returns `(nil, nil)` and touches nothing. -/
def catchNil : PromiseCatch := fun _ h => ((Value.nil, none), h)

/-- A handler that returns the given pair and touches nothing. -/
def thenReturn (packed : Value) (reason : Err) : PromiseThen := fun _ h => ((packed, reason), h)

/-- A handler that returns the given error and touches nothing. -/
def finallyReturn (reason : Err) : PromiseFinally := fun h => (reason, h)

/-- Promise 1 fulfilled with 7 and promise 2 fulfilled with promise 1. -/
def nestHeap : Heap := fulfillPromise 2 (.promise 1) (fulfillPromise 1 (.int 7) emptyHeap)

/-- Promise 1 fulfilled with 7; every other promise pending. -/
def fulfilledHeap : Heap := fulfillPromise 1 (.int 7) emptyHeap

/-- Promise 1 rejected with the error "boom"; every other promise pending. -/
def rejectedHeap : Heap := rejectPromise 1 (some (.errorString "boom")) emptyHeap

/-- The cell is rejected with an error whose message contains the text of
the chaining-cycle failure. -/
def Promise.isCycleRejected (c : Promise) : Bool :=
  decide (c.status = internalRejected) && c.wait &&
    match c.rejected with
    | some e =>
      match e.Error with
      | some msg => decide (stringsContains msg "Chaining cycle detected for promise")
      | none => false
    | none => false

/-- The handler invocation that matches the attempt that settled the source. -/
def Attempt.call : Attempt → Call
  | .resolve v => .onFulfilled v
  | .reject r => .onRejected r

/-! ## Settlement, statement by statement

`fulfillPromise` and `rejectPromise` are three statements: the compare and
swap on the status, the write of the field, the close of the channel. Any
number of goroutines may be inside them at once; goroutine `i` runs the call
`calls i`, and a goroutine that is never scheduled is a call that is never
made. -/

/-- A call of `fulfillPromise(promise, unpacked)` or of
`rejectPromise(promise, reason)`. -/
inductive SettleCall where
  | fulfill (unpacked : Value)
  | reject (reason : Err)
  deriving DecidableEq

/-- The status the call swaps in. -/
def SettleCall.target : SettleCall → Nat
  | .fulfill _ => internalFulfilled
  | .reject _ => internalRejected

/-- The field assignment of the call. -/
def SettleCall.write (c : Promise) : SettleCall → Promise
  | .fulfill unpacked => { c with fulfilled := unpacked }
  | .reject reason => { c with rejected := reason }

/-- The cell after the call has run alone on a cell built by `createPromise`. -/
def SettleCall.settled (call : SettleCall) : Promise :=
  closeWait (call.write { newPromise with status := call.target })

/-- The statement a call is about to run. -/
inductive SettlePc where
  | start
  | write
  | close
  | finished
  deriving DecidableEq

/-- The heap and the place of every call. -/
structure Settling where
  heap : Heap
  pc : Nat → SettlePc

/-- Goroutine `i` runs its next statement. -/
def Settling.step (promise : Ptr) (calls : Nat → SettleCall) (i : Nat) (s : Settling) :
    Option Settling :=
  match s.pc i with
  | .start =>
    let cas := compareAndSwapStatus (s.heap promise) internalPending (calls i).target
    some { heap := Function.update s.heap promise cas.2,
           pc := Function.update s.pc i (if cas.1 then .write else .finished) }
  | .write =>
    some { heap := Function.update s.heap promise ((calls i).write (s.heap promise)),
           pc := Function.update s.pc i .close }
  | .close =>
    some { heap := Function.update s.heap promise (closeWait (s.heap promise)),
           pc := Function.update s.pc i .finished }
  | .finished => none

/-- Any number of statements of any goroutines, in any order. -/
inductive Settling.Steps (promise : Ptr) (calls : Nat → SettleCall) : Settling → Settling → Prop
  | refl (s : Settling) : Settling.Steps promise calls s s
  | tail {s t u : Settling} (i : Nat) : Settling.Steps promise calls s t →
      Settling.step promise calls i t = some u → Settling.Steps promise calls s u

/-- The states a promise goes through after `createPromise`. -/
def Settling.Reachable (promise : Ptr) (calls : Nat → SettleCall) (s : Settling) : Prop :=
  ∃ h0 : Heap, h0 promise = newPromise ∧
    Settling.Steps promise calls { heap := h0, pc := fun _ => .start } s

/-- The schedule given as a list of goroutine numbers, run from `s`. -/
def Settling.run (promise : Ptr) (calls : Nat → SettleCall) : List Nat → Settling → Settling
  | [], s => s
  | i :: rest, s =>
    match Settling.step promise calls i s with
    | some t => Settling.run promise calls rest t
    | none => Settling.run promise calls rest s

/-- The phases of a promise: untouched; status swapped by call `i`; field
written by call `i`; channel closed by call `i`. -/
def Settling.Inv (promise : Ptr) (calls : Nat → SettleCall) (s : Settling) : Prop :=
  (s.heap promise = newPromise ∧ ∀ j, s.pc j = .start) ∨
  (∃ i, s.pc i = .write ∧
    s.heap promise = { newPromise with status := (calls i).target } ∧
    ∀ j, j ≠ i → s.pc j = .start ∨ s.pc j = .finished) ∨
  (∃ i, s.pc i = .close ∧
    s.heap promise = (calls i).write { newPromise with status := (calls i).target } ∧
    ∀ j, j ≠ i → s.pc j = .start ∨ s.pc j = .finished) ∨
  (∃ i, s.pc i = .finished ∧ s.heap promise = (calls i).settled ∧
    ∀ j, s.pc j = .start ∨ s.pc j = .finished)

/-- Goroutine 0 calls `fulfillPromise(promise, 7)`, every other goroutine
calls `rejectPromise(promise, "boom")`. -/
def raceCalls : Nat → SettleCall := fun i =>
  if i = 0 then .fulfill (.int 7) else .reject (some (.errorString "boom"))

/-- Every goroutine about to enter its call, on the empty heap. -/
def Settling.initial : Settling := { heap := emptyHeap, pc := fun _ => .start }

/-! ## The combinator `All`, statement by statement

`All` builds its promise, the counters `count` and `rejected`, the variable
`err` and the slice `all`, and starts one goroutine per element of `arr`.
The goroutines share these variables; each access to a shared variable is
one step, and the steps of different goroutines interleave in any order. -/

/-- The statement a goroutine of `All` is about to run. `settle true` is the
call `rejectPromise(promise, err)`, `settle false` the call
`fulfillPromise(promise, all)`. -/
inductive AllPc where
  | unpack
  | add
  | record
  | writeErr
  | check
  | choose
  | settle (rejecting : Bool)
  | finished
  deriving DecidableEq

/-- The variables of one call of `All`: the heap of promises, the shared
variables of the outer goroutine (`all` is the backing array of the slice),
and per goroutine its place and its locals `unpacked` and `reason`. -/
structure AllState where
  heap : Heap
  count : Nat
  rejected : Nat
  err : Err
  all : List Value
  pc : Nat → AllPc
  unpacked : Nat → Value
  reason : Nat → Err

/-- The conversion `uint32(len(arr))`. -/
def lengthUint32 (arr : List Value) : Nat := arr.length % 2 ^ 32

/-- The state after `createPromise` and the declarations of the outer
goroutine, with every inner goroutine about to start. -/
def All.init (arr : List Value) (promise : Ptr) (h : Heap) : AllState :=
  { heap := createPromise promise h
    count := 0
    rejected := 0
    err := none
    all := List.replicate (lengthUint32 arr) Value.nil
    pc := fun _ => .unpack
    unpacked := fun _ => Value.nil
    reason := fun _ => none }

/-- Goroutine `index` of `All` runs its next statement. `allAddr` is the
address of the backing array of `all`. -/
def All.step (arr : List Value) (promise allAddr : Ptr) (fuel : Nat) (index : Nat)
    (s : AllState) : Option AllState :=
  if index < arr.length then
    match s.pc index with
    | .unpack =>
      match unpackPromise s.heap fuel (arr.getD index Value.nil) with
      | .done (unpacked, reason) =>
        some { s with unpacked := Function.update s.unpacked index unpacked
                      reason := Function.update s.reason index reason
                      pc := Function.update s.pc index .add }
      | .blocked _ => none
      | .outOfFuel => none
    | .add =>
      some { s with count := (s.count + 1) % 2 ^ 32, pc := Function.update s.pc index .record }
    | .record =>
      match s.reason index with
      | some _ =>
        if s.rejected = 0 then
          some { s with rejected := 1, pc := Function.update s.pc index .writeErr }
        else some { s with pc := Function.update s.pc index .check }
      | none =>
        some { s with all := s.all.set index (s.unpacked index)
                      pc := Function.update s.pc index .check }
    | .writeErr =>
      some { s with err := s.reason index, pc := Function.update s.pc index .check }
    | .check =>
      if s.count = lengthUint32 arr then
        some { s with pc := Function.update s.pc index .choose }
      else some { s with pc := Function.update s.pc index .finished }
    | .choose =>
      if s.rejected = 1 then
        some { s with pc := Function.update s.pc index (.settle true) }
      else some { s with pc := Function.update s.pc index (.settle false) }
    | .settle true =>
      some { s with heap := rejectPromise promise s.err s.heap
                    pc := Function.update s.pc index .finished }
    | .settle false =>
      some { s with heap := fulfillPromise promise (Value.slice allAddr) s.heap
                    pc := Function.update s.pc index .finished }
    | .finished => none
  else none

/-- The schedule given as a list of goroutine numbers, run from `s`; a
goroutine that cannot step is skipped. -/
def All.run (arr : List Value) (promise allAddr : Ptr) (fuel : Nat) :
    List Nat → AllState → AllState
  | [], s => s
  | index :: rest, s =>
    match All.step arr promise allAddr fuel index s with
    | some t => All.run arr promise allAddr fuel rest t
    | none => All.run arr promise allAddr fuel rest s

/-- The input `[promise 1, 1]` in `rejectedHeap`, where promise 1 is rejected
with "boom". -/
def failingInput : List Value := [Value.promise 1, Value.int 1]

/-- Goroutine 0 up to its increment of `count`, then goroutine 1 to its end,
then the rest of goroutine 0. -/
def failingSchedule : List Nat := [0, 0, 1, 1, 1, 1, 1, 1, 0, 0, 0, 0, 0]

/-- Goroutine 0 up to its swap of `rejected`, then goroutine 1 to its end,
then the rest of goroutine 0. -/
def nilReasonSchedule : List Nat := [0, 0, 0, 1, 1, 1, 1, 1, 1, 0, 0, 0, 0]

/-- Each goroutine runs from its first to its last statement in turn. -/
def sequentialSchedule : List Nat := [0, 0, 0, 0, 0, 0, 0, 1, 1, 1, 1, 1, 1]

/-- Any number of statements of any goroutines of `All`, in any order. -/
inductive All.Steps (arr : List Value) (promise allAddr : Ptr) (fuel : Nat) :
    AllState → AllState → Prop
  | refl (s : AllState) : All.Steps arr promise allAddr fuel s s
  | tail {s t u : AllState} (index : Nat) : All.Steps arr promise allAddr fuel s t →
      All.step arr promise allAddr fuel index t = some u →
      All.Steps arr promise allAddr fuel s u

/-- The goroutine has incremented `count`. -/
def AllPc.pastAdd : AllPc → Bool
  | .unpack => false
  | .add => false
  | _ => true

/-- The goroutine has recorded its result. -/
def AllPc.pastRecord : AllPc → Bool
  | .check => true
  | .choose => true
  | .settle _ => true
  | .finished => true
  | _ => false

/-- The goroutine has not yet compared `count` with `length`. -/
def AllPc.beforeChoice : AllPc → Bool
  | .unpack => true
  | .add => true
  | .record => true
  | .writeErr => true
  | .check => true
  | _ => false

/-- The goroutine has read `count == length` and is on its way to
`fulfillPromise`. -/
def AllPc.fulfilling : AllPc → Bool
  | .choose => true
  | .settle false => true
  | _ => false

/-- The cell of the promise of `All` once fulfilled with the slice `all`. -/
def allFulfilled (allAddr : Ptr) : Promise :=
  { newPromise with status := internalFulfilled, fulfilled := Value.slice allAddr, wait := true }

/-- What holds in every state of a call of `All` whose element `i` unwraps to
the value `vs i` with no reason, for every `i`. -/
structure All.SuccessInv (arr : List Value) (promise allAddr : Ptr) (h0 : Heap)
    (vs : Nat → Value) (s : AllState) : Prop where
  heap_other : ∀ q, q ≠ promise → s.heap q = h0 q
  heap_promise : s.heap promise = newPromise ∨ s.heap promise = allFulfilled allAddr
  rejected : s.rejected = 0
  length : s.all.length = arr.length
  locals : ∀ i, i < arr.length → s.pc i ≠ .unpack → s.unpacked i = vs i ∧ s.reason i = none
  slots : ∀ i, i < arr.length → (s.pc i).pastRecord = true → s.all[i]? = some (vs i)
  pcs : ∀ i, i < arr.length → s.pc i ≠ .writeErr ∧ s.pc i ≠ .settle true
  count : s.count = ((Finset.range arr.length).filter (fun i => (s.pc i).pastAdd = true)).card
  live : (∃ i, i < arr.length ∧ (s.pc i).beforeChoice = true) ∨
    (∃ i, i < arr.length ∧ (s.pc i).fulfilling = true) ∨
    s.heap promise = allFulfilled allAddr

/-- The plain inputs `[1, 2, 3]`. -/
def plainInput : List Value := [Value.int 1, Value.int 2, Value.int 3]

/-- The values the plain inputs unwrap to. -/
def plainValues : Nat → Value := fun i => plainInput.getD i Value.nil

/-- Three goroutines, each run from its first to its last statement, the
last one first. -/
def plainSchedule : List Nat := [2, 2, 2, 2, 0, 0, 0, 0, 1, 1, 1, 1, 1, 1]

/-! ## The combinator `Race`, statement by statement -/

/-- The statement a goroutine of `Race` is about to run. `loadFlag` reads
`rejected` (when `reason != nil`) or `resolved` (otherwise), `storeFlag`
stores 1 in it, `writeVar` assigns `err` or `race`; `settle true` is the call
`rejectPromise(promise, err)`, `settle false` the call
`fulfillPromise(promise, race)`. -/
inductive RacePc where
  | unpack
  | add
  | loadFlag
  | storeFlag
  | writeVar
  | check
  | choose
  | settle (rejecting : Bool)
  | finished
  deriving DecidableEq

/-- The variables of one call of `Race`. -/
structure RaceState where
  heap : Heap
  count : Nat
  rejected : Nat
  err : Err
  resolved : Nat
  race : Value
  pc : Nat → RacePc
  unpacked : Nat → Value
  reason : Nat → Err

/-- The state after `createPromise` and the declarations of the outer
goroutine of `Race`. -/
def Race.init (promise : Ptr) (h : Heap) : RaceState :=
  { heap := createPromise promise h
    count := 0
    rejected := 0
    err := none
    resolved := 0
    race := Value.nil
    pc := fun _ => .unpack
    unpacked := fun _ => Value.nil
    reason := fun _ => none }

/-- Goroutine `index` of `Race` runs its next statement. -/
def Race.step (arr : List Value) (promise : Ptr) (fuel : Nat) (index : Nat)
    (s : RaceState) : Option RaceState :=
  if index < arr.length then
    match s.pc index with
    | .unpack =>
      match unpackPromise s.heap fuel (arr.getD index Value.nil) with
      | .done (unpacked, reason) =>
        some { s with unpacked := Function.update s.unpacked index unpacked
                      reason := Function.update s.reason index reason
                      pc := Function.update s.pc index .add }
      | .blocked _ => none
      | .outOfFuel => none
    | .add =>
      some { s with count := (s.count + 1) % 2 ^ 32, pc := Function.update s.pc index .loadFlag }
    | .loadFlag =>
      match s.reason index with
      | some _ =>
        if s.rejected = 0 then some { s with pc := Function.update s.pc index .storeFlag }
        else some { s with pc := Function.update s.pc index .check }
      | none =>
        if s.resolved = 0 then some { s with pc := Function.update s.pc index .storeFlag }
        else some { s with pc := Function.update s.pc index .check }
    | .storeFlag =>
      match s.reason index with
      | some _ => some { s with rejected := 1, pc := Function.update s.pc index .writeVar }
      | none => some { s with resolved := 1, pc := Function.update s.pc index .writeVar }
    | .writeVar =>
      match s.reason index with
      | some e => some { s with err := some e, pc := Function.update s.pc index .check }
      | none => some { s with race := s.unpacked index, pc := Function.update s.pc index .check }
    | .check =>
      if s.count = lengthUint32 arr then
        some { s with pc := Function.update s.pc index .choose }
      else some { s with pc := Function.update s.pc index .finished }
    | .choose =>
      if s.rejected = 1 then
        some { s with pc := Function.update s.pc index (.settle true) }
      else some { s with pc := Function.update s.pc index (.settle false) }
    | .settle true =>
      some { s with heap := rejectPromise promise s.err s.heap
                    pc := Function.update s.pc index .finished }
    | .settle false =>
      some { s with heap := fulfillPromise promise s.race s.heap
                    pc := Function.update s.pc index .finished }
    | .finished => none
  else none

/-- The schedule given as a list of goroutine numbers, run from `s`; a
goroutine that cannot step is skipped. -/
def Race.run (arr : List Value) (promise : Ptr) (fuel : Nat) :
    List Nat → RaceState → RaceState
  | [], s => s
  | index :: rest, s =>
    match Race.step arr promise fuel index s with
    | some t => Race.run arr promise fuel rest t
    | none => Race.run arr promise fuel rest s

/-- Any number of statements of any goroutines of `Race`, in any order. -/
inductive Race.Steps (arr : List Value) (promise : Ptr) (fuel : Nat) :
    RaceState → RaceState → Prop
  | refl (s : RaceState) : Race.Steps arr promise fuel s s
  | tail {s t u : RaceState} (index : Nat) : Race.Steps arr promise fuel s t →
      Race.step arr promise fuel index t = some u → Race.Steps arr promise fuel s u

/-- Goroutine 0 up to its increment of `count`, then goroutine 1 to its end,
then the rest of goroutine 0. -/
def raceFailingSchedule : List Nat :=
  [0, 0, 1, 1, 1, 1, 1, 1, 1, 1, 0, 0, 0, 0, 0, 0]

/-- Each goroutine of `Race` runs from its first to its last statement in
turn. -/
def raceSequentialSchedule : List Nat :=
  [0, 0, 0, 0, 0, 0, 1, 1, 1, 1, 1, 1, 1, 1]

/-! ## The combinator `Any`, statement by statement -/

/-- The statement a goroutine of `Any` is about to run. `fulfill` is the
statement `if reason == nil { fulfillPromise(promise, unpacked) }`,
`loadStatus` the read of `promise.status`, `aggregate` the loop over
`errors`, `reject` the call of `rejectPromise`. -/
inductive AnyPc where
  | unpack
  | add
  | writeError
  | fulfill
  | check
  | loadStatus
  | aggregate
  | reject
  | finished
  deriving DecidableEq

/-- The variables of one call of `Any`; `errors` is the backing array of the
slice, `aggregated` the local slice of each goroutine. -/
structure AnyState where
  heap : Heap
  count : Nat
  errors : List Err
  pc : Nat → AnyPc
  unpacked : Nat → Value
  reason : Nat → Err
  aggregated : Nat → List Err

/-- The state after `createPromise` and the declarations of the outer
goroutine of `Any`. -/
def Any.init (arr : List Value) (promise : Ptr) (h : Heap) : AnyState :=
  { heap := createPromise promise h
    count := 0
    errors := List.replicate (lengthUint32 arr) none
    pc := fun _ => .unpack
    unpacked := fun _ => Value.nil
    reason := fun _ => none
    aggregated := fun _ => [] }

/-- Goroutine `index` of `Any` runs its next statement. -/
def Any.step (arr : List Value) (promise : Ptr) (fuel : Nat) (index : Nat)
    (s : AnyState) : Option AnyState :=
  if index < arr.length then
    match s.pc index with
    | .unpack =>
      match unpackPromise s.heap fuel (arr.getD index Value.nil) with
      | .done (unpacked, reason) =>
        some { s with unpacked := Function.update s.unpacked index unpacked
                      reason := Function.update s.reason index reason
                      pc := Function.update s.pc index .add }
      | .blocked _ => none
      | .outOfFuel => none
    | .add =>
      some { s with count := (s.count + 1) % 2 ^ 32
                    pc := Function.update s.pc index .writeError }
    | .writeError =>
      some { s with errors := s.errors.set index (s.reason index)
                    pc := Function.update s.pc index .fulfill }
    | .fulfill =>
      match s.reason index with
      | none =>
        some { s with heap := fulfillPromise promise (s.unpacked index) s.heap
                      pc := Function.update s.pc index .check }
      | some _ => some { s with pc := Function.update s.pc index .check }
    | .check =>
      if s.count = lengthUint32 arr then
        some { s with pc := Function.update s.pc index .loadStatus }
      else some { s with pc := Function.update s.pc index .finished }
    | .loadStatus =>
      if (s.heap promise).status = internalPending then
        some { s with pc := Function.update s.pc index .aggregate }
      else some { s with pc := Function.update s.pc index .finished }
    | .aggregate =>
      some { s with aggregated :=
                      Function.update s.aggregated index (s.errors.filter (fun e => e.isSome))
                    pc := Function.update s.pc index .reject }
    | .reject =>
      some { s with heap :=
                      rejectPromise promise (some (.aggregate (s.aggregated index))) s.heap
                    pc := Function.update s.pc index .finished }
    | .finished => none
  else none

/-- The schedule given as a list of goroutine numbers, run from `s`; a
goroutine that cannot step is skipped. -/
def Any.run (arr : List Value) (promise : Ptr) (fuel : Nat) :
    List Nat → AnyState → AnyState
  | [], s => s
  | index :: rest, s =>
    match Any.step arr promise fuel index s with
    | some t => Any.run arr promise fuel rest t
    | none => Any.run arr promise fuel rest s

/-- Any number of statements of any goroutines of `Any`, in any order. -/
inductive Any.Steps (arr : List Value) (promise : Ptr) (fuel : Nat) :
    AnyState → AnyState → Prop
  | refl (s : AnyState) : Any.Steps arr promise fuel s s
  | tail {s t u : AnyState} (index : Nat) : Any.Steps arr promise fuel s t →
      Any.step arr promise fuel index t = some u → Any.Steps arr promise fuel s u

/-- The input `[promise 1, 5]` in `rejectedHeap`: a failure, then a success. -/
def anyInput : List Value := [Value.promise 1, Value.int 5]

/-- Goroutine 1 up to its increment of `count`, then goroutine 0 to its end,
then the rest of goroutine 1. -/
def anyFailingSchedule : List Nat := [1, 1, 0, 0, 0, 0, 0, 0, 0, 0, 1, 1, 1, 1]

/-- Each goroutine of `Any` runs from its first to its last statement in
turn. -/
def anySequentialSchedule : List Nat := [0, 0, 0, 0, 0, 0, 0, 0, 1, 1, 1, 1, 1, 1, 1, 1]

/-- Promise 1 rejected with "e1" and promise 2 rejected with "e2". -/
def twoRejectedHeap : Heap :=
  rejectPromise 2 (some (.errorString "e2")) (rejectPromise 1 (some (.errorString "e1")) emptyHeap)

/-- The input `[promise 1, promise 2]` in `twoRejectedHeap`: two failures. -/
def allFailInput : List Value := [Value.promise 1, Value.promise 2]

/-- Goroutine 0 up to its increment of `count`, then goroutine 1 to its end,
then the rest of goroutine 0. -/
def allFailSchedule : List Nat := [0, 0, 1, 1, 1, 1, 1, 1, 1, 1, 0, 0, 0, 0]

/-! ## The combinator `AllSettled`, statement by statement -/

/-- The struct `PromiseSettled`; `Status` is a `PromiseStatus`, a string. -/
structure PromiseSettled where
  Status : String
  Reason : Err
  Value : GoPromise.Value
  deriving DecidableEq

/-- Constant `PromiseStatusFulfilled`. -/
def PromiseStatusFulfilled : String := "fulfilled"

/-- Constant `PromiseStatusRejected`. -/
def PromiseStatusRejected : String := "rejected"

/-- The zero value of `PromiseSettled`, which `make` fills the slice with. -/
def PromiseSettled.zero : PromiseSettled :=
  { Status := "", Reason := none, Value := GoPromise.Value.nil }

/-- The record a goroutine of `AllSettled` builds from its locals. -/
def PromiseSettled.of (unpacked : GoPromise.Value) (reason : Err) : PromiseSettled :=
  { Status := match reason with
      | none => PromiseStatusFulfilled
      | some _ => PromiseStatusRejected
    Reason := reason
    Value := unpacked }

/-- The statement a goroutine of `AllSettled` is about to run. -/
inductive SettledPc where
  | unpack
  | add
  | record
  | check
  | settle
  | finished
  deriving DecidableEq

/-- The variables of one call of `AllSettled`; `settled` is the backing array
of the slice. -/
structure AllSettledState where
  heap : Heap
  count : Nat
  settled : List PromiseSettled
  pc : Nat → SettledPc
  unpacked : Nat → Value
  reason : Nat → Err

/-- The state after `createPromise` and the declarations of the outer
goroutine of `AllSettled`. -/
def AllSettled.init (arr : List Value) (promise : Ptr) (h : Heap) : AllSettledState :=
  { heap := createPromise promise h
    count := 0
    settled := List.replicate (lengthUint32 arr) PromiseSettled.zero
    pc := fun _ => .unpack
    unpacked := fun _ => Value.nil
    reason := fun _ => none }

/-- Goroutine `index` of `AllSettled` runs its next statement. `settledAddr`
is the address of the backing array of `settled`. -/
def AllSettled.step (arr : List Value) (promise settledAddr : Ptr) (fuel : Nat) (index : Nat)
    (s : AllSettledState) : Option AllSettledState :=
  if index < arr.length then
    match s.pc index with
    | .unpack =>
      match unpackPromise s.heap fuel (arr.getD index Value.nil) with
      | .done (unpacked, reason) =>
        some { s with unpacked := Function.update s.unpacked index unpacked
                      reason := Function.update s.reason index reason
                      pc := Function.update s.pc index .add }
      | .blocked _ => none
      | .outOfFuel => none
    | .add =>
      some { s with count := (s.count + 1) % 2 ^ 32, pc := Function.update s.pc index .record }
    | .record =>
      some { s with settled :=
                      s.settled.set index (PromiseSettled.of (s.unpacked index) (s.reason index))
                    pc := Function.update s.pc index .check }
    | .check =>
      if s.count = lengthUint32 arr then
        some { s with pc := Function.update s.pc index .settle }
      else some { s with pc := Function.update s.pc index .finished }
    | .settle =>
      some { s with heap := fulfillPromise promise (Value.slice settledAddr) s.heap
                    pc := Function.update s.pc index .finished }
    | .finished => none
  else none

/-- The schedule given as a list of goroutine numbers, run from `s`; a
goroutine that cannot step is skipped. -/
def AllSettled.run (arr : List Value) (promise settledAddr : Ptr) (fuel : Nat) :
    List Nat → AllSettledState → AllSettledState
  | [], s => s
  | index :: rest, s =>
    match AllSettled.step arr promise settledAddr fuel index s with
    | some t => AllSettled.run arr promise settledAddr fuel rest t
    | none => AllSettled.run arr promise settledAddr fuel rest s

/-- Any number of statements of any goroutines of `AllSettled`, in any
order. -/
inductive AllSettled.Steps (arr : List Value) (promise settledAddr : Ptr) (fuel : Nat) :
    AllSettledState → AllSettledState → Prop
  | refl (s : AllSettledState) : AllSettled.Steps arr promise settledAddr fuel s s
  | tail {s t u : AllSettledState} (index : Nat) :
      AllSettled.Steps arr promise settledAddr fuel s t →
      AllSettled.step arr promise settledAddr fuel index t = some u →
      AllSettled.Steps arr promise settledAddr fuel s u

/-- The input `[1, promise 1]` in `rejectedHeap`: a success, then a failure. -/
def settledInput : List Value := [Value.int 1, Value.promise 1]

/-- Goroutine 1 runs to its comparison of `count`, then goroutine 0 to its
end. -/
def settledSchedule : List Nat := [1, 1, 1, 1, 0, 0, 0, 0, 0]

/-- The goroutine has incremented `count`. -/
def SettledPc.counted : SettledPc → Bool
  | .unpack => false
  | .add => false
  | _ => true

/-- The goroutine has written its record. -/
def SettledPc.recorded : SettledPc → Bool
  | .check => true
  | .settle => true
  | .finished => true
  | _ => false

/-- The goroutine has not yet compared `count` with `length`. -/
def SettledPc.undecided : SettledPc → Bool
  | .unpack => true
  | .add => true
  | .record => true
  | .check => true
  | _ => false

/-- What holds in every state of a call of `AllSettled` whose element `i`
unwraps to the pair `res i`, for every `i`. -/
structure AllSettled.Inv (arr : List Value) (promise settledAddr : Ptr) (h0 : Heap)
    (res : Nat → Value × Err) (s : AllSettledState) : Prop where
  heap_other : ∀ q, q ≠ promise → s.heap q = h0 q
  heap_promise : s.heap promise = newPromise ∨ s.heap promise = allFulfilled settledAddr
  length : s.settled.length = arr.length
  locals : ∀ i, i < arr.length → s.pc i ≠ .unpack → (s.unpacked i, s.reason i) = res i
  slots : ∀ i, i < arr.length → (s.pc i).recorded = true →
    s.settled[i]? = some (PromiseSettled.of (res i).1 (res i).2)
  count : s.count = ((Finset.range arr.length).filter (fun i => (s.pc i).counted = true)).card
  live : (∃ i, i < arr.length ∧ (s.pc i).undecided = true) ∨
    (∃ i, i < arr.length ∧ s.pc i = .settle) ∨
    s.heap promise = allFulfilled settledAddr

/-- The pairs the elements of `settledInput` unwrap to. -/
def settledResults : Nat → Value × Err := fun i =>
  if i = 0 then (Value.int 1, none) else (Value.nil, some (.errorString "boom"))

/-! ## The bridge `PromisifyPanic` -/

/-- Function `wrapPanic`. `valueAddr` is the address of the parameter
`value`, which the fallback message prints with `%p`. -/
def wrapPanic (valueAddr : Ptr) (value : Value) : GoError :=
  match value with
  | .error err => err
  | .str str => .errorString str
  | _ => .errorString ("panic handled with " ++ fmtPointer valueAddr)

/-- How a call of a `FunctionWithPanic` ends: it returns a value, or it
panics with a payload. -/
inductive Outcome where
  | returned (result : Value)
  | panicked (payload : Value)
  deriving DecidableEq

/-- The type `FunctionWithPanic`: a closure from the heap to the way it ends
and the heap it leaves. -/
abbrev FunctionWithPanic := Heap → Outcome × Heap

/-- Function `PromisifyPanic`, through `promise.New`: the promise is built at
`addr`, `fn` runs, and either `resolve` is called with its result or the
deferred function recovers the payload and, when it is not nil, calls
`reject` with `wrapPanic` of it. The deferred function calls `recover`, so no
panic of `fn` leaves `PromisifyPanic`. -/
def PromisifyPanic (fn : FunctionWithPanic) (addr valueAddr : Ptr) (fuel : Nat) (h : Heap) : Run :=
  let r := fn (createPromise addr h)
  match r.1 with
  | .returned result => Run.ofResult (assignPromise fuel addr result r.2) r.2 []
  | .panicked value =>
    if value = Value.nil then { heap := r.2, calls := [], control := .returned }
    else
      { heap := rejectPromise addr (some (wrapPanic valueAddr value)) r.2, calls := [],
        control := .returned }

/-- A function that returns the given value and touches nothing. -/
def fnReturn (result : Value) : FunctionWithPanic := fun h => (.returned result, h)

/-- A function that panics with the given payload and touches nothing. -/
def fnPanic (payload : Value) : FunctionWithPanic := fun h => (.panicked payload, h)

/-- Goroutines 0 and 1 each run `unpackPromise` and the increment of
`count`, and nothing else. -/
def countedSchedule : List Nat := [0, 0, 1, 1]

/-- Promise 1 rejected with the nil reason; every other promise pending. -/
def nilRejectedHeap : Heap := rejectPromise 1 none emptyHeap

/-- The number of statements the goroutine still has to run, at most. -/
def SettledPc.remaining : SettledPc → Nat
  | .unpack => 5
  | .add => 4
  | .record => 3
  | .check => 2
  | .settle => 1
  | .finished => 0

/-- The number of statements the goroutines of `AllSettled` still have to
run, at most. -/
def AllSettled.measure (arr : List Value) (s : AllSettledState) : Nat :=
  (Finset.range arr.length).sum (fun i => (s.pc i).remaining)

/-- A then-handler that tallies its invocations in two deferreds it has
captured: it resolves the first one that is still pending with its argument,
and returns `(nil, nil)`. -/
def thenTally (d1 d2 : Ptr) : PromiseThen := fun result h =>
  ((Value.nil, none),
    if (h d1).status = internalPending then (Deferred.Resolve ⟨d1⟩ 0 result h).heapOr h
    else (Deferred.Resolve ⟨d2⟩ 0 result h).heapOr h)

/-- A catch-handler that tallies its invocations in two deferreds it has
captured: it rejects the first one that is still pending with its argument,
and returns `(nil, nil)`. -/
def catchTally (d1 d2 : Ptr) : PromiseCatch := fun reason h =>
  ((Value.nil, none),
    if (h d1).status = internalPending then (Deferred.Reject ⟨d1⟩ reason h).heapOr h
    else (Deferred.Reject ⟨d2⟩ reason h).heapOr h)

/-- The heap left by one invocation, in `h`, of the handler that matches the
attempt, with the value or reason of the attempt as argument. -/
def Attempt.handled (then_ : PromiseThen) (catch_ : PromiseCatch) (a : Attempt) (h : Heap) :
    Heap :=
  match a with
  | .resolve v => (then_ v h).2
  | .reject r => (catch_ r h).2

/-- Goroutine 1 runs `unpackPromise` and the increment of `count`, then
goroutine 0 runs to its end. -/
def earlySettleSchedule : List Nat := [1, 1, 0, 0, 0, 0, 0]

/-! ## Settlement lemmas -/

theorem fulfillPromise_pending (promise : Ptr) (v : Value) (h : Heap)
    (hs : (h promise).status = internalPending) :
    fulfillPromise promise v h = Function.update h promise
      { h promise with status := internalFulfilled, fulfilled := v, wait := true } := by
  simp [fulfillPromise, compareAndSwapStatus, hs, closeWait]

theorem rejectPromise_pending (promise : Ptr) (r : Err) (h : Heap)
    (hs : (h promise).status = internalPending) :
    rejectPromise promise r h = Function.update h promise
      { h promise with status := internalRejected, rejected := r, wait := true } := by
  simp [rejectPromise, compareAndSwapStatus, hs, closeWait]

theorem fulfillPromise_settled (promise : Ptr) (v : Value) (h : Heap)
    (hs : (h promise).status ≠ internalPending) : fulfillPromise promise v h = h := by
  simp [fulfillPromise, compareAndSwapStatus, hs]

theorem rejectPromise_settled (promise : Ptr) (r : Err) (h : Heap)
    (hs : (h promise).status ≠ internalPending) : rejectPromise promise r h = h := by
  simp [rejectPromise, compareAndSwapStatus, hs]

theorem fulfillPromise_other (promise q : Ptr) (v : Value) (h : Heap) (hq : q ≠ promise) :
    fulfillPromise promise v h q = h q := by
  unfold fulfillPromise
  dsimp only
  split
  · exact Function.update_noteq hq _ _
  · rfl

theorem rejectPromise_other (promise q : Ptr) (r : Err) (h : Heap) (hq : q ≠ promise) :
    rejectPromise promise r h q = h q := by
  unfold rejectPromise
  dsimp only
  split
  · exact Function.update_noteq hq _ _
  · rfl

theorem unpackPromise_plain (h : Heap) (fuel : Nat) (v : Value) (hv : v.isPlain = true) :
    unpackPromise h fuel v = .done (v, none) := by
  cases v <;> simp_all [Value.isPlain, unpackPromise]

theorem Deferred.attempt_pending (d : Deferred) (fuel : Nat) (a : Attempt) (h : Heap)
    (ha : a.isPlain = true) (hs : (h d.Promise).status = internalPending) :
    d.attempt fuel a h = .done (Function.update h d.Promise (a.settle (h d.Promise))) := by
  cases a with
  | resolve v =>
    have hv : v.isPlain = true := ha
    simp [Deferred.attempt, Deferred.Resolve, assignPromise, unpackPromise_plain h fuel v hv,
      fulfillPromise_pending _ _ _ hs, Attempt.settle]
  | reject r =>
    simp [Deferred.attempt, Deferred.Reject, rejectPromise_pending _ _ _ hs, Attempt.settle]

theorem Deferred.attempt_settled (d : Deferred) (fuel : Nat) (a : Attempt) (h : Heap)
    (ha : a.isPlain = true) (hs : (h d.Promise).status ≠ internalPending) :
    d.attempt fuel a h = .done h := by
  cases a with
  | resolve v =>
    have hv : v.isPlain = true := ha
    simp [Deferred.attempt, Deferred.Resolve, assignPromise, unpackPromise_plain h fuel v hv,
      fulfillPromise_settled _ _ _ hs]
  | reject r =>
    simp [Deferred.attempt, Deferred.Reject, rejectPromise_settled _ _ _ hs]

theorem Deferred.attempts_settled (d : Deferred) (fuel : Nat) (as : List Attempt) (h : Heap)
    (hall : ∀ a ∈ as, a.isPlain = true) (hs : (h d.Promise).status ≠ internalPending) :
    d.attempts fuel as h = h := by
  induction as with
  | nil => rfl
  | cons a rest ih =>
    have ha := hall a (List.mem_cons_self a rest)
    have hrest : ∀ b ∈ rest, b.isPlain = true := fun b hb => hall b (List.mem_cons_of_mem a hb)
    have step : d.attempts fuel (a :: rest) h
        = d.attempts fuel rest ((d.attempt fuel a h).heapOr h) := rfl
    rw [step, Deferred.attempt_settled d fuel a h ha hs]
    exact ih hrest

theorem Attempt.settle_status_ne (c : Promise) (a : Attempt) :
    (a.settle c).status ≠ internalPending := by
  cases a <;> simp [Attempt.settle]

/-! ## Exactly-once settlement -/

/-- C1. Exactly-once settlement: on a pending promise the first attempt of a
sequence of settlement attempts (`Deferred.Resolve` with a plain value,
`Deferred.Reject`) returns and moves the promise to its own terminal state;
every later attempt returns and leaves the whole heap, hence status, value
and reason, unchanged; so the sequence ends in the state of the first
attempt. -/
theorem exactly_once_settlement (d : Deferred) (fuel : Nat) (h : Heap) (a : Attempt)
    (rest : List Attempt) (hpend : (h d.Promise).status = internalPending)
    (ha : a.isPlain = true) (hrest : ∀ b ∈ rest, b.isPlain = true) :
    ∃ settled : Heap,
      d.attempt fuel a h = .done settled ∧
      (∀ v, a = .resolve v →
        (settled d.Promise).status = internalFulfilled ∧ (settled d.Promise).fulfilled = v ∧
        (settled d.Promise).rejected = (h d.Promise).rejected ∧ (settled d.Promise).wait = true) ∧
      (∀ r, a = .reject r →
        (settled d.Promise).status = internalRejected ∧ (settled d.Promise).rejected = r ∧
        (settled d.Promise).fulfilled = (h d.Promise).fulfilled ∧ (settled d.Promise).wait = true) ∧
      (∀ b : Attempt, b.isPlain = true → d.attempt fuel b settled = .done settled) ∧
      d.attempts fuel (a :: rest) h = settled := by
  refine ⟨Function.update h d.Promise (a.settle (h d.Promise)),
    Deferred.attempt_pending d fuel a h ha hpend, ?_, ?_, ?_, ?_⟩
  · rintro v rfl
    simp [Attempt.settle]
  · rintro r rfl
    simp [Attempt.settle]
  · intro b hb
    apply Deferred.attempt_settled d fuel b _ hb
    simp only [Function.update_same]
    exact Attempt.settle_status_ne _ _
  · have step : d.attempts fuel (a :: rest) h
        = d.attempts fuel rest ((d.attempt fuel a h).heapOr h) := rfl
    rw [step, Deferred.attempt_pending d fuel a h ha hpend]
    apply Deferred.attempts_settled d fuel rest _ hrest
    simp only [Result.heapOr, Function.update_same]
    exact Attempt.settle_status_ne _ _

/-- Witness of C1: `Resolve(1)` then `Reject(e)` then `Resolve(2)` on a fresh deferred. -/
theorem exactly_once_settlement_witness :
    ∃ settled : Heap,
      (Deferred.attempt ⟨0⟩ 0 (.resolve (.int 1)) emptyHeap = .done settled) ∧
      (∀ v, Attempt.resolve (.int 1) = .resolve v →
        (settled 0).status = internalFulfilled ∧ (settled 0).fulfilled = v ∧
        (settled 0).rejected = (emptyHeap 0).rejected ∧ (settled 0).wait = true) ∧
      (∀ r, Attempt.resolve (.int 1) = .reject r →
        (settled 0).status = internalRejected ∧ (settled 0).rejected = r ∧
        (settled 0).fulfilled = (emptyHeap 0).fulfilled ∧ (settled 0).wait = true) ∧
      (∀ b : Attempt, b.isPlain = true →
        Deferred.attempt ⟨0⟩ 0 b settled = .done settled) ∧
      Deferred.attempts ⟨0⟩ 0
        [.resolve (.int 1), .reject (some (.errorString "e")), .resolve (.int 2)] emptyHeap
        = settled :=
  exactly_once_settlement ⟨0⟩ 0 emptyHeap (.resolve (.int 1))
    [.reject (some (.errorString "e")), .resolve (.int 2)] rfl rfl (by decide)

/-! ## Unwrapping -/

theorem unpackPromise_promise_fulfilled (h : Heap) (fuel : Nat) (p : Ptr)
    (hw : (h p).wait = true) (hs : (h p).status = internalFulfilled) :
    unpackPromise h (fuel + 1) (.promise p) = unpackPromise h fuel (h p).fulfilled := by
  simp [unpackPromise, hw, hs]

theorem unpackPromise_promise_rejected (h : Heap) (fuel : Nat) (p : Ptr)
    (hw : (h p).wait = true) (hs : (h p).status = internalRejected) :
    unpackPromise h fuel (.promise p) = .done (Value.nil, (h p).rejected) := by
  cases fuel <;> simp [unpackPromise, hw, hs]

theorem unpackPromise_promise_open (h : Heap) (fuel : Nat) (p : Ptr)
    (hw : (h p).wait = false) :
    unpackPromise h fuel (.promise p) = .blocked p := by
  cases fuel <;> simp [unpackPromise, hw]

theorem unpackPromise_nestedFulfilled (h : Heap) (V : Value) (n : Nat) :
    ∀ (fuel : Nat) (c : Value), n ≤ fuel → nestedFulfilled h V n c = true →
      unpackPromise h fuel c = .done (V, none) := by
  induction n with
  | zero =>
    intro fuel c _ hn
    simp only [nestedFulfilled, Bool.and_eq_true, decide_eq_true_eq] at hn
    rw [hn.2]
    exact unpackPromise_plain h fuel V hn.1
  | succ n ih =>
    intro fuel c hf hn
    cases c with
    | promise p =>
      simp only [nestedFulfilled, Bool.and_eq_true, decide_eq_true_eq] at hn
      obtain ⟨⟨hw, hs⟩, hrec⟩ := hn
      obtain ⟨k, rfl⟩ : ∃ k, fuel = k + 1 := ⟨fuel - 1, by omega⟩
      rw [unpackPromise_promise_fulfilled h k p hw hs]
      exact ih k _ (by omega) hrec
    | nil => simp [nestedFulfilled] at hn
    | bool b => simp [nestedFulfilled] at hn
    | int i => simp [nestedFulfilled] at hn
    | str t => simp [nestedFulfilled] at hn
    | slice a => simp [nestedFulfilled] at hn
    | error e => simp [nestedFulfilled] at hn

theorem unpackPromise_nestedRejected (h : Heap) (R : Err) (n : Nat) :
    ∀ (fuel : Nat) (c : Value), n ≤ fuel → nestedRejected h R n c = true →
      unpackPromise h fuel c = .done (Value.nil, R) := by
  induction n with
  | zero =>
    intro fuel c _ hn
    cases c with
    | promise p =>
      simp only [nestedRejected, Bool.and_eq_true, decide_eq_true_eq] at hn
      obtain ⟨⟨hw, hs⟩, hr⟩ := hn
      rw [unpackPromise_promise_rejected h fuel p hw hs, hr]
    | nil => simp [nestedRejected] at hn
    | bool b => simp [nestedRejected] at hn
    | int i => simp [nestedRejected] at hn
    | str t => simp [nestedRejected] at hn
    | slice a => simp [nestedRejected] at hn
    | error e => simp [nestedRejected] at hn
  | succ n ih =>
    intro fuel c hf hn
    cases c with
    | promise p =>
      simp only [nestedRejected, Bool.and_eq_true, decide_eq_true_eq] at hn
      obtain ⟨⟨hw, hs⟩, hrec⟩ := hn
      obtain ⟨k, rfl⟩ : ∃ k, fuel = k + 1 := ⟨fuel - 1, by omega⟩
      rw [unpackPromise_promise_fulfilled h k p hw hs]
      exact ih k _ (by omega) hrec
    | nil => simp [nestedRejected] at hn
    | bool b => simp [nestedRejected] at hn
    | int i => simp [nestedRejected] at hn
    | str t => simp [nestedRejected] at hn
    | slice a => simp [nestedRejected] at hn
    | error e => simp [nestedRejected] at hn

theorem assignPromise_of_unpack (fuel : Nat) (promise : Ptr) (packed unpacked : Value)
    (h : Heap) (hu : unpackPromise h fuel packed = .done (unpacked, none)) :
    assignPromise fuel promise packed h = .done (fulfillPromise promise unpacked h) := by
  simp [assignPromise, hu]

theorem assignPromise_of_unpack_reason (fuel : Nat) (promise : Ptr) (packed unpacked : Value)
    (e : GoError) (h : Heap) (hu : unpackPromise h fuel packed = .done (unpacked, some e)) :
    assignPromise fuel promise packed h = .done (rejectPromise promise (some e) h) := by
  simp [assignPromise, hu]

/-- C2, as stated, fails for the absent reason: a promise resolved with a
promise that was rejected with nil is fulfilled with nil, not rejected. -/
theorem unwrap_nil_reason_counterexample :
    nestedRejected (rejectPromise 1 none emptyHeap) none 0 (.promise 1) = true ∧
    (rejectPromise 1 none emptyHeap 1).status = internalRejected ∧
    (rejectPromise 1 none emptyHeap 0).status = internalPending ∧
    ∃ h1, assignPromise 1 0 (.promise 1) (rejectPromise 1 none emptyHeap) = .done h1 ∧
      (h1 0).status = internalFulfilled ∧ (h1 0).status ≠ internalRejected ∧
      (h1 0).fulfilled = Value.nil := by
  refine ⟨by decide, by decide, by decide, _, rfl, by decide, by decide, by decide⟩

/-- C2 (amended). Unwrap flattening: for every depth `n` and every bound
`fuel ≥ n` on the recursion, resolving a pending promise with the plain value
`V` wrapped in `n` fulfilled promises returns and fulfills it with exactly
`V` (`unpackPromise` returns `(V, nil)`; `n = 0` is the plain candidate);
with a promise rejected with a present reason `e` below `n` fulfilled
promises, it is rejected with `e`; with a promise rejected with the absent
reason there, it is fulfilled with nil. -/
theorem unwrap_flattening (h : Heap) (promise : Ptr) (n fuel : Nat) (c : Value)
    (hfuel : n ≤ fuel) (hpend : (h promise).status = internalPending) :
    (∀ V, nestedFulfilled h V n c = true →
      unpackPromise h fuel c = .done (V, none) ∧
      ∃ h1, assignPromise fuel promise c h = .done h1 ∧
        (h1 promise).status = internalFulfilled ∧ (h1 promise).fulfilled = V ∧
        (h1 promise).rejected = (h promise).rejected ∧ (h1 promise).wait = true) ∧
    (∀ e, nestedRejected h (some e) n c = true →
      unpackPromise h fuel c = .done (Value.nil, some e) ∧
      ∃ h1, assignPromise fuel promise c h = .done h1 ∧
        (h1 promise).status = internalRejected ∧ (h1 promise).rejected = some e ∧
        (h1 promise).wait = true) ∧
    (nestedRejected h none n c = true →
      unpackPromise h fuel c = .done (Value.nil, none) ∧
      ∃ h1, assignPromise fuel promise c h = .done h1 ∧
        (h1 promise).status = internalFulfilled ∧ (h1 promise).fulfilled = Value.nil ∧
        (h1 promise).wait = true) := by
  refine ⟨?_, ?_, ?_⟩
  · intro V hn
    have hu := unpackPromise_nestedFulfilled h V n fuel c hfuel hn
    refine ⟨hu, _, assignPromise_of_unpack fuel promise c V h hu, ?_⟩
    simp [fulfillPromise_pending _ _ _ hpend]
  · intro e hn
    have hu := unpackPromise_nestedRejected h (some e) n fuel c hfuel hn
    refine ⟨hu, _, assignPromise_of_unpack_reason fuel promise c Value.nil e h hu, ?_⟩
    simp [rejectPromise_pending _ _ _ hpend]
  · intro hn
    have hu := unpackPromise_nestedRejected h none n fuel c hfuel hn
    refine ⟨hu, _, assignPromise_of_unpack fuel promise c Value.nil h hu, ?_⟩
    simp [fulfillPromise_pending _ _ _ hpend]

/-- Witness of C2: promise 2 fulfilled with promise 1 fulfilled with 7. -/
theorem unwrap_flattening_witness :
    nestedFulfilled nestHeap (.int 7) 2 (.promise 2) = true ∧
    unpackPromise nestHeap 2 (.promise 2) = .done (.int 7, none) ∧
    ∃ h1, assignPromise 2 0 (.promise 2) nestHeap = .done h1 ∧
      (h1 0).status = internalFulfilled ∧ (h1 0).fulfilled = .int 7 ∧
      (h1 0).rejected = (nestHeap 0).rejected ∧ (h1 0).wait = true :=
  ⟨by decide,
    (unwrap_flattening nestHeap 0 2 2 (.promise 2) (by decide) (by decide)).1 (.int 7)
      (by decide)⟩

/-! ## The resolve algorithm -/

theorem resolvePromise_self (fuel : Nat) (promise : Ptr) (reason : Err) (h : Heap) :
    resolvePromise fuel promise (.promise promise) reason h
      = .done (rejectPromise promise (some (chainingCycleError promise)) h) := by
  simp [resolvePromise]

theorem resolvePromise_reason (fuel : Nat) (promise : Ptr) (packed : Value) (e : GoError)
    (h : Heap) (hne : packed ≠ .promise promise) :
    resolvePromise fuel promise packed (some e) h = .done (rejectPromise promise (some e) h) := by
  simp [resolvePromise, hne]

theorem resolvePromise_assign (fuel : Nat) (promise : Ptr) (packed : Value)
    (h : Heap) (hne : packed ≠ .promise promise) :
    resolvePromise fuel promise packed none h = assignPromise fuel promise packed h := by
  simp [resolvePromise, hne]

theorem chainingCycleError_contains (promise : Ptr) :
    ∃ msg, (chainingCycleError promise).Error = some msg ∧
      stringsContains msg "Chaining cycle detected for promise" := by
  refine ⟨_, rfl, ?_⟩
  unfold stringsContains
  rw [String.data_append]
  exact ⟨[], [Char.ofNat 32] ++ (fmtPointer promise).data, by simp⟩

/-- C3, as stated, fails when the candidate is the derived promise itself:
with the present reason "R" the promise is rejected with the chaining-cycle
error, not with "R". -/
theorem resolve_precedence_counterexample :
    (emptyHeap 0).status = internalPending ∧
    ∃ h1, resolvePromise 0 0 (.promise 0) (some (.errorString "R")) emptyHeap = .done h1 ∧
      (h1 0).status = internalRejected ∧
      (h1 0).rejected = some (chainingCycleError 0) ∧
      (h1 0).rejected ≠ some (.errorString "R") := by
  refine ⟨by decide, _, rfl, by decide, by decide, by decide⟩

/-- C3 (amended). For every present reason `e` and every candidate other than
the derived promise itself (a plain value or another promise, settled or
not), `resolvePromise` returns without unwrapping and rejects the pending
derived promise with exactly `e`; when the candidate is the derived promise
itself the chaining-cycle check comes first and the promise is rejected with
the chaining-cycle error whether or not a reason is present; the unwrap
(`assignPromise`) is applied only when the candidate is not the derived
promise and no reason is present. -/
theorem resolve_precedence (fuel : Nat) (promise : Ptr) (packed : Value) (e : GoError)
    (h : Heap) (hpend : (h promise).status = internalPending) :
    (packed ≠ .promise promise →
      ∃ h1, resolvePromise fuel promise packed (some e) h = .done h1 ∧
        (h1 promise).status = internalRejected ∧ (h1 promise).rejected = some e ∧
        (h1 promise).fulfilled = (h promise).fulfilled ∧ (h1 promise).wait = true) ∧
    (∀ reason : Err, ∃ h1,
        resolvePromise fuel promise (.promise promise) reason h = .done h1 ∧
        (h1 promise).status = internalRejected ∧
        (h1 promise).rejected = some (chainingCycleError promise) ∧
        (h1 promise).wait = true) ∧
    (packed ≠ .promise promise →
      resolvePromise fuel promise packed none h = assignPromise fuel promise packed h) := by
  refine ⟨?_, ?_, ?_⟩
  · intro hne
    refine ⟨_, resolvePromise_reason fuel promise packed e h hne, ?_⟩
    simp [rejectPromise_pending _ _ _ hpend]
  · intro reason
    refine ⟨_, resolvePromise_self fuel promise reason h, ?_⟩
    simp [rejectPromise_pending _ _ _ hpend]
  · exact resolvePromise_assign fuel promise packed h

/-- Witness of C3: candidate promise 1 (still pending) with reason "R". -/
theorem resolve_precedence_witness :
    ∃ h1, resolvePromise 0 0 (.promise 1) (some (.errorString "R")) emptyHeap = .done h1 ∧
      (h1 0).status = internalRejected ∧ (h1 0).rejected = some (.errorString "R") ∧
      (h1 0).fulfilled = (emptyHeap 0).fulfilled ∧ (h1 0).wait = true :=
  (resolve_precedence 0 0 (.promise 1) (.errorString "R") emptyHeap (by decide)).1 (by decide)

theorem isCycleRejected_rejectPromise (promise : Ptr) (h : Heap)
    (hpend : (h promise).status = internalPending) :
    (rejectPromise promise (some (chainingCycleError promise)) h promise).isCycleRejected
      = true := by
  obtain ⟨msg, hmsg, hc⟩ := chainingCycleError_contains promise
  simp [rejectPromise_pending _ _ _ hpend, Promise.isCycleRejected, hmsg, hc]

/-- C4. Direct cycle detection: when the source is settled and the handler
that matches its status (the handler of `Then` on a fulfilled source, of
`Catch` on a rejected source, either one of `ThenCatch`) returns the derived
promise itself with no reason, the goroutine returns and the derived promise
is rejected with an error whose message contains "Chaining cycle detected
for promise"; it is neither fulfilled nor pending. -/
theorem direct_cycle_detection (self promise : Ptr) (fuel : Nat) (h : Heap)
    (hw : (h self).wait = true) :
    (∀ then_ : PromiseThen, (h self).status = internalFulfilled →
      (then_ (h self).fulfilled h).1 = (Value.promise promise, none) →
      ((then_ (h self).fulfilled h).2 promise).status = internalPending →
      (Then.goroutine self promise then_ fuel h).control = .returned ∧
      ((Then.goroutine self promise then_ fuel h).heap promise).isCycleRejected = true ∧
      ((Then.goroutine self promise then_ fuel h).heap promise).status ≠ internalFulfilled ∧
      ((Then.goroutine self promise then_ fuel h).heap promise).status ≠ internalPending) ∧
    (∀ catch_ : PromiseCatch, (h self).status = internalRejected →
      (catch_ (h self).rejected h).1 = (Value.promise promise, none) →
      ((catch_ (h self).rejected h).2 promise).status = internalPending →
      (Catch.goroutine self promise catch_ fuel h).control = .returned ∧
      ((Catch.goroutine self promise catch_ fuel h).heap promise).isCycleRejected = true ∧
      ((Catch.goroutine self promise catch_ fuel h).heap promise).status ≠ internalFulfilled ∧
      ((Catch.goroutine self promise catch_ fuel h).heap promise).status ≠ internalPending) ∧
    (∀ (then_ : PromiseThen) (catch_ : PromiseCatch), (h self).status = internalFulfilled →
      (then_ (h self).fulfilled h).1 = (Value.promise promise, none) →
      ((then_ (h self).fulfilled h).2 promise).status = internalPending →
      (ThenCatch.goroutine self promise then_ catch_ fuel h).control = .returned ∧
      ((ThenCatch.goroutine self promise then_ catch_ fuel h).heap promise).isCycleRejected
        = true) ∧
    (∀ (then_ : PromiseThen) (catch_ : PromiseCatch), (h self).status = internalRejected →
      (catch_ (h self).rejected h).1 = (Value.promise promise, none) →
      ((catch_ (h self).rejected h).2 promise).status = internalPending →
      (ThenCatch.goroutine self promise then_ catch_ fuel h).control = .returned ∧
      ((ThenCatch.goroutine self promise then_ catch_ fuel h).heap promise).isCycleRejected
        = true) := by
  have key : ∀ (h1 : Heap) (calls : List Call), (h1 promise).status = internalPending →
      (Run.ofResult (resolvePromise fuel promise (Value.promise promise) none h1) h1
          calls).control = .returned ∧
      ((Run.ofResult (resolvePromise fuel promise (Value.promise promise) none h1) h1
          calls).heap promise).isCycleRejected = true ∧
      ((Run.ofResult (resolvePromise fuel promise (Value.promise promise) none h1) h1
          calls).heap promise).status ≠ internalFulfilled ∧
      ((Run.ofResult (resolvePromise fuel promise (Value.promise promise) none h1) h1
          calls).heap promise).status ≠ internalPending := by
    intro h1 calls hp
    rw [resolvePromise_self]
    refine ⟨rfl, isCycleRejected_rejectPromise promise h1 hp, ?_, ?_⟩ <;>
      simp [Run.ofResult, rejectPromise_pending _ _ _ hp]
  refine ⟨?_, ?_, ?_, ?_⟩
  · intro then_ hs hret hp
    have hk := key _ [Call.onFulfilled (h self).fulfilled] hp
    have e1 : (then_ (h self).fulfilled h).1.1 = Value.promise promise := by rw [hret]
    have e2 : (then_ (h self).fulfilled h).1.2 = none := by rw [hret]
    simpa [Then.goroutine, hw, hs, e1, e2] using hk
  · intro catch_ hs hret hp
    have hk := key _ [Call.onRejected (h self).rejected] hp
    have e1 : (catch_ (h self).rejected h).1.1 = Value.promise promise := by rw [hret]
    have e2 : (catch_ (h self).rejected h).1.2 = none := by rw [hret]
    simpa [Catch.goroutine, hw, hs, e1, e2] using hk
  · intro then_ catch_ hs hret hp
    have hk := key _ [Call.onFulfilled (h self).fulfilled] hp
    have e1 : (then_ (h self).fulfilled h).1.1 = Value.promise promise := by rw [hret]
    have e2 : (then_ (h self).fulfilled h).1.2 = none := by rw [hret]
    simpa [ThenCatch.goroutine, hw, hs, e1, e2] using ⟨hk.1, hk.2.1⟩
  · intro then_ catch_ hs hret hp
    have hk := key _ [Call.onRejected (h self).rejected] hp
    have e1 : (catch_ (h self).rejected h).1.1 = Value.promise promise := by rw [hret]
    have e2 : (catch_ (h self).rejected h).1.2 = none := by rw [hret]
    simpa [ThenCatch.goroutine, hw, hs, e1, e2] using ⟨hk.1, hk.2.1⟩

/-- Witness of C4: promise 1 is fulfilled, the handler of `Then` returns the
derived promise 0. -/
theorem direct_cycle_detection_witness :
    (fulfilledHeap 1).wait = true ∧
    (Then.goroutine 1 0 (thenReturn (.promise 0) none) 0 fulfilledHeap).control = .returned ∧
    ((Then.goroutine 1 0 (thenReturn (.promise 0) none) 0 fulfilledHeap).heap 0).isCycleRejected
      = true ∧
    ((Then.goroutine 1 0 (thenReturn (.promise 0) none) 0 fulfilledHeap).heap 0).status
      ≠ internalFulfilled ∧
    ((Then.goroutine 1 0 (thenReturn (.promise 0) none) 0 fulfilledHeap).heap 0).status
      ≠ internalPending :=
  ⟨by decide, (direct_cycle_detection 1 0 0 fulfilledHeap (by decide)).1
    (thenReturn (.promise 0) none) (by decide) rfl (by decide)⟩

/-! ## Self-settlement -/

/-- C5, as stated, fails. On a fresh deferred, `Resolve` with its own promise
does not return: it blocks on the promise it is to settle, which stays
pending. With two fresh deferreds, resolving promise 0 with promise 1 while
promise 1 is to be resolved with promise 0 blocks both calls, and nothing is
rejected. -/
theorem self_settlement_counterexample :
    ((Deferred.New 0 emptyHeap).1.Promise = 0 ∧
      ((Deferred.New 0 emptyHeap).2 0).status = internalPending) ∧
    (∀ fuel : Nat,
      (Deferred.New 0 emptyHeap).1.Resolve fuel (.promise 0) (Deferred.New 0 emptyHeap).2
        = .blocked 0) ∧
    (∀ fuel : Nat,
      (Deferred.New 0 (Deferred.New 1 emptyHeap).2).1.Resolve fuel (.promise 1)
        (Deferred.New 0 (Deferred.New 1 emptyHeap).2).2 = .blocked 1 ∧
      (Deferred.New 1 emptyHeap).1.Resolve fuel (.promise 0)
        (Deferred.New 0 (Deferred.New 1 emptyHeap).2).2 = .blocked 0) := by
  refine ⟨⟨rfl, by decide⟩, ?_, ?_⟩
  · intro fuel
    simp only [Deferred.Resolve, Deferred.New, assignPromise]
    rw [unpackPromise_promise_open _ _ _ (by decide)]
  · intro fuel
    simp only [Deferred.Resolve, Deferred.New, assignPromise]
    rw [unpackPromise_promise_open _ _ _ (by decide), unpackPromise_promise_open _ _ _ (by decide)]
    exact ⟨rfl, rfl⟩

/-- C5 (amended). Self-settlement is detected in its direct form by the
resolve algorithm: `resolvePromise` applied to a pending promise and that
same promise as candidate rejects it with the chaining-cycle failure,
whatever the reason. A cycle through another promise is not detected: when
`P` and `Q` are distinct and their signals have not fired, resolving `P` with
`Q` (by `resolvePromise` or by `assignPromise`) and resolving `Q` with `P`
both block on the other signal, so neither call changes the heap and `P`
stays pending. -/
theorem self_settlement (fuel : Nat) (P Q : Ptr) (h : Heap)
    (hP : (h P).wait = false) (hQ : (h Q).wait = false)
    (hpend : (h P).status = internalPending) (hne : Q ≠ P) :
    (∀ reason : Err, ∃ h1, resolvePromise fuel P (.promise P) reason h = .done h1 ∧
      (h1 P).isCycleRejected = true) ∧
    resolvePromise fuel P (.promise Q) none h = .blocked Q ∧
    assignPromise fuel P (.promise Q) h = .blocked Q ∧
    assignPromise fuel Q (.promise P) h = .blocked P ∧
    (resolvePromise fuel P (.promise Q) none h).heapOr h = h ∧
    ((assignPromise fuel Q (.promise P) h).heapOr h P).status = internalPending := by
  have hne2 : Value.promise Q ≠ Value.promise P := by
    intro e
    exact hne (Value.promise.inj e)
  have a1 : assignPromise fuel P (.promise Q) h = .blocked Q := by
    simp only [assignPromise]
    rw [unpackPromise_promise_open _ _ _ hQ]
  have a2 : assignPromise fuel Q (.promise P) h = .blocked P := by
    simp only [assignPromise]
    rw [unpackPromise_promise_open _ _ _ hP]
  have r1 : resolvePromise fuel P (.promise Q) none h = .blocked Q := by
    rw [resolvePromise_assign fuel P _ h hne2, a1]
  refine ⟨?_, r1, a1, a2, ?_, ?_⟩
  · intro reason
    exact ⟨_, resolvePromise_self fuel P reason h, isCycleRejected_rejectPromise P h hpend⟩
  · rw [r1]
    rfl
  · rw [a2]
    exact hpend

/-- Witness of C5: promises 0 and 1 of the empty heap. -/
theorem self_settlement_witness :
    (∀ reason : Err, ∃ h1, resolvePromise 3 0 (.promise 0) reason emptyHeap = .done h1 ∧
      (h1 0).isCycleRejected = true) ∧
    resolvePromise 3 0 (.promise 1) none emptyHeap = .blocked 1 ∧
    assignPromise 3 0 (.promise 1) emptyHeap = .blocked 1 ∧
    assignPromise 3 1 (.promise 0) emptyHeap = .blocked 0 ∧
    (resolvePromise 3 0 (.promise 1) none emptyHeap).heapOr emptyHeap = emptyHeap ∧
    ((assignPromise 3 1 (.promise 0) emptyHeap).heapOr emptyHeap 0).status = internalPending :=
  self_settlement 3 0 1 emptyHeap (by decide) (by decide) (by decide) (by decide)

/-! ## Handler dispatch -/

theorem Deferred.attempts_first (d : Deferred) (fuel : Nat) (h : Heap) (a : Attempt)
    (rest : List Attempt) (hpend : (h d.Promise).status = internalPending)
    (ha : a.isPlain = true) (hrest : ∀ b ∈ rest, b.isPlain = true) :
    d.attempts fuel (a :: rest) h = Function.update h d.Promise (a.settle (h d.Promise)) := by
  have step : d.attempts fuel (a :: rest) h
      = d.attempts fuel rest ((d.attempt fuel a h).heapOr h) := rfl
  rw [step, Deferred.attempt_pending d fuel a h ha hpend]
  apply Deferred.attempts_settled d fuel rest _ hrest
  simp only [Result.heapOr, Function.update_same]
  exact Attempt.settle_status_ne _ _

theorem Run.ofResult_calls (r : Result Heap) (h : Heap) (calls : List Call) :
    (Run.ofResult r h calls).calls = calls := by
  cases r <;> rfl

theorem assignPromise_other (fuel : Nat) (promise q : Ptr) (packed : Value) (h : Heap)
    (hq : q ≠ promise) : (assignPromise fuel promise packed h).heapOr h q = h q := by
  unfold assignPromise
  cases unpackPromise h fuel packed with
  | done r =>
    obtain ⟨u, reason⟩ := r
    cases reason with
    | none => exact fulfillPromise_other promise q u h hq
    | some e => exact rejectPromise_other promise q (some e) h hq
  | blocked ch => rfl
  | outOfFuel => rfl

theorem Run.ofResult_heap (r : Result Heap) (h : Heap) (calls : List Call) :
    (Run.ofResult r h calls).heap = r.heapOr h := by
  cases r <;> rfl

theorem resolvePromise_other (fuel : Nat) (promise q : Ptr) (packed : Value) (reason : Err)
    (h : Heap) (calls : List Call) (hq : q ≠ promise) :
    (Run.ofResult (resolvePromise fuel promise packed reason h) h calls).heap q = h q := by
  rw [Run.ofResult_heap]
  unfold resolvePromise
  split_ifs
  · exact rejectPromise_other promise q _ h hq
  · cases reason with
    | none => exact assignPromise_other fuel promise q packed h hq
    | some e => exact rejectPromise_other promise q (some e) h hq

theorem resolvePromise_plain (fuel : Nat) (promise : Ptr) (W : Value) (h : Heap)
    (calls : List Call) (hW : W.isPlain = true) (hpend : (h promise).status = internalPending) :
    (Run.ofResult (resolvePromise fuel promise W none h) h calls).control = .returned ∧
    ((Run.ofResult (resolvePromise fuel promise W none h) h calls).heap promise).status
      = internalFulfilled ∧
    ((Run.ofResult (resolvePromise fuel promise W none h) h calls).heap promise).fulfilled
      = W ∧
    ((Run.ofResult (resolvePromise fuel promise W none h) h calls).heap promise).wait
      = true := by
  have hne : W ≠ Value.promise promise := by
    intro e
    rw [e] at hW
    simp [Value.isPlain] at hW
  rw [resolvePromise_assign fuel promise W h hne,
    assignPromise_of_unpack fuel promise W W h (unpackPromise_plain h fuel W hW)]
  simp [Run.ofResult, fulfillPromise_pending _ _ _ hpend]

/-- C6. Handler dispatch of `ThenCatch`. On a source whose signal has fired
and whose status is fulfilled, the goroutine leaves, outside the derived
promise, exactly the heap that one invocation of the then-handler on the
source value leaves, whatever the catch-handler is (the whole run is the same
for every catch-handler), and its record of invocations is that one call; on
a rejected source the same holds with the catch-handler, the source reason
and every then-handler. After a sequence of settlement attempts on a pending
source the handler is that of the first attempt, invoked with its value or
reason, whatever attempts follow. While the signal has not fired the
goroutine is blocked on it, has invoked no handler and has left the heap as
it was. -/
theorem ThenCatch_dispatch (self promise : Ptr) (then_ : PromiseThen) (catch_ : PromiseCatch)
    (fuel : Nat) (h : Heap) :
    ((h self).wait = true → (h self).status = internalFulfilled →
      (ThenCatch.goroutine self promise then_ catch_ fuel h).calls
        = [Call.onFulfilled (h self).fulfilled] ∧
      (∀ q, q ≠ promise →
        (ThenCatch.goroutine self promise then_ catch_ fuel h).heap q
          = (then_ (h self).fulfilled h).2 q) ∧
      (∀ catch2 : PromiseCatch,
        ThenCatch.goroutine self promise then_ catch2 fuel h
          = ThenCatch.goroutine self promise then_ catch_ fuel h)) ∧
    ((h self).wait = true → (h self).status = internalRejected →
      (ThenCatch.goroutine self promise then_ catch_ fuel h).calls
        = [Call.onRejected (h self).rejected] ∧
      (∀ q, q ≠ promise →
        (ThenCatch.goroutine self promise then_ catch_ fuel h).heap q
          = (catch_ (h self).rejected h).2 q) ∧
      (∀ then2 : PromiseThen,
        ThenCatch.goroutine self promise then2 catch_ fuel h
          = ThenCatch.goroutine self promise then_ catch_ fuel h)) ∧
    ((h self).wait = false →
      (ThenCatch.goroutine self promise then_ catch_ fuel h).calls = [] ∧
      (ThenCatch.goroutine self promise then_ catch_ fuel h).control = .blocked self ∧
      (ThenCatch.goroutine self promise then_ catch_ fuel h).heap = h) ∧
    (∀ (a : Attempt) (rest : List Attempt), (h self).status = internalPending →
      a.isPlain = true → (∀ b ∈ rest, b.isPlain = true) →
      (ThenCatch.goroutine self promise then_ catch_ fuel
        (Deferred.attempts ⟨self⟩ fuel (a :: rest) h)).calls = [a.call] ∧
      ∀ q, q ≠ promise →
        (ThenCatch.goroutine self promise then_ catch_ fuel
          (Deferred.attempts ⟨self⟩ fuel (a :: rest) h)).heap q
          = a.handled then_ catch_ (Deferred.attempts ⟨self⟩ fuel (a :: rest) h) q) := by
  have hn : ¬ (internalRejected = internalFulfilled) := by decide
  have hful : ∀ h1 : Heap, (h1 self).wait = true → (h1 self).status = internalFulfilled →
      ThenCatch.goroutine self promise then_ catch_ fuel h1
        = Run.ofResult (resolvePromise fuel promise (then_ (h1 self).fulfilled h1).1.1
            (then_ (h1 self).fulfilled h1).1.2 (then_ (h1 self).fulfilled h1).2)
            (then_ (h1 self).fulfilled h1).2 [Call.onFulfilled (h1 self).fulfilled] := by
    intro h1 hw hs
    simp only [ThenCatch.goroutine, hw, hs, if_true]
  have hrej : ∀ h1 : Heap, (h1 self).wait = true → (h1 self).status = internalRejected →
      ThenCatch.goroutine self promise then_ catch_ fuel h1
        = Run.ofResult (resolvePromise fuel promise (catch_ (h1 self).rejected h1).1.1
            (catch_ (h1 self).rejected h1).1.2 (catch_ (h1 self).rejected h1).2)
            (catch_ (h1 self).rejected h1).2 [Call.onRejected (h1 self).rejected] := by
    intro h1 hw hs
    simp only [ThenCatch.goroutine, hw, hs, if_true, hn, if_false]
  refine ⟨?_, ?_, ?_, ?_⟩
  · intro hw hs
    refine ⟨?_, ?_, ?_⟩
    · rw [hful h hw hs, Run.ofResult_calls]
    · intro q hq
      rw [hful h hw hs]
      exact resolvePromise_other fuel promise q _ _ _ _ hq
    · intro catch2
      simp only [ThenCatch.goroutine, hw, hs, if_true]
  · intro hw hs
    refine ⟨?_, ?_, ?_⟩
    · rw [hrej h hw hs, Run.ofResult_calls]
    · intro q hq
      rw [hrej h hw hs]
      exact resolvePromise_other fuel promise q _ _ _ _ hq
    · intro then2
      simp only [ThenCatch.goroutine, hw, hs, if_true, hn, if_false]
  · intro hw
    simp [ThenCatch.goroutine, hw]
  · intro a rest hpend ha hrest
    have hd : (Deferred.mk self).Promise = self := rfl
    have hheap := Deferred.attempts_first ⟨self⟩ fuel h a rest hpend ha hrest
    rw [hd] at hheap
    cases a with
    | resolve v =>
      have hw : ((Deferred.attempts ⟨self⟩ fuel (Attempt.resolve v :: rest) h) self).wait
          = true := by rw [hheap]; simp [Attempt.settle]
      have hs : ((Deferred.attempts ⟨self⟩ fuel (Attempt.resolve v :: rest) h) self).status
          = internalFulfilled := by rw [hheap]; simp [Attempt.settle]
      have hv : ((Deferred.attempts ⟨self⟩ fuel (Attempt.resolve v :: rest) h) self).fulfilled
          = v := by rw [hheap]; simp [Attempt.settle]
      refine ⟨?_, ?_⟩
      · rw [hful _ hw hs, Run.ofResult_calls, hv]
        rfl
      · intro q hq
        rw [hful _ hw hs, resolvePromise_other fuel promise q _ _ _ _ hq, hv]
        rfl
    | reject r =>
      have hw : ((Deferred.attempts ⟨self⟩ fuel (Attempt.reject r :: rest) h) self).wait
          = true := by rw [hheap]; simp [Attempt.settle]
      have hs : ((Deferred.attempts ⟨self⟩ fuel (Attempt.reject r :: rest) h) self).status
          = internalRejected := by rw [hheap]; simp [Attempt.settle]
      have hv : ((Deferred.attempts ⟨self⟩ fuel (Attempt.reject r :: rest) h) self).rejected
          = r := by rw [hheap]; simp [Attempt.settle]
      refine ⟨?_, ?_⟩
      · rw [hrej _ hw hs, Run.ofResult_calls, hv]
        rfl
      · intro q hq
        rw [hrej _ hw hs, resolvePromise_other fuel promise q _ _ _ _ hq, hv]
        rfl

/-- Witness of C6: `Resolve(7)` followed by `Reject("boom")` on promise 1,
with handlers that tally their invocations: the then-handler in deferreds 5
and 6, the catch-handler in deferreds 7 and 8. Deferred 5 holds the value 7,
deferreds 6, 7 and 8 are still pending: the then-handler ran once, with 7,
and the catch-handler did not run. -/
theorem ThenCatch_dispatch_witness :
    ((ThenCatch.goroutine 1 0 (thenTally 5 6) (catchTally 7 8) 0
      (Deferred.attempts ⟨1⟩ 0 [.resolve (.int 7), .reject (some (.errorString "boom"))]
        emptyHeap)).calls = [(Attempt.resolve (.int 7)).call] ∧
      ∀ q, q ≠ 0 →
        (ThenCatch.goroutine 1 0 (thenTally 5 6) (catchTally 7 8) 0
          (Deferred.attempts ⟨1⟩ 0 [.resolve (.int 7), .reject (some (.errorString "boom"))]
            emptyHeap)).heap q
          = (Attempt.resolve (.int 7)).handled (thenTally 5 6) (catchTally 7 8)
              (Deferred.attempts ⟨1⟩ 0
                [.resolve (.int 7), .reject (some (.errorString "boom"))] emptyHeap) q) ∧
    ((ThenCatch.goroutine 1 0 (thenTally 5 6) (catchTally 7 8) 0
      (Deferred.attempts ⟨1⟩ 0 [.resolve (.int 7), .reject (some (.errorString "boom"))]
        emptyHeap)).heap 5).fulfilled = Value.int 7 ∧
    ((ThenCatch.goroutine 1 0 (thenTally 5 6) (catchTally 7 8) 0
      (Deferred.attempts ⟨1⟩ 0 [.resolve (.int 7), .reject (some (.errorString "boom"))]
        emptyHeap)).heap 5).status = internalFulfilled ∧
    ((ThenCatch.goroutine 1 0 (thenTally 5 6) (catchTally 7 8) 0
      (Deferred.attempts ⟨1⟩ 0 [.resolve (.int 7), .reject (some (.errorString "boom"))]
        emptyHeap)).heap 6).status = internalPending ∧
    ((ThenCatch.goroutine 1 0 (thenTally 5 6) (catchTally 7 8) 0
      (Deferred.attempts ⟨1⟩ 0 [.resolve (.int 7), .reject (some (.errorString "boom"))]
        emptyHeap)).heap 7).status = internalPending ∧
    ((ThenCatch.goroutine 1 0 (thenTally 5 6) (catchTally 7 8) 0
      (Deferred.attempts ⟨1⟩ 0 [.resolve (.int 7), .reject (some (.errorString "boom"))]
        emptyHeap)).heap 8).status = internalPending ∧
    (ThenCatch.goroutine 1 0 (thenTally 5 6) (catchTally 7 8) 0 emptyHeap).heap = emptyHeap :=
  ⟨(ThenCatch_dispatch 1 0 (thenTally 5 6) (catchTally 7 8) 0 emptyHeap).2.2.2
      (.resolve (.int 7)) [.reject (some (.errorString "boom"))] (by decide) (by decide)
      (by decide),
    by decide, by decide, by decide, by decide, by decide,
    ((ThenCatch_dispatch 1 0 (thenTally 5 6) (catchTally 7 8) 0 emptyHeap).2.2.1
      (by decide)).2.2⟩

/-- C7. `Then` on a source rejected with `R` invokes no handler (the heap
outside the derived promise is untouched, for every handler) and rejects the
pending derived promise with exactly `R`; `Catch` on a source fulfilled with
`V` invokes no handler and fulfills the pending derived promise with exactly
`V`. On a fulfilled source `Then` leaves, outside the derived promise,
exactly the heap that one invocation of its handler on the source value
leaves, and resolves the derived promise with the pair that invocation
returned (a plain value `W` with no reason fulfills it with `W`); on a
rejected source `Catch` does the same with its handler and the source
reason. -/
theorem Then_Catch_passthrough (self promise : Ptr) (fuel : Nat) (h : Heap)
    (hw : (h self).wait = true) (hpend : (h promise).status = internalPending) :
    (∀ then_ : PromiseThen, (h self).status = internalRejected →
      (Then.goroutine self promise then_ fuel h).calls = [] ∧
      (Then.goroutine self promise then_ fuel h).control = .returned ∧
      ((Then.goroutine self promise then_ fuel h).heap promise).status = internalRejected ∧
      ((Then.goroutine self promise then_ fuel h).heap promise).rejected = (h self).rejected ∧
      ((Then.goroutine self promise then_ fuel h).heap promise).wait = true ∧
      ∀ q, q ≠ promise → (Then.goroutine self promise then_ fuel h).heap q = h q) ∧
    (∀ catch_ : PromiseCatch, (h self).status = internalFulfilled →
      (Catch.goroutine self promise catch_ fuel h).calls = [] ∧
      (Catch.goroutine self promise catch_ fuel h).control = .returned ∧
      ((Catch.goroutine self promise catch_ fuel h).heap promise).status = internalFulfilled ∧
      ((Catch.goroutine self promise catch_ fuel h).heap promise).fulfilled
        = (h self).fulfilled ∧
      ((Catch.goroutine self promise catch_ fuel h).heap promise).wait = true ∧
      ∀ q, q ≠ promise → (Catch.goroutine self promise catch_ fuel h).heap q = h q) ∧
    (∀ then_ : PromiseThen, (h self).status = internalFulfilled →
      (Then.goroutine self promise then_ fuel h).calls
        = [Call.onFulfilled (h self).fulfilled] ∧
      (∀ q, q ≠ promise →
        (Then.goroutine self promise then_ fuel h).heap q
          = (then_ (h self).fulfilled h).2 q) ∧
      (∀ W : Value, (then_ (h self).fulfilled h).1 = (W, none) → W.isPlain = true →
        ((then_ (h self).fulfilled h).2 promise).status = internalPending →
        (Then.goroutine self promise then_ fuel h).control = .returned ∧
        ((Then.goroutine self promise then_ fuel h).heap promise).status
          = internalFulfilled ∧
        ((Then.goroutine self promise then_ fuel h).heap promise).fulfilled = W ∧
        ((Then.goroutine self promise then_ fuel h).heap promise).wait = true)) ∧
    (∀ catch_ : PromiseCatch, (h self).status = internalRejected →
      (Catch.goroutine self promise catch_ fuel h).calls
        = [Call.onRejected (h self).rejected] ∧
      (∀ q, q ≠ promise →
        (Catch.goroutine self promise catch_ fuel h).heap q
          = (catch_ (h self).rejected h).2 q) ∧
      (∀ W : Value, (catch_ (h self).rejected h).1 = (W, none) → W.isPlain = true →
        ((catch_ (h self).rejected h).2 promise).status = internalPending →
        (Catch.goroutine self promise catch_ fuel h).control = .returned ∧
        ((Catch.goroutine self promise catch_ fuel h).heap promise).status
          = internalFulfilled ∧
        ((Catch.goroutine self promise catch_ fuel h).heap promise).fulfilled = W ∧
        ((Catch.goroutine self promise catch_ fuel h).heap promise).wait = true)) := by
  have hn : ¬ (internalRejected = internalFulfilled) := by decide
  refine ⟨?_, ?_, ?_, ?_⟩
  · intro then_ hs
    refine ⟨?_, ?_, ?_, ?_, ?_, ?_⟩
    · simp [Then.goroutine, hw, hs]
    · simp [Then.goroutine, hw, hs]
    · simp [Then.goroutine, hw, hs, rejectPromise_pending _ _ _ hpend]
    · simp [Then.goroutine, hw, hs, rejectPromise_pending _ _ _ hpend]
    · simp [Then.goroutine, hw, hs, rejectPromise_pending _ _ _ hpend]
    · intro q hq
      simp only [Then.goroutine, hw, hs, if_true, hn, if_false]
      exact rejectPromise_other promise q _ h hq
  · intro catch_ hs
    refine ⟨?_, ?_, ?_, ?_, ?_, ?_⟩
    · simp [Catch.goroutine, hw, hs]
    · simp [Catch.goroutine, hw, hs]
    · simp [Catch.goroutine, hw, hs, fulfillPromise_pending _ _ _ hpend]
    · simp [Catch.goroutine, hw, hs, fulfillPromise_pending _ _ _ hpend]
    · simp [Catch.goroutine, hw, hs, fulfillPromise_pending _ _ _ hpend]
    · intro q hq
      simp only [Catch.goroutine, hw, hs, if_true]
      exact fulfillPromise_other promise q _ h hq
  · intro then_ hs
    have heq : Then.goroutine self promise then_ fuel h
        = Run.ofResult (resolvePromise fuel promise (then_ (h self).fulfilled h).1.1
            (then_ (h self).fulfilled h).1.2 (then_ (h self).fulfilled h).2)
            (then_ (h self).fulfilled h).2 [Call.onFulfilled (h self).fulfilled] := by
      simp only [Then.goroutine, hw, hs, if_true]
    refine ⟨?_, ?_, ?_⟩
    · rw [heq, Run.ofResult_calls]
    · intro q hq
      rw [heq]
      exact resolvePromise_other fuel promise q _ _ _ _ hq
    · intro W hret hW hp
      have e1 : (then_ (h self).fulfilled h).1.1 = W := by rw [hret]
      have e2 : (then_ (h self).fulfilled h).1.2 = none := by rw [hret]
      rw [heq, e1, e2]
      exact resolvePromise_plain fuel promise W _ _ hW hp
  · intro catch_ hs
    have heq : Catch.goroutine self promise catch_ fuel h
        = Run.ofResult (resolvePromise fuel promise (catch_ (h self).rejected h).1.1
            (catch_ (h self).rejected h).1.2 (catch_ (h self).rejected h).2)
            (catch_ (h self).rejected h).2 [Call.onRejected (h self).rejected] := by
      simp only [Catch.goroutine, hw, hs, if_true, hn, if_false]
    refine ⟨?_, ?_, ?_⟩
    · rw [heq, Run.ofResult_calls]
    · intro q hq
      rw [heq]
      exact resolvePromise_other fuel promise q _ _ _ _ hq
    · intro W hret hW hp
      have e1 : (catch_ (h self).rejected h).1.1 = W := by rw [hret]
      have e2 : (catch_ (h self).rejected h).1.2 = none := by rw [hret]
      rw [heq, e1, e2]
      exact resolvePromise_plain fuel promise W _ _ hW hp

/-- Witness of C7: `Then` with the tallying handler on promise 1, once
rejected with "boom" (deferreds 5 and 6 stay pending and the derived promise
0 is rejected with "boom") and once fulfilled with 7 (deferred 5 holds 7,
deferred 6 stays pending, and the derived promise is fulfilled with the nil
the handler returned). -/
theorem Then_Catch_passthrough_witness :
    ((Then.goroutine 1 0 (thenTally 5 6) 0 rejectedHeap).calls = [] ∧
      (Then.goroutine 1 0 (thenTally 5 6) 0 rejectedHeap).control = .returned ∧
      ((Then.goroutine 1 0 (thenTally 5 6) 0 rejectedHeap).heap 0).status = internalRejected ∧
      ((Then.goroutine 1 0 (thenTally 5 6) 0 rejectedHeap).heap 0).rejected
        = (rejectedHeap 1).rejected ∧
      ((Then.goroutine 1 0 (thenTally 5 6) 0 rejectedHeap).heap 0).wait = true ∧
      ∀ q, q ≠ 0 → (Then.goroutine 1 0 (thenTally 5 6) 0 rejectedHeap).heap q
        = rejectedHeap q) ∧
    ((Then.goroutine 1 0 (thenTally 5 6) 0 rejectedHeap).heap 5).status = internalPending ∧
    ((Then.goroutine 1 0 (thenTally 5 6) 0 fulfilledHeap).heap 5).fulfilled = Value.int 7 ∧
    ((Then.goroutine 1 0 (thenTally 5 6) 0 fulfilledHeap).heap 6).status = internalPending ∧
    ((Then.goroutine 1 0 (thenTally 5 6) 0 fulfilledHeap).control = .returned ∧
      ((Then.goroutine 1 0 (thenTally 5 6) 0 fulfilledHeap).heap 0).status
        = internalFulfilled ∧
      ((Then.goroutine 1 0 (thenTally 5 6) 0 fulfilledHeap).heap 0).fulfilled = Value.nil ∧
      ((Then.goroutine 1 0 (thenTally 5 6) 0 fulfilledHeap).heap 0).wait = true) :=
  ⟨(Then_Catch_passthrough 1 0 0 rejectedHeap (by decide) (by decide)).1 (thenTally 5 6)
      (by decide),
    by decide, by decide, by decide,
    ((Then_Catch_passthrough 1 0 0 fulfilledHeap (by decide) (by decide)).2.2.1 (thenTally 5 6)
      (by decide)).2.2 Value.nil rfl (by decide) (by decide)⟩

/-- C8. `Finally` on a source whose signal has fired, with a handler that
leaves the source and the pending derived promise as they are: the handler is
invoked once; when it returns the failure `e` the derived promise is rejected
with `e`, whatever the source outcome; when it returns no failure the derived
promise is fulfilled with the source value if the source is fulfilled and
rejected with the source reason if the source is rejected. -/
theorem Finally_outcome (self promise : Ptr) (finally_ : PromiseFinally) (h : Heap)
    (hw : (h self).wait = true) (hpend : (h promise).status = internalPending)
    (hself : (finally_ h).2 self = h self) (hprom : (finally_ h).2 promise = h promise) :
    (Finally.goroutine self promise finally_ h).calls = [Call.onFinally] ∧
    (Finally.goroutine self promise finally_ h).control = .returned ∧
    (∀ e, (finally_ h).1 = some e →
      ((Finally.goroutine self promise finally_ h).heap promise).status = internalRejected ∧
      ((Finally.goroutine self promise finally_ h).heap promise).rejected = some e ∧
      ((Finally.goroutine self promise finally_ h).heap promise).wait = true) ∧
    ((finally_ h).1 = none → (h self).status = internalFulfilled →
      ((Finally.goroutine self promise finally_ h).heap promise).status = internalFulfilled ∧
      ((Finally.goroutine self promise finally_ h).heap promise).fulfilled
        = (h self).fulfilled ∧
      ((Finally.goroutine self promise finally_ h).heap promise).wait = true) ∧
    ((finally_ h).1 = none → (h self).status = internalRejected →
      ((Finally.goroutine self promise finally_ h).heap promise).status = internalRejected ∧
      ((Finally.goroutine self promise finally_ h).heap promise).rejected
        = (h self).rejected ∧
      ((Finally.goroutine self promise finally_ h).heap promise).wait = true) := by
  have hn : ¬ (internalRejected = internalFulfilled) := by decide
  have hp2 : ((finally_ h).2 promise).status = internalPending := by rw [hprom]; exact hpend
  refine ⟨?_, ?_, ?_, ?_, ?_⟩
  · simp only [Finally.goroutine, hw, if_true]
    split
    · rfl
    · split_ifs <;> rfl
  · simp only [Finally.goroutine, hw, if_true]
    split
    · rfl
    · split_ifs <;> rfl
  · intro e he
    simp [Finally.goroutine, hw, he, rejectPromise_pending _ _ _ hp2]
  · intro he hs
    simp [Finally.goroutine, hw, he, hself, hs, fulfillPromise_pending _ _ _ hp2]
  · intro he hs
    simp [Finally.goroutine, hw, he, hself, hs, rejectPromise_pending _ _ _ hp2]

/-- Witness of C8: the handler fails with "late" on the fulfilled promise 1. -/
theorem Finally_outcome_witness :
    ((Finally.goroutine 1 0 (finallyReturn (some (.errorString "late"))) fulfilledHeap).heap
      0).status = internalRejected ∧
    ((Finally.goroutine 1 0 (finallyReturn (some (.errorString "late"))) fulfilledHeap).heap
      0).rejected = some (.errorString "late") ∧
    ((Finally.goroutine 1 0 (finallyReturn (some (.errorString "late"))) fulfilledHeap).heap
      0).wait = true :=
  (Finally_outcome 1 0 (finallyReturn (some (.errorString "late"))) fulfilledHeap
    (by decide) (by decide) rfl rfl).2.2.1 (.errorString "late") rfl

/-! ## Publish, then signal -/

theorem SettleCall.target_ne_pending (call : SettleCall) : call.target ≠ internalPending := by
  cases call <;> simp [SettleCall.target]

theorem SettleCall.write_status (c : Promise) (call : SettleCall) :
    (call.write c).status = c.status := by
  cases call <;> rfl

theorem SettleCall.write_wait (c : Promise) (call : SettleCall) :
    (call.write c).wait = c.wait := by
  cases call <;> rfl

theorem SettleCall.settled_status (call : SettleCall) : call.settled.status = call.target := by
  cases call <;> rfl

theorem Settling.Inv_step (promise : Ptr) (calls : Nat → SettleCall) (k : Nat)
    (s t : Settling) (hinv : Settling.Inv promise calls s)
    (hstep : Settling.step promise calls k s = some t) : Settling.Inv promise calls t := by
  unfold Settling.step at hstep
  rcases hinv with ⟨hc, hall⟩ | ⟨i, hi, hc, hoth⟩ | ⟨i, hi, hc, hoth⟩ | ⟨i, hi, hc, hall⟩
  · -- untouched: the swap of call `k` succeeds
    rw [hall k] at hstep
    simp only [Option.some.injEq] at hstep
    subst hstep
    right; left
    refine ⟨k, ?_, ?_, ?_⟩
    · simp [compareAndSwapStatus, hc, newPromise]
    · simp [compareAndSwapStatus, hc, newPromise]
    · intro j hj
      left
      simp [Function.update_noteq hj, hall j]
  · -- swapped by `i`
    by_cases hk : k = i
    · subst hk
      rw [hi] at hstep
      simp only [Option.some.injEq] at hstep
      subst hstep
      right; right; left
      refine ⟨k, by simp, by simp [hc], ?_⟩
      intro j hj
      simpa [Function.update_noteq hj] using hoth j hj
    · rcases hoth k hk with hs | hf
      · rw [hs] at hstep
        simp only [Option.some.injEq] at hstep
        subst hstep
        have hne : ¬ ((calls i).target = internalPending) := (calls i).target_ne_pending
        right; left
        refine ⟨i, ?_, ?_, ?_⟩
        · simp [Function.update_noteq (Ne.symm hk), hi]
        · simp [compareAndSwapStatus, hc, hne]
        · intro j hj
          by_cases hjk : j = k
          · subst hjk
            right
            simp [compareAndSwapStatus, hc, hne]
          · simpa [Function.update_noteq hjk] using hoth j hj
      · rw [hf] at hstep
        simp at hstep
  · -- written by `i`
    by_cases hk : k = i
    · subst hk
      rw [hi] at hstep
      simp only [Option.some.injEq] at hstep
      subst hstep
      right; right; right
      refine ⟨k, by simp, by simp [hc, SettleCall.settled], ?_⟩
      intro j
      by_cases hj : j = k
      · subst hj
        right
        simp
      · simpa [Function.update_noteq hj] using hoth j hj
    · rcases hoth k hk with hs | hf
      · rw [hs] at hstep
        simp only [Option.some.injEq] at hstep
        subst hstep
        have hne : ¬ ((calls i).target = internalPending) := (calls i).target_ne_pending
        right; right; left
        refine ⟨i, ?_, ?_, ?_⟩
        · simp [Function.update_noteq (Ne.symm hk), hi]
        · simp [compareAndSwapStatus, hc, hne, SettleCall.write_status]
        · intro j hj
          by_cases hjk : j = k
          · subst hjk
            right
            simp [compareAndSwapStatus, hc, hne, SettleCall.write_status]
          · simpa [Function.update_noteq hjk] using hoth j hj
      · rw [hf] at hstep
        simp at hstep
  · -- closed by `i`
    rcases hall k with hs | hf
    · rw [hs] at hstep
      simp only [Option.some.injEq] at hstep
      subst hstep
      have hne : ¬ ((calls i).target = internalPending) := (calls i).target_ne_pending
      have hik : i ≠ k := by
        intro e
        rw [e, hs] at hi
        cases hi
      right; right; right
      refine ⟨i, ?_, ?_, ?_⟩
      · simp [Function.update_noteq hik, hi]
      · simp [compareAndSwapStatus, hc, hne, SettleCall.settled_status]
      · intro j
        by_cases hjk : j = k
        · subst hjk
          right
          simp [compareAndSwapStatus, hc, hne, SettleCall.settled_status]
        · simpa [Function.update_noteq hjk] using hall j
    · rw [hf] at hstep
      simp at hstep

theorem Settling.Inv_steps (promise : Ptr) (calls : Nat → SettleCall) (s t : Settling)
    (hinv : Settling.Inv promise calls s) (hsteps : Settling.Steps promise calls s t) :
    Settling.Inv promise calls t := by
  induction hsteps with
  | refl => exact hinv
  | tail i _ hstep ih => exact Settling.Inv_step promise calls i _ _ ih hstep

theorem Settling.Inv_reachable (promise : Ptr) (calls : Nat → SettleCall) (s : Settling)
    (hr : Settling.Reachable promise calls s) : Settling.Inv promise calls s := by
  obtain ⟨h0, hnew, hsteps⟩ := hr
  exact Settling.Inv_steps promise calls _ s (Or.inl ⟨hnew, fun _ => rfl⟩) hsteps

theorem Settling.Steps_run (promise : Ptr) (calls : Nat → SettleCall) (sched : List Nat) :
    ∀ s : Settling, Settling.Steps promise calls s (Settling.run promise calls sched s) := by
  induction sched with
  | nil => exact fun s => Settling.Steps.refl s
  | cons i rest ih =>
    intro s
    have trans : ∀ a b c : Settling, Settling.Steps promise calls a b →
        Settling.Steps promise calls b c → Settling.Steps promise calls a c := by
      intro a b c hab hbc
      induction hbc with
      | refl => exact hab
      | tail j _ hstep ih2 => exact Settling.Steps.tail j ih2 hstep
    cases hstep : Settling.step promise calls i s with
    | none =>
      simp only [Settling.run, hstep]
      exact ih s
    | some t =>
      simp only [Settling.run, hstep]
      exact trans s t _ (Settling.Steps.tail i (Settling.Steps.refl s) hstep) (ih t)

theorem Settling.fired_phase (promise : Ptr) (calls : Nat → SettleCall) (s : Settling)
    (hinv : Settling.Inv promise calls s) (hfired : (s.heap promise).wait = true) :
    ∃ i, s.pc i = .finished ∧ s.heap promise = (calls i).settled ∧
      ∀ j, s.pc j = .start ∨ s.pc j = .finished := by
  rcases hinv with ⟨hc, _⟩ | ⟨i, _, hc, _⟩ | ⟨i, _, hc, _⟩ | h4
  · rw [hc] at hfired
    simp [newPromise] at hfired
  · rw [hc] at hfired
    simp [newPromise] at hfired
  · rw [hc, SettleCall.write_wait] at hfired
    simp [newPromise] at hfired
  · exact h4

theorem Settling.fired_step (promise : Ptr) (calls : Nat → SettleCall) (k : Nat)
    (s t : Settling) (hinv : Settling.Inv promise calls s)
    (hfired : (s.heap promise).wait = true)
    (hstep : Settling.step promise calls k s = some t) :
    t.heap promise = s.heap promise := by
  obtain ⟨i, _, hc, hall⟩ := Settling.fired_phase promise calls s hinv hfired
  unfold Settling.step at hstep
  have hne : ¬ ((calls i).target = internalPending) := (calls i).target_ne_pending
  rcases hall k with hs | hf
  · rw [hs] at hstep
    simp only [Option.some.injEq] at hstep
    subst hstep
    simp [compareAndSwapStatus, hc, hne, SettleCall.settled_status]
  · rw [hf] at hstep
    simp at hstep

theorem Settling.fired_steps (promise : Ptr) (calls : Nat → SettleCall) (s t : Settling)
    (hinv : Settling.Inv promise calls s) (hfired : (s.heap promise).wait = true)
    (hsteps : Settling.Steps promise calls s t) : t.heap promise = s.heap promise := by
  induction hsteps with
  | refl => rfl
  | tail i hst hstep ih =>
    have hinv2 := Settling.Inv_steps promise calls s _ hinv hst
    rw [← ih]
    exact Settling.fired_step promise calls i _ _ hinv2 (by rw [ih]; exact hfired) hstep

theorem Settling.closing_step (promise : Ptr) (calls : Nat → SettleCall) (k : Nat)
    (s t : Settling) (hinv : Settling.Inv promise calls s)
    (hopen : (s.heap promise).wait = false) (hfired : (t.heap promise).wait = true)
    (hstep : Settling.step promise calls k s = some t) :
    s.pc k = .close ∧
    s.heap promise = (calls k).write { newPromise with status := (calls k).target } := by
  unfold Settling.step at hstep
  cases hk : s.pc k with
  | start =>
    rw [hk] at hstep
    simp only [Option.some.injEq] at hstep
    subst hstep
    exfalso
    by_cases hs : (s.heap promise).status = internalPending
    · simp [compareAndSwapStatus, hs, hopen] at hfired
    · simp [compareAndSwapStatus, hs, hopen] at hfired
  | write =>
    rw [hk] at hstep
    simp only [Option.some.injEq] at hstep
    subst hstep
    exfalso
    simp [SettleCall.write_wait, hopen] at hfired
  | close =>
    refine ⟨rfl, ?_⟩
    rcases hinv with ⟨_, hall⟩ | ⟨i, hi, _, hoth⟩ | ⟨i, hi, hc, hoth⟩ | ⟨i, _, _, hall⟩
    · rw [hall k] at hk
      cases hk
    · by_cases hki : k = i
      · rw [hki, hi] at hk
        cases hk
      · rcases hoth k hki with h1 | h1 <;> rw [h1] at hk <;> cases hk
    · by_cases hki : k = i
      · rw [hki]
        exact hc
      · rcases hoth k hki with h1 | h1 <;> rw [h1] at hk <;> cases hk
    · rcases hall k with h1 | h1 <;> rw [h1] at hk <;> cases hk
  | finished =>
    rw [hk] at hstep
    simp at hstep

/-- C9. Publish-then-signal and `Wait`, with any number of concurrent calls
of `fulfillPromise` and `rejectPromise` on a promise built by `createPromise`,
interleaved statement by statement. In every reachable state: the statement
that fires the signal is the close of a call whose status swap and field
write are already in the cell; and once the signal has fired the status is
terminal, the cell is exactly what one finished call wrote (value `V` and no
reason for `fulfillPromise(V)`, reason `R` and the unset value for
`rejectPromise(R)`), `Wait` returns that pair, and after any further
statements the cell is the same and `Wait` returns the same pair. -/
theorem publish_then_signal (promise : Ptr) (calls : Nat → SettleCall) (s : Settling)
    (hr : Settling.Reachable promise calls s) :
    (∀ k t, Settling.step promise calls k s = some t → (s.heap promise).wait = false →
      (t.heap promise).wait = true →
      s.heap promise = (calls k).write { newPromise with status := (calls k).target }) ∧
    ((s.heap promise).wait = true →
      ((s.heap promise).status = internalFulfilled ∨
        (s.heap promise).status = internalRejected) ∧
      (∃ i, s.pc i = .finished ∧ s.heap promise = (calls i).settled ∧
        (∀ V, calls i = .fulfill V →
          (s.heap promise).status = internalFulfilled ∧
          Wait promise s.heap = .done (V, none)) ∧
        (∀ R, calls i = .reject R →
          (s.heap promise).status = internalRejected ∧
          Wait promise s.heap = .done (Value.nil, R))) ∧
      (∀ t, Settling.Steps promise calls s t →
        t.heap promise = s.heap promise ∧ Wait promise t.heap = Wait promise s.heap)) := by
  have hinv := Settling.Inv_reachable promise calls s hr
  refine ⟨?_, ?_⟩
  · intro k t hstep hopen hfired
    exact (Settling.closing_step promise calls k s t hinv hopen hfired hstep).2
  · intro hfired
    obtain ⟨i, hi, hc, _⟩ := Settling.fired_phase promise calls s hinv hfired
    refine ⟨?_, ⟨i, hi, hc, ?_, ?_⟩, ?_⟩
    · rw [hc, SettleCall.settled_status]
      cases calls i
      · left; rfl
      · right; rfl
    · intro V hV
      rw [hV] at hc
      simp [Wait, hc, SettleCall.settled, SettleCall.write, SettleCall.target, closeWait,
        newPromise]
    · intro R hR
      rw [hR] at hc
      simp [Wait, hc, SettleCall.settled, SettleCall.write, SettleCall.target, closeWait,
        newPromise]
    · intro t ht
      have hcell := Settling.fired_steps promise calls s t hinv hfired ht
      refine ⟨hcell, ?_⟩
      simp [Wait, hcell]

/-- Witness of C9: goroutine 0 swaps the status, goroutine 1 loses the swap,
goroutine 0 writes 7 and closes the channel. -/
theorem publish_then_signal_witness :
    ((Settling.run 0 raceCalls [0, 1, 0, 0] Settling.initial).heap 0).wait = true ∧
    (((Settling.run 0 raceCalls [0, 1, 0, 0] Settling.initial).heap 0).status
        = internalFulfilled ∨
      ((Settling.run 0 raceCalls [0, 1, 0, 0] Settling.initial).heap 0).status
        = internalRejected) ∧
    Wait 0 (Settling.run 0 raceCalls [0, 1, 0, 0] Settling.initial).heap
      = .done (Value.int 7, none) :=
  ⟨by decide,
    ((publish_then_signal 0 raceCalls (Settling.run 0 raceCalls [0, 1, 0, 0] Settling.initial)
      ⟨emptyHeap, rfl, Settling.Steps_run 0 raceCalls [0, 1, 0, 0] Settling.initial⟩).2
      (by decide)).1,
    by simp [Wait, Settling.run, Settling.step, Settling.initial, raceCalls, emptyHeap,
      newPromise, compareAndSwapStatus, SettleCall.write, SettleCall.target, closeWait]⟩

/-- A call that runs its statements with no other statement in between does
what `fulfillPromise` and `rejectPromise` do in one piece. -/
theorem Settling.run_alone (promise : Ptr) (calls : Nat → SettleCall) (i : Nat) (s : Settling)
    (hstart : s.pc i = .start) :
    (Settling.run promise calls [i, i, i] s).heap =
      match calls i with
      | .fulfill unpacked => fulfillPromise promise unpacked s.heap
      | .reject reason => rejectPromise promise reason s.heap := by
  by_cases hs : (s.heap promise).status = internalPending
  · cases hc : calls i <;>
      simp [Settling.run, Settling.step, hstart, hc, compareAndSwapStatus, hs, fulfillPromise,
        rejectPromise, SettleCall.write, SettleCall.target, closeWait]
  · cases hc : calls i <;>
      simp [Settling.run, Settling.step, hstart, hc, compareAndSwapStatus, hs, fulfillPromise,
        rejectPromise, SettleCall.write, SettleCall.target, closeWait]

/-! ## The combinator `All` -/

/-- C10 fails on the code. Input `[promise 1, 1]` with promise 1 rejected
with "boom": element 0 unwraps to the failure "boom", yet under the schedule
in which goroutine 0 has only incremented `count` when goroutine 1 runs to
its end, goroutine 1 reads `count == length` and `rejected == 0` and fulfills
the promise of `All` with the slice `all`; the later `rejectPromise` of
goroutine 0 changes nothing. Every goroutine has finished, the promise is
fulfilled and slot 0 of the slice is still unset. When each goroutine runs in
one piece the same input is rejected with "boom". -/
theorem All_fulfilled_despite_failure :
    unpackPromise (createPromise 0 rejectedHeap) 1 (failingInput.getD 0 Value.nil)
      = .done (Value.nil, some (.errorString "boom")) ∧
    ((All.init failingInput 0 rejectedHeap).heap 0).status = internalPending ∧
    (∀ i, i < 2 →
      (All.run failingInput 0 2 1 failingSchedule (All.init failingInput 0 rejectedHeap)).pc i
        = .finished) ∧
    ((All.run failingInput 0 2 1 failingSchedule (All.init failingInput 0 rejectedHeap)).heap
      0).status = internalFulfilled ∧
    ((All.run failingInput 0 2 1 failingSchedule (All.init failingInput 0 rejectedHeap)).heap
      0).fulfilled = Value.slice 2 ∧
    ((All.run failingInput 0 2 1 failingSchedule (All.init failingInput 0 rejectedHeap)).heap
      0).rejected = none ∧
    (All.run failingInput 0 2 1 failingSchedule (All.init failingInput 0 rejectedHeap)).all
      = [Value.nil, Value.int 1] ∧
    ((All.run failingInput 0 2 1 sequentialSchedule (All.init failingInput 0 rejectedHeap)).heap
      0).status = internalRejected ∧
    ((All.run failingInput 0 2 1 sequentialSchedule (All.init failingInput 0 rejectedHeap)).heap
      0).rejected = some (.errorString "boom") := by
  refine ⟨by decide, by decide, ?_, by decide, by decide, by decide, by decide, by decide,
    by decide⟩
  intro i hi
  interval_cases i <;> decide

/-- The same defect, second outcome: goroutine 0 has swapped `rejected` but
not yet assigned `err` when goroutine 1 runs to its end; goroutine 1 reads
`rejected == 1` and rejects the promise of `All` with the nil reason. -/
theorem All_rejected_with_nil_reason :
    ((All.run failingInput 0 2 1 nilReasonSchedule (All.init failingInput 0 rejectedHeap)).heap
      0).status = internalRejected ∧
    ((All.run failingInput 0 2 1 nilReasonSchedule (All.init failingInput 0 rejectedHeap)).heap
      0).rejected = none ∧
    (∀ i, i < 2 →
      (All.run failingInput 0 2 1 nilReasonSchedule (All.init failingInput 0 rejectedHeap)).pc i
        = .finished) := by
  refine ⟨by decide, by decide, ?_⟩
  intro i hi
  interval_cases i <;> decide

theorem unpackPromise_frame (h h1 : Heap) (q : Ptr) (hq : (h q).wait = false)
    (hagree : ∀ p, p ≠ q → h1 p = h p) :
    ∀ (fuel : Nat) (v : Value) (r : Value × Err),
      unpackPromise h fuel v = .done r → unpackPromise h1 fuel v = .done r := by
  intro fuel
  induction fuel with
  | zero =>
    intro v r hr
    cases v with
    | promise p =>
      by_cases hp : p = q
      · subst hp
        rw [unpackPromise_promise_open h 0 p hq] at hr
        cases hr
      · simpa [unpackPromise, hagree p hp] using hr
    | nil => simpa [unpackPromise] using hr
    | bool b => simpa [unpackPromise] using hr
    | int i => simpa [unpackPromise] using hr
    | str t => simpa [unpackPromise] using hr
    | slice a => simpa [unpackPromise] using hr
    | error e => simpa [unpackPromise] using hr
  | succ k ih =>
    intro v r hr
    cases v with
    | promise p =>
      by_cases hp : p = q
      · subst hp
        rw [unpackPromise_promise_open h (k + 1) p hq] at hr
        cases hr
      · simp only [unpackPromise, hagree p hp] at hr ⊢
        split_ifs at hr ⊢ <;> first | exact ih _ _ hr | exact hr
    | nil => simpa [unpackPromise] using hr
    | bool b => simpa [unpackPromise] using hr
    | int i => simpa [unpackPromise] using hr
    | str t => simpa [unpackPromise] using hr
    | slice a => simpa [unpackPromise] using hr
    | error e => simpa [unpackPromise] using hr

theorem pastAdd_card_update_same (n j : Nat) (pc : Nat → AllPc) (x : AllPc)
    (hx : x.pastAdd = (pc j).pastAdd) :
    ((Finset.range n).filter (fun i => (Function.update pc j x i).pastAdd = true)).card
      = ((Finset.range n).filter (fun i => (pc i).pastAdd = true)).card := by
  congr 1
  apply Finset.filter_congr
  intro i _
  by_cases hi : i = j
  · subst hi
    simp [hx]
  · simp [Function.update_noteq hi]

theorem pastAdd_card_update_add (n j : Nat) (pc : Nat → AllPc) (x : AllPc) (hj : j < n)
    (hold : (pc j).pastAdd = false) (hx : x.pastAdd = true) :
    ((Finset.range n).filter (fun i => (Function.update pc j x i).pastAdd = true)).card
      = ((Finset.range n).filter (fun i => (pc i).pastAdd = true)).card + 1 := by
  have hset : (Finset.range n).filter (fun i => (Function.update pc j x i).pastAdd = true)
      = insert j ((Finset.range n).filter (fun i => (pc i).pastAdd = true)) := by
    ext i
    by_cases hi : i = j
    · subst hi
      simp [hx, hj]
    · simp [Function.update_noteq hi, hi]
  rw [hset, Finset.card_insert_of_not_mem]
  simp [hold]

theorem pastAdd_card_le (n : Nat) (pc : Nat → AllPc) :
    ((Finset.range n).filter (fun i => (pc i).pastAdd = true)).card ≤ n := by
  calc ((Finset.range n).filter (fun i => (pc i).pastAdd = true)).card
      ≤ (Finset.range n).card := Finset.card_filter_le _ _
    _ = n := Finset.card_range n

theorem pastAdd_card_lt (n j : Nat) (pc : Nat → AllPc) (hj : j < n)
    (hold : (pc j).pastAdd = false) :
    ((Finset.range n).filter (fun i => (pc i).pastAdd = true)).card < n := by
  have hsub : (Finset.range n).filter (fun i => (pc i).pastAdd = true)
      ⊆ (Finset.range n).erase j := by
    intro i hi
    simp only [Finset.mem_filter, Finset.mem_range] at hi
    simp only [Finset.mem_erase, Finset.mem_range]
    refine ⟨?_, hi.1⟩
    intro e
    rw [e, hold] at hi
    exact absurd hi.2 (by decide)
  have h1 := Finset.card_le_card hsub
  rw [Finset.card_erase_of_mem (Finset.mem_range.mpr hj), Finset.card_range] at h1
  omega

theorem pastAdd_exists_of_card_ne (n : Nat) (pc : Nat → AllPc)
    (hne : ((Finset.range n).filter (fun i => (pc i).pastAdd = true)).card ≠ n) :
    ∃ i, i < n ∧ (pc i).pastAdd = false := by
  by_contra hcon
  apply hne
  have hall : (Finset.range n).filter (fun i => (pc i).pastAdd = true) = Finset.range n := by
    apply Finset.filter_true_of_mem
    intro i hi
    by_contra hfalse
    exact hcon ⟨i, Finset.mem_range.mp hi, by simpa using hfalse⟩
  rw [hall, Finset.card_range]

theorem update_pc_forall (n j : Nat) (pc : Nat → AllPc) (x : AllPc) (C : AllPc → Prop)
    (U : Nat → Prop) (hold : ∀ i, i < n → C (pc i) → U i) (hnew : C x → U j) :
    ∀ i, i < n → C (Function.update pc j x i) → U i := by
  intro i hi hc
  by_cases hij : i = j
  · subst hij
    rw [Function.update_same] at hc
    exact hnew hc
  · rw [Function.update_noteq hij] at hc
    exact hold i hi hc

theorem update_pc_all (n j : Nat) (pc : Nat → AllPc) (x : AllPc) (D : AllPc → Prop)
    (hold : ∀ i, i < n → D (pc i)) (hx : D x) :
    ∀ i, i < n → D (Function.update pc j x i) := by
  intro i hi
  by_cases hij : i = j
  · subst hij
    rw [Function.update_same]
    exact hx
  · rw [Function.update_noteq hij]
    exact hold i hi

theorem All.SuccessInv_step (arr : List Value) (promise allAddr : Ptr) (fuel : Nat)
    (h0 : Heap) (vs : Nat → Value) (hn : arr.length < 2 ^ 32) (h0p : h0 promise = newPromise)
    (hun : ∀ i, i < arr.length →
      unpackPromise h0 fuel (arr.getD i Value.nil) = .done (vs i, none))
    (j : Nat) (s t : AllState) (hinv : All.SuccessInv arr promise allAddr h0 vs s)
    (hstep : All.step arr promise allAddr fuel j s = some t) :
    All.SuccessInv arr promise allAddr h0 vs t := by
  unfold All.step at hstep
  have hlen : lengthUint32 arr = arr.length := Nat.mod_eq_of_lt hn
  by_cases hj : j < arr.length
  swap
  · simp [hj] at hstep
  simp only [hj, if_true] at hstep
  obtain ⟨hother, hprom, hrej, hlength, hlocals, hslots, hpcs, hcount, hlive⟩ := hinv
  cases hpc : s.pc j with
  | unpack =>
    have hu : unpackPromise s.heap fuel (arr.getD j Value.nil) = .done (vs j, none) :=
      unpackPromise_frame h0 s.heap promise (by rw [h0p]; rfl) hother fuel _ _ (hun j hj)
    simp only [hpc, hu, Option.some.injEq] at hstep
    subst hstep
    refine ⟨hother, hprom, hrej, hlength, ?_, ?_, ?_, ?_, ?_⟩
    · intro i hi hne
      by_cases hij : i = j
      · subst hij
        simp
      · simp only [Function.update_noteq hij] at hne ⊢
        exact hlocals i hi hne
    · exact update_pc_forall arr.length j s.pc .add (fun p => p.pastRecord = true)
        (fun i => s.all[i]? = some (vs i)) hslots (by simp [AllPc.pastRecord])
    · exact update_pc_all arr.length j s.pc .add
        (fun p => p ≠ .writeErr ∧ p ≠ .settle true) hpcs (by simp)
    · show s.count = _
      rw [pastAdd_card_update_same arr.length j s.pc .add (by rw [hpc]; rfl)]
      exact hcount
    · exact Or.inl ⟨j, hj, by simp [AllPc.beforeChoice]⟩
  | add =>
    simp only [hpc, Option.some.injEq] at hstep
    subst hstep
    have hlt := pastAdd_card_lt arr.length j s.pc hj (by rw [hpc]; rfl)
    refine ⟨hother, hprom, hrej, hlength, ?_, ?_, ?_, ?_, ?_⟩
    · exact update_pc_forall arr.length j s.pc .record (fun p => p ≠ .unpack)
        (fun i => s.unpacked i = vs i ∧ s.reason i = none) hlocals
        (fun _ => hlocals j hj (by rw [hpc]; simp))
    · exact update_pc_forall arr.length j s.pc .record (fun p => p.pastRecord = true)
        (fun i => s.all[i]? = some (vs i)) hslots (by simp [AllPc.pastRecord])
    · exact update_pc_all arr.length j s.pc .record
        (fun p => p ≠ .writeErr ∧ p ≠ .settle true) hpcs (by simp)
    · show (s.count + 1) % 2 ^ 32 = _
      rw [pastAdd_card_update_add arr.length j s.pc .record hj (by rw [hpc]; rfl) rfl,
        ← hcount]
      apply Nat.mod_eq_of_lt
      rw [hcount]
      omega
    · exact Or.inl ⟨j, hj, by simp [AllPc.beforeChoice]⟩
  | record =>
    have hloc := hlocals j hj (by rw [hpc]; simp)
    simp only [hpc, hloc.2, Option.some.injEq] at hstep
    subst hstep
    refine ⟨hother, hprom, hrej, ?_, ?_, ?_, ?_, ?_, ?_⟩
    · show (s.all.set j (s.unpacked j)).length = _
      rw [List.length_set]
      exact hlength
    · exact update_pc_forall arr.length j s.pc .check (fun p => p ≠ .unpack)
        (fun i => s.unpacked i = vs i ∧ s.reason i = none) hlocals (fun _ => hloc)
    · intro i hi hp
      show (s.all.set j (s.unpacked j))[i]? = some (vs i)
      by_cases hij : i = j
      · subst hij
        rw [List.getElem?_set_self (by rw [hlength]; exact hi), hloc.1]
      · rw [List.getElem?_set_ne (Ne.symm hij)]
        simp only [Function.update_noteq hij] at hp
        exact hslots i hi hp
    · exact update_pc_all arr.length j s.pc .check
        (fun p => p ≠ .writeErr ∧ p ≠ .settle true) hpcs (by simp)
    · show s.count = _
      rw [pastAdd_card_update_same arr.length j s.pc .check (by rw [hpc]; rfl)]
      exact hcount
    · exact Or.inl ⟨j, hj, by simp [AllPc.beforeChoice]⟩
  | writeErr => exact absurd hpc (hpcs j hj).1
  | check =>
    simp only [hpc, hlen] at hstep
    by_cases hc : s.count = arr.length
    · rw [if_pos hc] at hstep
      simp only [Option.some.injEq] at hstep
      subst hstep
      refine ⟨hother, hprom, hrej, hlength, ?_, ?_, ?_, ?_, ?_⟩
      · exact update_pc_forall arr.length j s.pc .choose (fun p => p ≠ .unpack)
          (fun i => s.unpacked i = vs i ∧ s.reason i = none) hlocals
          (fun _ => hlocals j hj (by rw [hpc]; simp))
      · exact update_pc_forall arr.length j s.pc .choose (fun p => p.pastRecord = true)
          (fun i => s.all[i]? = some (vs i)) hslots
          (fun _ => hslots j hj (by rw [hpc]; rfl))
      · exact update_pc_all arr.length j s.pc .choose
          (fun p => p ≠ .writeErr ∧ p ≠ .settle true) hpcs (by simp)
      · show s.count = _
        rw [pastAdd_card_update_same arr.length j s.pc .choose (by rw [hpc]; rfl)]
        exact hcount
      · exact Or.inr (Or.inl ⟨j, hj, by simp [AllPc.fulfilling]⟩)
    · rw [if_neg hc] at hstep
      simp only [Option.some.injEq] at hstep
      subst hstep
      refine ⟨hother, hprom, hrej, hlength, ?_, ?_, ?_, ?_, ?_⟩
      · exact update_pc_forall arr.length j s.pc .finished (fun p => p ≠ .unpack)
          (fun i => s.unpacked i = vs i ∧ s.reason i = none) hlocals
          (fun _ => hlocals j hj (by rw [hpc]; simp))
      · exact update_pc_forall arr.length j s.pc .finished (fun p => p.pastRecord = true)
          (fun i => s.all[i]? = some (vs i)) hslots
          (fun _ => hslots j hj (by rw [hpc]; rfl))
      · exact update_pc_all arr.length j s.pc .finished
          (fun p => p ≠ .writeErr ∧ p ≠ .settle true) hpcs (by simp)
      · show s.count = _
        rw [pastAdd_card_update_same arr.length j s.pc .finished (by rw [hpc]; rfl)]
        exact hcount
      · obtain ⟨i, hi, hpa⟩ := pastAdd_exists_of_card_ne arr.length s.pc (by rw [← hcount]; exact hc)
        have hij : i ≠ j := by
          intro e
          rw [e, hpc] at hpa
          exact absurd hpa (by decide)
        refine Or.inl ⟨i, hi, ?_⟩
        simp only [Function.update_noteq hij]
        cases hpi : s.pc i <;> rw [hpi] at hpa <;> first | rfl | simp [AllPc.pastAdd] at hpa
  | choose =>
    have hr : ¬ (s.rejected = 1) := by rw [hrej]; decide
    simp only [hpc, hr, if_false, Option.some.injEq] at hstep
    subst hstep
    refine ⟨hother, hprom, hrej, hlength, ?_, ?_, ?_, ?_, ?_⟩
    · exact update_pc_forall arr.length j s.pc (.settle false) (fun p => p ≠ .unpack)
        (fun i => s.unpacked i = vs i ∧ s.reason i = none) hlocals
        (fun _ => hlocals j hj (by rw [hpc]; simp))
    · exact update_pc_forall arr.length j s.pc (.settle false) (fun p => p.pastRecord = true)
        (fun i => s.all[i]? = some (vs i)) hslots
        (fun _ => hslots j hj (by rw [hpc]; rfl))
    · exact update_pc_all arr.length j s.pc (.settle false)
        (fun p => p ≠ .writeErr ∧ p ≠ .settle true) hpcs (by simp)
    · show s.count = _
      rw [pastAdd_card_update_same arr.length j s.pc (.settle false) (by rw [hpc]; rfl)]
      exact hcount
    · exact Or.inr (Or.inl ⟨j, hj, by simp [AllPc.fulfilling]⟩)
  | settle b =>
    cases b with
    | true => exact absurd hpc (hpcs j hj).2
    | false =>
      simp only [hpc, Option.some.injEq] at hstep
      subst hstep
      have hful : fulfillPromise promise (Value.slice allAddr) s.heap promise
          = allFulfilled allAddr := by
        rcases hprom with hp | hp
        · rw [fulfillPromise_pending _ _ _ (by rw [hp]; rfl)]
          simp [hp, allFulfilled, newPromise]
        · rw [fulfillPromise_settled _ _ _ (by rw [hp]; simp [allFulfilled]), hp]
      refine ⟨?_, Or.inr hful, hrej, hlength, ?_, ?_, ?_, ?_, Or.inr (Or.inr hful)⟩
      · intro q hq
        show fulfillPromise promise (Value.slice allAddr) s.heap q = h0 q
        rw [fulfillPromise_other _ _ _ _ hq]
        exact hother q hq
      · exact update_pc_forall arr.length j s.pc .finished (fun p => p ≠ .unpack)
          (fun i => s.unpacked i = vs i ∧ s.reason i = none) hlocals
          (fun _ => hlocals j hj (by rw [hpc]; simp))
      · exact update_pc_forall arr.length j s.pc .finished (fun p => p.pastRecord = true)
          (fun i => s.all[i]? = some (vs i)) hslots
          (fun _ => hslots j hj (by rw [hpc]; rfl))
      · exact update_pc_all arr.length j s.pc .finished
          (fun p => p ≠ .writeErr ∧ p ≠ .settle true) hpcs (by simp)
      · show s.count = _
        rw [pastAdd_card_update_same arr.length j s.pc .finished (by rw [hpc]; rfl)]
        exact hcount
  | finished =>
    simp [hpc] at hstep

theorem All.Steps_of_schedule (arr : List Value) (promise allAddr : Ptr) (fuel : Nat)
    (sched : List Nat) :
    ∀ s : AllState,
      All.Steps arr promise allAddr fuel s (All.run arr promise allAddr fuel sched s) := by
  induction sched with
  | nil => exact fun s => All.Steps.refl s
  | cons i rest ih =>
    intro s
    have trans : ∀ a b c : AllState, All.Steps arr promise allAddr fuel a b →
        All.Steps arr promise allAddr fuel b c → All.Steps arr promise allAddr fuel a c := by
      intro a b c hab hbc
      induction hbc with
      | refl => exact hab
      | tail j _ hstep ih2 => exact All.Steps.tail j ih2 hstep
    cases hstep : All.step arr promise allAddr fuel i s with
    | none =>
      simp only [All.run, hstep]
      exact ih s
    | some t =>
      simp only [All.run, hstep]
      exact trans s t _ (All.Steps.tail i (All.Steps.refl s) hstep) (ih t)

theorem All.SuccessInv_init (arr : List Value) (promise allAddr : Ptr) (h : Heap)
    (vs : Nat → Value) (hne : arr ≠ []) (hn : arr.length < 2 ^ 32) :
    All.SuccessInv arr promise allAddr (createPromise promise h) vs (All.init arr promise h) := by
  have hlen : lengthUint32 arr = arr.length := Nat.mod_eq_of_lt hn
  have hpos : 0 < arr.length := List.length_pos.mpr hne
  refine ⟨fun _ _ => rfl, Or.inl (by simp [All.init, createPromise]), rfl, ?_, ?_, ?_, ?_, ?_,
    Or.inl ⟨0, hpos, rfl⟩⟩
  · simp [All.init, hlen]
  · intro i _ hne2
    exact absurd rfl hne2
  · intro i _ hp
    simp [All.init, AllPc.pastRecord] at hp
  · intro i _
    simp [All.init]
  · simp [All.init, AllPc.pastAdd]

theorem All.SuccessInv_steps (arr : List Value) (promise allAddr : Ptr) (fuel : Nat)
    (h0 : Heap) (vs : Nat → Value) (hn : arr.length < 2 ^ 32) (h0p : h0 promise = newPromise)
    (hun : ∀ i, i < arr.length →
      unpackPromise h0 fuel (arr.getD i Value.nil) = .done (vs i, none))
    (s t : AllState) (hinv : All.SuccessInv arr promise allAddr h0 vs s)
    (hsteps : All.Steps arr promise allAddr fuel s t) :
    All.SuccessInv arr promise allAddr h0 vs t := by
  induction hsteps with
  | refl => exact hinv
  | tail j _ hstep ih =>
    exact All.SuccessInv_step arr promise allAddr fuel h0 vs hn h0p hun j _ _ ih hstep

/-- The success half of the outcome of `All`, which the code keeps: when every element of a non-empty
`arr` unwraps to a value with no reason, then in every state that the
goroutines of `All` reach, in whatever order they run their statements, the
promise of `All` is not rejected, every goroutine that has not finished can
run its next statement, and once all have finished the promise is fulfilled
with the slice `all`, whose backing array holds the unwrapped values in input
order. -/
theorem All_success_every_order (arr : List Value) (promise allAddr : Ptr) (fuel : Nat)
    (h : Heap) (vs : Nat → Value) (hne : arr ≠ []) (hn : arr.length < 2 ^ 32)
    (hun : ∀ i, i < arr.length →
      unpackPromise (createPromise promise h) fuel (arr.getD i Value.nil) = .done (vs i, none))
    (s : AllState) (hsteps : All.Steps arr promise allAddr fuel (All.init arr promise h) s) :
    (s.heap promise).status ≠ internalRejected ∧
    (∀ i, i < arr.length → s.pc i ≠ .finished →
      ∃ t, All.step arr promise allAddr fuel i s = some t) ∧
    ((∀ i, i < arr.length → s.pc i = .finished) →
      (s.heap promise).status = internalFulfilled ∧
      (s.heap promise).fulfilled = Value.slice allAddr ∧
      (s.heap promise).wait = true ∧
      s.all = (List.range arr.length).map vs) := by
  have h0p : createPromise promise h promise = newPromise := by simp [createPromise]
  have hinv := All.SuccessInv_steps arr promise allAddr fuel (createPromise promise h) vs hn h0p
    hun _ s (All.SuccessInv_init arr promise allAddr h vs hne hn) hsteps
  refine ⟨?_, ?_, ?_⟩
  · rcases hinv.heap_promise with hp | hp <;> rw [hp] <;> simp [newPromise, allFulfilled]
  · intro i hi hnf
    have hu : unpackPromise s.heap fuel (arr.getD i Value.nil) = .done (vs i, none) :=
      unpackPromise_frame _ s.heap promise (by rw [h0p]; rfl) hinv.heap_other fuel _ _ (hun i hi)
    unfold All.step
    simp only [hi, if_true]
    cases hpc : s.pc i with
    | unpack =>
      simp only [hu]
      exact ⟨_, rfl⟩
    | add => simp
    | record =>
      cases s.reason i with
      | none => simp
      | some e => by_cases hr : s.rejected = 0 <;> simp [hr]
    | writeErr => simp
    | check => by_cases hc : s.count = lengthUint32 arr <;> simp [hc]
    | choose => by_cases hr : s.rejected = 1 <;> simp [hr]
    | settle b => cases b <;> simp
    | finished => exact absurd hpc hnf
  · intro hall
    have hful : s.heap promise = allFulfilled allAddr := by
      rcases hinv.live with ⟨i, hi, hb⟩ | ⟨i, hi, hb⟩ | hf
      · rw [hall i hi] at hb
        simp [AllPc.beforeChoice] at hb
      · rw [hall i hi] at hb
        simp [AllPc.fulfilling] at hb
      · exact hf
    refine ⟨by rw [hful]; rfl, by rw [hful]; rfl, by rw [hful]; rfl, ?_⟩
    apply List.ext_getElem?
    intro i
    by_cases hi : i < arr.length
    · rw [hinv.slots i hi (by rw [hall i hi]; rfl)]
      simp [hi]
    · have h1 : s.all[i]? = none := by
        rw [List.getElem?_eq_none_iff, hinv.length]
        omega
      have h2 : ((List.range arr.length).map vs)[i]? = none := by
        rw [List.getElem?_eq_none_iff]
        simp only [List.length_map, List.length_range]
        omega
      rw [h1, h2]

/-- Instance of the theorem above: the plain inputs `[1, 2, 3]`, each goroutine
run in turn, give `[1, 2, 3]`. -/
theorem All_success_every_order_witness :
    ((All.run plainInput 0 1 0 plainSchedule (All.init plainInput 0 emptyHeap)).heap 0).status
      = internalFulfilled ∧
    ((All.run plainInput 0 1 0 plainSchedule (All.init plainInput 0 emptyHeap)).heap 0).fulfilled
      = Value.slice 1 ∧
    ((All.run plainInput 0 1 0 plainSchedule (All.init plainInput 0 emptyHeap)).heap 0).wait
      = true ∧
    (All.run plainInput 0 1 0 plainSchedule (All.init plainInput 0 emptyHeap)).all
      = (List.range plainInput.length).map plainValues :=
  (All_success_every_order plainInput 0 1 0 emptyHeap plainValues (by decide) (by decide)
    (by intro i hi; have h3 : i < 3 := hi; interval_cases i <;> rfl)
    (All.run plainInput 0 1 0 plainSchedule (All.init plainInput 0 emptyHeap))
    (All.Steps_of_schedule plainInput 0 1 0 plainSchedule _)).2.2
    (by intro i hi; have h3 : i < 3 := hi; interval_cases i <;> decide)

/-! ## The combinators `Any` and `Race` -/

/-- C11 fails on the code. Input `[promise 1, 5]` with promise 1 rejected
with "boom": element 1 unwraps to the success 5, yet under the schedule in
which goroutine 1 has only incremented `count` when goroutine 0 runs to its
end, goroutine 0 reads `count == length`, finds the promise of `Any` still
pending and rejects it with the aggregate of the one error recorded so far;
the later `fulfillPromise` of goroutine 1 changes nothing. Every goroutine
has finished and the promise is rejected. When each goroutine runs in one
piece the same input is fulfilled with 5. -/
theorem Any_rejected_despite_success :
    unpackPromise (createPromise 0 rejectedHeap) 1 (anyInput.getD 1 Value.nil)
      = .done (Value.int 5, none) ∧
    ((Any.init anyInput 0 rejectedHeap).heap 0).status = internalPending ∧
    (∀ i, i < 2 →
      (Any.run anyInput 0 1 anyFailingSchedule (Any.init anyInput 0 rejectedHeap)).pc i
        = .finished) ∧
    ((Any.run anyInput 0 1 anyFailingSchedule (Any.init anyInput 0 rejectedHeap)).heap
      0).status = internalRejected ∧
    ((Any.run anyInput 0 1 anyFailingSchedule (Any.init anyInput 0 rejectedHeap)).heap
      0).rejected = some (.aggregate [some (.errorString "boom")]) ∧
    ((Any.run anyInput 0 1 anyFailingSchedule (Any.init anyInput 0 rejectedHeap)).heap
      0).fulfilled = Value.nil ∧
    ((Any.run anyInput 0 1 anySequentialSchedule (Any.init anyInput 0 rejectedHeap)).heap
      0).status = internalFulfilled ∧
    ((Any.run anyInput 0 1 anySequentialSchedule (Any.init anyInput 0 rejectedHeap)).heap
      0).fulfilled = Value.int 5 := by
  refine ⟨by decide, by decide, ?_, by decide, rfl, by decide, by decide, by decide⟩
  intro i hi
  interval_cases i <;> decide

/-- C12 fails on the code. Input `[promise 1, promise 2]`, rejected with "e1"
and "e2": under the schedule in which goroutine 0 has only incremented
`count` when goroutine 1 runs to its end, goroutine 1 reads `count == length`
and aggregates `errors` while slot 0 is still nil, so the promise of `Any` is
rejected with an aggregate of length 1 that holds "e2" only. When each
goroutine runs in one piece the aggregate is `["e1", "e2"]`. -/
theorem Any_aggregate_incomplete :
    unpackPromise (createPromise 0 twoRejectedHeap) 1 (allFailInput.getD 0 Value.nil)
      = .done (Value.nil, some (.errorString "e1")) ∧
    unpackPromise (createPromise 0 twoRejectedHeap) 1 (allFailInput.getD 1 Value.nil)
      = .done (Value.nil, some (.errorString "e2")) ∧
    (∀ i, i < 2 →
      (Any.run allFailInput 0 1 allFailSchedule (Any.init allFailInput 0 twoRejectedHeap)).pc i
        = .finished) ∧
    ((Any.run allFailInput 0 1 allFailSchedule (Any.init allFailInput 0 twoRejectedHeap)).heap
      0).status = internalRejected ∧
    ((Any.run allFailInput 0 1 allFailSchedule (Any.init allFailInput 0 twoRejectedHeap)).heap
      0).rejected = some (.aggregate [some (.errorString "e2")]) ∧
    ((Any.run allFailInput 0 1 anySequentialSchedule
      (Any.init allFailInput 0 twoRejectedHeap)).heap 0).rejected
      = some (.aggregate [some (.errorString "e1"), some (.errorString "e2")]) := by
  refine ⟨by decide, by decide, ?_, by decide, rfl, rfl⟩
  intro i hi
  interval_cases i <;> decide

/-- C13 fails on the code. Input `[promise 1, 1]` with promise 1 rejected
with "boom": under the schedule in which goroutine 0 has only incremented
`count` when goroutine 1 runs to its end, goroutine 1 reads `count == length`
and `rejected == 0` and fulfills the promise of `Race` with 1; the later
`rejectPromise` of goroutine 0 changes nothing, so a success has won over a
failure. When each goroutine runs in one piece the same input is rejected
with "boom". -/
theorem Race_success_wins_over_failure :
    unpackPromise (createPromise 0 rejectedHeap) 1 (failingInput.getD 0 Value.nil)
      = .done (Value.nil, some (.errorString "boom")) ∧
    ((Race.init 0 rejectedHeap).heap 0).status = internalPending ∧
    (∀ i, i < 2 →
      (Race.run failingInput 0 1 raceFailingSchedule (Race.init 0 rejectedHeap)).pc i
        = .finished) ∧
    ((Race.run failingInput 0 1 raceFailingSchedule (Race.init 0 rejectedHeap)).heap
      0).status = internalFulfilled ∧
    ((Race.run failingInput 0 1 raceFailingSchedule (Race.init 0 rejectedHeap)).heap
      0).fulfilled = Value.int 1 ∧
    ((Race.run failingInput 0 1 raceFailingSchedule (Race.init 0 rejectedHeap)).heap
      0).rejected = none ∧
    ((Race.run failingInput 0 1 raceSequentialSchedule (Race.init 0 rejectedHeap)).heap
      0).status = internalRejected ∧
    ((Race.run failingInput 0 1 raceSequentialSchedule (Race.init 0 rejectedHeap)).heap
      0).rejected = some (.errorString "boom") := by
  refine ⟨by decide, by decide, ?_, by decide, by decide, by decide, by decide, by decide⟩
  intro i hi
  interval_cases i <;> decide

/-! ## The combinator `AllSettled` -/

theorem flag_card_update_same {α : Type} (f : α → Bool) (n j : Nat) (pc : Nat → α) (x : α)
    (hx : f x = f (pc j)) :
    ((Finset.range n).filter (fun i => f (Function.update pc j x i) = true)).card
      = ((Finset.range n).filter (fun i => f (pc i) = true)).card := by
  congr 1
  apply Finset.filter_congr
  intro i _
  by_cases hi : i = j
  · subst hi
    simp [hx]
  · simp [Function.update_noteq hi]

theorem flag_card_update_add {α : Type} (f : α → Bool) (n j : Nat) (pc : Nat → α) (x : α)
    (hj : j < n) (hold : f (pc j) = false) (hx : f x = true) :
    ((Finset.range n).filter (fun i => f (Function.update pc j x i) = true)).card
      = ((Finset.range n).filter (fun i => f (pc i) = true)).card + 1 := by
  have hset : (Finset.range n).filter (fun i => f (Function.update pc j x i) = true)
      = insert j ((Finset.range n).filter (fun i => f (pc i) = true)) := by
    ext i
    by_cases hi : i = j
    · subst hi
      simp [hx, hj]
    · simp [Function.update_noteq hi, hi]
  rw [hset, Finset.card_insert_of_not_mem]
  simp [hold]

theorem flag_card_lt {α : Type} (f : α → Bool) (n j : Nat) (pc : Nat → α) (hj : j < n)
    (hold : f (pc j) = false) :
    ((Finset.range n).filter (fun i => f (pc i) = true)).card < n := by
  have hsub : (Finset.range n).filter (fun i => f (pc i) = true)
      ⊆ (Finset.range n).erase j := by
    intro i hi
    simp only [Finset.mem_filter, Finset.mem_range] at hi
    simp only [Finset.mem_erase, Finset.mem_range]
    refine ⟨?_, hi.1⟩
    intro e
    rw [e, hold] at hi
    exact absurd hi.2 (by decide)
  have h1 := Finset.card_le_card hsub
  rw [Finset.card_erase_of_mem (Finset.mem_range.mpr hj), Finset.card_range] at h1
  omega

theorem flag_exists_of_card_ne {α : Type} (f : α → Bool) (n : Nat) (pc : Nat → α)
    (hne : ((Finset.range n).filter (fun i => f (pc i) = true)).card ≠ n) :
    ∃ i, i < n ∧ f (pc i) = false := by
  by_contra hcon
  apply hne
  have hall : (Finset.range n).filter (fun i => f (pc i) = true) = Finset.range n := by
    apply Finset.filter_true_of_mem
    intro i hi
    by_contra hfalse
    exact hcon ⟨i, Finset.mem_range.mp hi, by simpa using hfalse⟩
  rw [hall, Finset.card_range]

theorem update_forall {α : Type} (n j : Nat) (pc : Nat → α) (x : α) (C : α → Prop)
    (U : Nat → Prop) (hold : ∀ i, i < n → C (pc i) → U i) (hnew : C x → U j) :
    ∀ i, i < n → C (Function.update pc j x i) → U i := by
  intro i hi hc
  by_cases hij : i = j
  · subst hij
    rw [Function.update_same] at hc
    exact hnew hc
  · rw [Function.update_noteq hij] at hc
    exact hold i hi hc

theorem unpackPromise_reason_value (h : Heap) :
    ∀ (fuel : Nat) (v u : Value) (e : GoError),
      unpackPromise h fuel v = .done (u, some e) → u = Value.nil := by
  intro fuel
  induction fuel with
  | zero =>
    intro v u e hr
    cases v <;> simp only [unpackPromise] at hr
    case promise p =>
      split_ifs at hr
      · simp only [Result.done.injEq, Prod.mk.injEq] at hr
        exact hr.1.symm
      · simp at hr
    all_goals simp at hr
  | succ k ih =>
    intro v u e hr
    cases v <;> simp only [unpackPromise] at hr
    case promise p =>
      split_ifs at hr
      · exact ih _ u e hr
      · simp only [Result.done.injEq, Prod.mk.injEq] at hr
        exact hr.1.symm
      · simp at hr
    all_goals simp at hr

theorem AllSettled.Inv_preserved (arr : List Value) (promise settledAddr : Ptr) (fuel : Nat)
    (h0 : Heap) (res : Nat → Value × Err) (hn : arr.length < 2 ^ 32)
    (h0p : h0 promise = newPromise)
    (hun : ∀ i, i < arr.length → unpackPromise h0 fuel (arr.getD i Value.nil) = .done (res i))
    (j : Nat) (s t : AllSettledState)
    (hinv : AllSettled.Inv arr promise settledAddr h0 res s)
    (hstep : AllSettled.step arr promise settledAddr fuel j s = some t) :
    AllSettled.Inv arr promise settledAddr h0 res t := by
  unfold AllSettled.step at hstep
  have hlen : lengthUint32 arr = arr.length := Nat.mod_eq_of_lt hn
  by_cases hj : j < arr.length
  swap
  · simp [hj] at hstep
  simp only [hj, if_true] at hstep
  obtain ⟨hother, hprom, hlength, hlocals, hslots, hcount, hlive⟩ := hinv
  cases hpc : s.pc j with
  | unpack =>
    have hu : unpackPromise s.heap fuel (arr.getD j Value.nil) = .done (res j) :=
      unpackPromise_frame h0 s.heap promise (by rw [h0p]; rfl) hother fuel _ _ (hun j hj)
    simp only [hpc, hu, Option.some.injEq] at hstep
    subst hstep
    refine ⟨hother, hprom, hlength, ?_, ?_, ?_, ?_⟩
    · intro i hi hne
      by_cases hij : i = j
      · subst hij
        simp
      · simp only [Function.update_noteq hij] at hne ⊢
        exact hlocals i hi hne
    · exact update_forall arr.length j s.pc .add (fun p => p.recorded = true)
        (fun i => s.settled[i]? = some (PromiseSettled.of (res i).1 (res i).2)) hslots
        (by simp [SettledPc.recorded])
    · show s.count = _
      rw [flag_card_update_same SettledPc.counted arr.length j s.pc .add (by rw [hpc]; rfl)]
      exact hcount
    · exact Or.inl ⟨j, hj, by simp [SettledPc.undecided]⟩
  | add =>
    simp only [hpc, Option.some.injEq] at hstep
    subst hstep
    have hlt := flag_card_lt SettledPc.counted arr.length j s.pc hj (by rw [hpc]; rfl)
    refine ⟨hother, hprom, hlength, ?_, ?_, ?_, ?_⟩
    · exact update_forall arr.length j s.pc .record (fun p => p ≠ .unpack)
        (fun i => (s.unpacked i, s.reason i) = res i) hlocals
        (fun _ => hlocals j hj (by rw [hpc]; simp))
    · exact update_forall arr.length j s.pc .record (fun p => p.recorded = true)
        (fun i => s.settled[i]? = some (PromiseSettled.of (res i).1 (res i).2)) hslots
        (by simp [SettledPc.recorded])
    · show (s.count + 1) % 2 ^ 32 = _
      rw [flag_card_update_add SettledPc.counted arr.length j s.pc .record hj
        (by rw [hpc]; rfl) rfl, ← hcount]
      apply Nat.mod_eq_of_lt
      rw [hcount]
      omega
    · exact Or.inl ⟨j, hj, by simp [SettledPc.undecided]⟩
  | record =>
    have hloc := hlocals j hj (by rw [hpc]; simp)
    simp only [hpc, Option.some.injEq] at hstep
    subst hstep
    refine ⟨hother, hprom, ?_, ?_, ?_, ?_, ?_⟩
    · show (s.settled.set j _).length = _
      rw [List.length_set]
      exact hlength
    · exact update_forall arr.length j s.pc .check (fun p => p ≠ .unpack)
        (fun i => (s.unpacked i, s.reason i) = res i) hlocals (fun _ => hloc)
    · intro i hi hp
      show (s.settled.set j (PromiseSettled.of (s.unpacked j) (s.reason j)))[i]? = _
      by_cases hij : i = j
      · subst hij
        rw [List.getElem?_set_self (by rw [hlength]; exact hi), ← hloc]
      · rw [List.getElem?_set_ne (Ne.symm hij)]
        simp only [Function.update_noteq hij] at hp
        exact hslots i hi hp
    · show s.count = _
      rw [flag_card_update_same SettledPc.counted arr.length j s.pc .check (by rw [hpc]; rfl)]
      exact hcount
    · exact Or.inl ⟨j, hj, by simp [SettledPc.undecided]⟩
  | check =>
    simp only [hpc, hlen] at hstep
    by_cases hc : s.count = arr.length
    · rw [if_pos hc] at hstep
      simp only [Option.some.injEq] at hstep
      subst hstep
      refine ⟨hother, hprom, hlength, ?_, ?_, ?_, ?_⟩
      · exact update_forall arr.length j s.pc .settle (fun p => p ≠ .unpack)
          (fun i => (s.unpacked i, s.reason i) = res i) hlocals
          (fun _ => hlocals j hj (by rw [hpc]; simp))
      · exact update_forall arr.length j s.pc .settle (fun p => p.recorded = true)
          (fun i => s.settled[i]? = some (PromiseSettled.of (res i).1 (res i).2)) hslots
          (fun _ => hslots j hj (by rw [hpc]; rfl))
      · show s.count = _
        rw [flag_card_update_same SettledPc.counted arr.length j s.pc .settle
          (by rw [hpc]; rfl)]
        exact hcount
      · exact Or.inr (Or.inl ⟨j, hj, by simp⟩)
    · rw [if_neg hc] at hstep
      simp only [Option.some.injEq] at hstep
      subst hstep
      refine ⟨hother, hprom, hlength, ?_, ?_, ?_, ?_⟩
      · exact update_forall arr.length j s.pc .finished (fun p => p ≠ .unpack)
          (fun i => (s.unpacked i, s.reason i) = res i) hlocals
          (fun _ => hlocals j hj (by rw [hpc]; simp))
      · exact update_forall arr.length j s.pc .finished (fun p => p.recorded = true)
          (fun i => s.settled[i]? = some (PromiseSettled.of (res i).1 (res i).2)) hslots
          (fun _ => hslots j hj (by rw [hpc]; rfl))
      · show s.count = _
        rw [flag_card_update_same SettledPc.counted arr.length j s.pc .finished
          (by rw [hpc]; rfl)]
        exact hcount
      · obtain ⟨i, hi, hpa⟩ := flag_exists_of_card_ne SettledPc.counted arr.length s.pc
          (by rw [← hcount]; exact hc)
        have hij : i ≠ j := by
          intro e
          rw [e, hpc] at hpa
          exact absurd hpa (by decide)
        refine Or.inl ⟨i, hi, ?_⟩
        simp only [Function.update_noteq hij]
        cases hpi : s.pc i <;> rw [hpi] at hpa <;> first | rfl | simp [SettledPc.counted] at hpa
  | settle =>
    simp only [hpc, Option.some.injEq] at hstep
    subst hstep
    have hful : fulfillPromise promise (Value.slice settledAddr) s.heap promise
        = allFulfilled settledAddr := by
      rcases hprom with hp | hp
      · rw [fulfillPromise_pending _ _ _ (by rw [hp]; rfl)]
        simp [hp, allFulfilled, newPromise]
      · rw [fulfillPromise_settled _ _ _ (by rw [hp]; simp [allFulfilled]), hp]
    refine ⟨?_, Or.inr hful, hlength, ?_, ?_, ?_, Or.inr (Or.inr hful)⟩
    · intro q hq
      show fulfillPromise promise (Value.slice settledAddr) s.heap q = h0 q
      rw [fulfillPromise_other _ _ _ _ hq]
      exact hother q hq
    · exact update_forall arr.length j s.pc .finished (fun p => p ≠ .unpack)
        (fun i => (s.unpacked i, s.reason i) = res i) hlocals
        (fun _ => hlocals j hj (by rw [hpc]; simp))
    · exact update_forall arr.length j s.pc .finished (fun p => p.recorded = true)
        (fun i => s.settled[i]? = some (PromiseSettled.of (res i).1 (res i).2)) hslots
        (fun _ => hslots j hj (by rw [hpc]; rfl))
    · show s.count = _
      rw [flag_card_update_same SettledPc.counted arr.length j s.pc .finished
        (by rw [hpc]; rfl)]
      exact hcount
  | finished =>
    simp [hpc] at hstep

theorem AllSettled.Inv_init (arr : List Value) (promise settledAddr : Ptr) (h : Heap)
    (res : Nat → Value × Err) (hne : arr ≠ []) (hn : arr.length < 2 ^ 32) :
    AllSettled.Inv arr promise settledAddr (createPromise promise h) res
      (AllSettled.init arr promise h) := by
  have hlen : lengthUint32 arr = arr.length := Nat.mod_eq_of_lt hn
  have hpos : 0 < arr.length := List.length_pos.mpr hne
  refine ⟨fun _ _ => rfl, Or.inl (by simp [AllSettled.init, createPromise]), ?_, ?_, ?_, ?_,
    Or.inl ⟨0, hpos, rfl⟩⟩
  · simp [AllSettled.init, hlen]
  · intro i _ hne2
    exact absurd rfl hne2
  · intro i _ hp
    simp [AllSettled.init, SettledPc.recorded] at hp
  · simp [AllSettled.init, SettledPc.counted]

theorem AllSettled.Inv_of_steps (arr : List Value) (promise settledAddr : Ptr) (fuel : Nat)
    (h0 : Heap) (res : Nat → Value × Err) (hn : arr.length < 2 ^ 32)
    (h0p : h0 promise = newPromise)
    (hun : ∀ i, i < arr.length → unpackPromise h0 fuel (arr.getD i Value.nil) = .done (res i))
    (s t : AllSettledState) (hinv : AllSettled.Inv arr promise settledAddr h0 res s)
    (hsteps : AllSettled.Steps arr promise settledAddr fuel s t) :
    AllSettled.Inv arr promise settledAddr h0 res t := by
  induction hsteps with
  | refl => exact hinv
  | tail j _ hstep ih =>
    exact AllSettled.Inv_preserved arr promise settledAddr fuel h0 res hn h0p hun j _ _ ih hstep

theorem AllSettled.Steps_of_run (arr : List Value) (promise settledAddr : Ptr) (fuel : Nat)
    (sched : List Nat) :
    ∀ s : AllSettledState, AllSettled.Steps arr promise settledAddr fuel s
      (AllSettled.run arr promise settledAddr fuel sched s) := by
  induction sched with
  | nil => exact fun s => AllSettled.Steps.refl s
  | cons i rest ih =>
    intro s
    have trans : ∀ a b c : AllSettledState,
        AllSettled.Steps arr promise settledAddr fuel a b →
        AllSettled.Steps arr promise settledAddr fuel b c →
        AllSettled.Steps arr promise settledAddr fuel a c := by
      intro a b c hab hbc
      induction hbc with
      | refl => exact hab
      | tail j _ hstep ih2 => exact AllSettled.Steps.tail j ih2 hstep
    cases hstep : AllSettled.step arr promise settledAddr fuel i s with
    | none =>
      simp only [AllSettled.run, hstep]
      exact ih s
    | some t =>
      simp only [AllSettled.run, hstep]
      exact trans s t _ (AllSettled.Steps.tail i (AllSettled.Steps.refl s) hstep) (ih t)

theorem AllSettled.measure_update (arr : List Value) (j : Nat) (pc : Nat → SettledPc)
    (x : SettledPc) (hj : j < arr.length) (hx : x.remaining < (pc j).remaining) :
    (Finset.range arr.length).sum (fun i => (Function.update pc j x i).remaining)
      < (Finset.range arr.length).sum (fun i => (pc i).remaining) := by
  apply Finset.sum_lt_sum
  · intro i _
    by_cases hij : i = j
    · subst hij
      simpa using le_of_lt hx
    · simp [Function.update_noteq hij]
  · exact ⟨j, Finset.mem_range.mpr hj, by simpa using hx⟩

theorem AllSettled.measure_decreases (arr : List Value) (promise settledAddr : Ptr) (fuel : Nat)
    (j : Nat) (s t : AllSettledState)
    (hstep : AllSettled.step arr promise settledAddr fuel j s = some t) :
    AllSettled.measure arr t < AllSettled.measure arr s := by
  unfold AllSettled.step at hstep
  by_cases hj : j < arr.length
  swap
  · simp [hj] at hstep
  simp only [hj, if_true] at hstep
  unfold AllSettled.measure
  cases hpc : s.pc j with
  | unpack =>
    rw [hpc] at hstep
    cases hu : unpackPromise s.heap fuel (arr.getD j Value.nil) with
    | done r =>
      simp only [hu, Option.some.injEq] at hstep
      subst hstep
      exact AllSettled.measure_update arr j s.pc .add hj (by rw [hpc]; decide)
    | blocked ch =>
      rw [hu] at hstep
      cases hstep
    | outOfFuel =>
      rw [hu] at hstep
      cases hstep
  | add =>
    simp only [hpc, Option.some.injEq] at hstep
    subst hstep
    exact AllSettled.measure_update arr j s.pc .record hj (by rw [hpc]; decide)
  | record =>
    simp only [hpc, Option.some.injEq] at hstep
    subst hstep
    exact AllSettled.measure_update arr j s.pc .check hj (by rw [hpc]; decide)
  | check =>
    simp only [hpc] at hstep
    split_ifs at hstep
    · simp only [Option.some.injEq] at hstep
      subst hstep
      exact AllSettled.measure_update arr j s.pc .settle hj (by rw [hpc]; decide)
    · simp only [Option.some.injEq] at hstep
      subst hstep
      exact AllSettled.measure_update arr j s.pc .finished hj (by rw [hpc]; decide)
  | settle =>
    simp only [hpc, Option.some.injEq] at hstep
    subst hstep
    exact AllSettled.measure_update arr j s.pc .finished hj (by rw [hpc]; decide)
  | finished =>
    simp [hpc] at hstep

/-- The outcome of `AllSettled` once every goroutine has finished: for a
non-empty `arr` of fewer than `2 ^ 32` elements whose element `i` unwraps to
the pair `res i`, in every state that the goroutines of `AllSettled` reach,
in whatever order they run their statements: the promise of `AllSettled` is
not rejected; every goroutine that has not finished can run its next
statement, and every statement run lowers the number of statements left, so
every run ends with all goroutines finished; and once all have finished the
promise is fulfilled with the slice `settled`, which has one record per
input, in input order, record `i` being `{fulfilled, nil, V}` when element
`i` unwraps to the value `V` and `{rejected, R, nil}` when it unwraps to the
failure `R`. -/
theorem AllSettled_outcome (arr : List Value) (promise settledAddr : Ptr) (fuel : Nat)
    (h : Heap) (res : Nat → Value × Err) (hne : arr ≠ []) (hn : arr.length < 2 ^ 32)
    (hun : ∀ i, i < arr.length →
      unpackPromise (createPromise promise h) fuel (arr.getD i Value.nil) = .done (res i))
    (s : AllSettledState)
    (hsteps : AllSettled.Steps arr promise settledAddr fuel (AllSettled.init arr promise h) s) :
    (s.heap promise).status ≠ internalRejected ∧
    (∀ i, i < arr.length → s.pc i ≠ .finished →
      ∃ t, AllSettled.step arr promise settledAddr fuel i s = some t) ∧
    (∀ j t, AllSettled.step arr promise settledAddr fuel j s = some t →
      AllSettled.measure arr t < AllSettled.measure arr s) ∧
    ((∀ i, i < arr.length → s.pc i = .finished) →
      (s.heap promise).status = internalFulfilled ∧
      (s.heap promise).fulfilled = Value.slice settledAddr ∧
      (s.heap promise).rejected = none ∧
      (s.heap promise).wait = true ∧
      s.settled.length = arr.length ∧
      ∀ i, i < arr.length →
        (∀ V, res i = (V, none) →
          s.settled[i]? = some { Status := "fulfilled", Reason := none, Value := V }) ∧
        (∀ R, (res i).2 = some R →
          s.settled[i]? = some { Status := "rejected", Reason := some R, Value := Value.nil })) := by
  have h0p : createPromise promise h promise = newPromise := by simp [createPromise]
  have hinv := AllSettled.Inv_of_steps arr promise settledAddr fuel (createPromise promise h)
    res hn h0p hun _ s (AllSettled.Inv_init arr promise settledAddr h res hne hn) hsteps
  refine ⟨?_, ?_, fun j t hstep =>
    AllSettled.measure_decreases arr promise settledAddr fuel j s t hstep, ?_⟩
  · rcases hinv.heap_promise with hp | hp <;> rw [hp] <;> simp [newPromise, allFulfilled]
  · intro i hi hnf
    have hu : unpackPromise s.heap fuel (arr.getD i Value.nil) = .done (res i) :=
      unpackPromise_frame _ s.heap promise (by rw [h0p]; rfl) hinv.heap_other fuel _ _ (hun i hi)
    unfold AllSettled.step
    simp only [hi, if_true]
    cases hpc : s.pc i with
    | unpack =>
      simp only [hu]
      exact ⟨_, rfl⟩
    | add => simp
    | record => simp
    | check => by_cases hc : s.count = lengthUint32 arr <;> simp [hc]
    | settle => simp
    | finished => exact absurd hpc hnf
  · intro hall
    have hful : s.heap promise = allFulfilled settledAddr := by
      rcases hinv.live with ⟨i, hi, hb⟩ | ⟨i, hi, hb⟩ | hf
      · rw [hall i hi] at hb
        simp [SettledPc.undecided] at hb
      · rw [hall i hi] at hb
        cases hb
      · exact hf
    refine ⟨by rw [hful]; rfl, by rw [hful]; rfl, by rw [hful]; rfl, by rw [hful]; rfl,
      hinv.length, ?_⟩
    intro i hi
    have hslot := hinv.slots i hi (by rw [hall i hi]; rfl)
    refine ⟨?_, ?_⟩
    · intro V hV
      rw [hslot, hV]
      rfl
    · intro R hR
      have hnil : (res i).1 = Value.nil :=
        unpackPromise_reason_value _ fuel _ (res i).1 R (by rw [hun i hi, ← hR])
      rw [hslot, hnil, hR]
      rfl

/-- Instance of the theorem above: input `[1, promise 1]` with promise 1
rejected with "boom"; goroutine 1 runs to its end first, goroutine 0 makes
the decision. -/
theorem AllSettled_outcome_instance :
    ((AllSettled.run settledInput 0 2 1 settledSchedule
      (AllSettled.init settledInput 0 rejectedHeap)).heap 0).status = internalFulfilled ∧
    ((AllSettled.run settledInput 0 2 1 settledSchedule
      (AllSettled.init settledInput 0 rejectedHeap)).heap 0).fulfilled = Value.slice 2 ∧
    (AllSettled.run settledInput 0 2 1 settledSchedule
      (AllSettled.init settledInput 0 rejectedHeap)).settled
      = [{ Status := "fulfilled", Reason := none, Value := Value.int 1 },
         { Status := "rejected", Reason := some (.errorString "boom"), Value := Value.nil }] :=
  ⟨((AllSettled_outcome settledInput 0 2 1 rejectedHeap settledResults (by decide) (by decide)
      (by intro i hi; have h2 : i < 2 := hi; interval_cases i <;> rfl)
      (AllSettled.run settledInput 0 2 1 settledSchedule
        (AllSettled.init settledInput 0 rejectedHeap))
      (AllSettled.Steps_of_run settledInput 0 2 1 settledSchedule _)).2.2.2
      (by intro i hi; have h2 : i < 2 := hi; interval_cases i <;> decide)).1,
    by decide, by decide⟩

/-- C14 fails on the code. Input `[1, promise 1]` with promise 1 rejected
with "boom": element 1 unwraps to the failure "boom", yet under the schedule
in which goroutine 1 has only incremented `count` when goroutine 0 runs to
its end, goroutine 0 reads `count == length` and fulfills the promise of
`AllSettled` with the slice `settled` while record 1 is still the zero
record: the signal has fired, `Wait` returns the slice, and its second
record is not `{rejected, "boom", nil}`. Goroutine 1 writes the record only
afterwards. -/
theorem AllSettled_fulfilled_before_records :
    unpackPromise (createPromise 0 rejectedHeap) 1 (settledInput.getD 1 Value.nil)
      = .done (Value.nil, some (.errorString "boom")) ∧
    ((AllSettled.run settledInput 0 2 1 earlySettleSchedule
      (AllSettled.init settledInput 0 rejectedHeap)).heap 0).status = internalFulfilled ∧
    ((AllSettled.run settledInput 0 2 1 earlySettleSchedule
      (AllSettled.init settledInput 0 rejectedHeap)).heap 0).wait = true ∧
    Wait 0 (AllSettled.run settledInput 0 2 1 earlySettleSchedule
      (AllSettled.init settledInput 0 rejectedHeap)).heap = .done (Value.slice 2, none) ∧
    (AllSettled.run settledInput 0 2 1 earlySettleSchedule
      (AllSettled.init settledInput 0 rejectedHeap)).settled
      = [{ Status := "fulfilled", Reason := none, Value := Value.int 1 },
         PromiseSettled.zero] ∧
    (AllSettled.run settledInput 0 2 1 earlySettleSchedule
      (AllSettled.init settledInput 0 rejectedHeap)).settled[1]?
      ≠ some { Status := "rejected", Reason := some (.errorString "boom"),
               Value := Value.nil } ∧
    (AllSettled.run settledInput 0 2 1 earlySettleSchedule
      (AllSettled.init settledInput 0 rejectedHeap)).pc 1 = .record ∧
    (AllSettled.run settledInput 0 2 1 (earlySettleSchedule ++ [1, 1, 1])
      (AllSettled.init settledInput 0 rejectedHeap)).settled
      = [{ Status := "fulfilled", Reason := none, Value := Value.int 1 },
         { Status := "rejected", Reason := some (.errorString "boom"), Value := Value.nil }] := by
  refine ⟨by decide, by decide, by decide, by decide, by decide, by decide, by decide,
    by decide⟩

/-! ## The bridge `PromisifyPanic` -/

/-- C15, as stated, fails when `fn` raises no fault and returns a promise.
With promise 1 rejected with "boom", a `fn` that returns promise 1 leaves the
promise of `PromisifyPanic` rejected with "boom", not fulfilled; a `fn` that
returns promise 2, whose signal has not fired, leaves `PromisifyPanic`
blocked on that signal in its caller, its promise pending. -/
theorem fault_bridge_counterexample :
    (fnReturn (.promise 1) (createPromise 0 rejectedHeap)).1 = .returned (.promise 1) ∧
    (PromisifyPanic (fnReturn (.promise 1)) 0 9 1 rejectedHeap).control = .returned ∧
    ((PromisifyPanic (fnReturn (.promise 1)) 0 9 1 rejectedHeap).heap 0).status
      = internalRejected ∧
    ((PromisifyPanic (fnReturn (.promise 1)) 0 9 1 rejectedHeap).heap 0).status
      ≠ internalFulfilled ∧
    ((PromisifyPanic (fnReturn (.promise 1)) 0 9 1 rejectedHeap).heap 0).rejected
      = some (.errorString "boom") ∧
    (fnReturn (.promise 2) (createPromise 0 rejectedHeap)).1 = .returned (.promise 2) ∧
    (PromisifyPanic (fnReturn (.promise 2)) 0 9 1 rejectedHeap).control = .blocked 2 ∧
    ((PromisifyPanic (fnReturn (.promise 2)) 0 9 1 rejectedHeap).heap 0).status
      = internalPending := by
  refine ⟨by decide, by decide, by decide, by decide, by decide, by decide, by decide,
    by decide⟩

/-- C15 (amended). Fault bridge: `wrapPanic` maps a payload that is an error
to that same error, a string payload `s` to a new error whose message is
exactly `s`, and every other payload to one generic error that does not
depend on the payload. When `fn` raises no fault, `PromisifyPanic(fn)`
resolves its promise with the return value of `fn` through the unwrap: it
returns with the promise fulfilled with the unwrapped value when the return
value unwraps with no reason, it returns with the promise rejected with `R`
when the return value unwraps to the failure `R`, and it is blocked in its
caller, the promise pending, when the unwrap reaches a promise whose signal
has not fired. When `fn` panics with a payload that is not nil,
`PromisifyPanic(fn)` returns with the promise rejected with `wrapPanic` of
the payload. -/
theorem fault_bridge (fn : FunctionWithPanic) (addr valueAddr : Ptr) (fuel : Nat) (h : Heap)
    (hpend : ((fn (createPromise addr h)).2 addr).status = internalPending) :
    (∀ e : GoError, wrapPanic valueAddr (.error e) = e) ∧
    (∀ str : String, wrapPanic valueAddr (.str str) = .errorString str ∧
      (wrapPanic valueAddr (.str str)).Error = some str) ∧
    (∀ v : Value, (∀ e, v ≠ .error e) → (∀ str, v ≠ .str str) →
      wrapPanic valueAddr v = .errorString ("panic handled with " ++ fmtPointer valueAddr)) ∧
    (∀ result unpacked : Value, (fn (createPromise addr h)).1 = .returned result →
      unpackPromise (fn (createPromise addr h)).2 fuel result = .done (unpacked, none) →
      (PromisifyPanic fn addr valueAddr fuel h).control = .returned ∧
      ((PromisifyPanic fn addr valueAddr fuel h).heap addr).status = internalFulfilled ∧
      ((PromisifyPanic fn addr valueAddr fuel h).heap addr).fulfilled = unpacked ∧
      ((PromisifyPanic fn addr valueAddr fuel h).heap addr).wait = true) ∧
    (∀ payload : Value, (fn (createPromise addr h)).1 = .panicked payload →
      payload ≠ Value.nil →
      (PromisifyPanic fn addr valueAddr fuel h).control = .returned ∧
      ((PromisifyPanic fn addr valueAddr fuel h).heap addr).status = internalRejected ∧
      ((PromisifyPanic fn addr valueAddr fuel h).heap addr).rejected
        = some (wrapPanic valueAddr payload) ∧
      ((PromisifyPanic fn addr valueAddr fuel h).heap addr).wait = true) ∧
    (∀ (result unpacked : Value) (R : GoError),
      (fn (createPromise addr h)).1 = .returned result →
      unpackPromise (fn (createPromise addr h)).2 fuel result = .done (unpacked, some R) →
      (PromisifyPanic fn addr valueAddr fuel h).control = .returned ∧
      ((PromisifyPanic fn addr valueAddr fuel h).heap addr).status = internalRejected ∧
      ((PromisifyPanic fn addr valueAddr fuel h).heap addr).rejected = some R ∧
      ((PromisifyPanic fn addr valueAddr fuel h).heap addr).wait = true) ∧
    (∀ (result : Value) (ch : Ptr), (fn (createPromise addr h)).1 = .returned result →
      unpackPromise (fn (createPromise addr h)).2 fuel result = .blocked ch →
      (PromisifyPanic fn addr valueAddr fuel h).control = .blocked ch ∧
      (PromisifyPanic fn addr valueAddr fuel h).heap = (fn (createPromise addr h)).2 ∧
      ((PromisifyPanic fn addr valueAddr fuel h).heap addr).status = internalPending) := by
  refine ⟨fun _ => rfl, fun _ => ⟨rfl, rfl⟩, ?_, ?_, ?_, ?_, ?_⟩
  · intro v he hs
    cases v with
    | error e => exact absurd rfl (he e)
    | str t => exact absurd rfl (hs t)
    | nil => rfl
    | bool b => rfl
    | int i => rfl
    | promise p => rfl
    | slice a => rfl
  · intro result unpacked hret hu
    simp [PromisifyPanic, hret, assignPromise, hu, Run.ofResult,
      fulfillPromise_pending _ _ _ hpend]
  · intro payload hp hne
    simp [PromisifyPanic, hp, hne, rejectPromise_pending _ _ _ hpend]
  · intro result unpacked R hret hu
    simp [PromisifyPanic, hret, assignPromise, hu, Run.ofResult,
      rejectPromise_pending _ _ _ hpend]
  · intro result ch hret hu
    simp [PromisifyPanic, hret, assignPromise, hu, Run.ofResult, hpend]

/-- Witness of C15: a function that panics with the string "bad". -/
theorem fault_bridge_witness :
    (PromisifyPanic (fnPanic (.str "bad")) 0 9 0 emptyHeap).control = .returned ∧
    ((PromisifyPanic (fnPanic (.str "bad")) 0 9 0 emptyHeap).heap 0).status
      = internalRejected ∧
    ((PromisifyPanic (fnPanic (.str "bad")) 0 9 0 emptyHeap).heap 0).rejected
      = some (wrapPanic 9 (.str "bad")) ∧
    ((PromisifyPanic (fnPanic (.str "bad")) 0 9 0 emptyHeap).heap 0).wait = true :=
  (fault_bridge (fnPanic (.str "bad")) 0 9 0 emptyHeap (by decide)).2.2.2.2.1 (.str "bad") rfl
    (by decide)

/-! ## The completion counter -/

/-- C16 fails on the code. In each of `All`, `Race`, `Any` and `AllSettled`
a goroutine increments `count` right after `unpackPromise`, before it writes
its slot or records its decision. After goroutines 0 and 1 have each run
`unpackPromise` and the increment, `count` equals the input length while no
slot and no decision has been written: in `All` the slice `all` is unset and
`rejected` is 0 although element 0 unwraps to a failure; in `Race` both
`rejected` and `resolved` are 0; in `Any` the slice `errors` is unset and the
promise is pending although element 1 unwraps to a success; in `AllSettled`
the slice `settled` holds zero records only. -/
theorem count_reaches_length_before_records :
    ((All.run failingInput 0 2 1 countedSchedule (All.init failingInput 0 rejectedHeap)).count
        = lengthUint32 failingInput ∧
      (All.run failingInput 0 2 1 countedSchedule (All.init failingInput 0 rejectedHeap)).reason 0
        = some (.errorString "boom") ∧
      (All.run failingInput 0 2 1 countedSchedule (All.init failingInput 0 rejectedHeap)).rejected
        = 0 ∧
      (All.run failingInput 0 2 1 countedSchedule (All.init failingInput 0 rejectedHeap)).err
        = none ∧
      (All.run failingInput 0 2 1 countedSchedule (All.init failingInput 0 rejectedHeap)).unpacked 1
        = Value.int 1 ∧
      (All.run failingInput 0 2 1 countedSchedule (All.init failingInput 0 rejectedHeap)).all
        = [Value.nil, Value.nil] ∧
      (All.run failingInput 0 2 1 countedSchedule (All.init failingInput 0 rejectedHeap)).pc 0
        = .record ∧
      (All.run failingInput 0 2 1 countedSchedule (All.init failingInput 0 rejectedHeap)).pc 1
        = .record) ∧
    ((Race.run failingInput 0 1 countedSchedule (Race.init 0 rejectedHeap)).count
        = lengthUint32 failingInput ∧
      (Race.run failingInput 0 1 countedSchedule (Race.init 0 rejectedHeap)).reason 0
        = some (.errorString "boom") ∧
      (Race.run failingInput 0 1 countedSchedule (Race.init 0 rejectedHeap)).rejected = 0 ∧
      (Race.run failingInput 0 1 countedSchedule (Race.init 0 rejectedHeap)).resolved = 0 ∧
      (Race.run failingInput 0 1 countedSchedule (Race.init 0 rejectedHeap)).pc 0 = .loadFlag ∧
      (Race.run failingInput 0 1 countedSchedule (Race.init 0 rejectedHeap)).pc 1 = .loadFlag) ∧
    ((Any.run anyInput 0 1 countedSchedule (Any.init anyInput 0 rejectedHeap)).count
        = lengthUint32 anyInput ∧
      (Any.run anyInput 0 1 countedSchedule (Any.init anyInput 0 rejectedHeap)).reason 0
        = some (.errorString "boom") ∧
      (Any.run anyInput 0 1 countedSchedule (Any.init anyInput 0 rejectedHeap)).unpacked 1
        = Value.int 5 ∧
      (Any.run anyInput 0 1 countedSchedule (Any.init anyInput 0 rejectedHeap)).errors
        = [none, none] ∧
      ((Any.run anyInput 0 1 countedSchedule (Any.init anyInput 0 rejectedHeap)).heap 0).status
        = internalPending ∧
      (Any.run anyInput 0 1 countedSchedule (Any.init anyInput 0 rejectedHeap)).pc 0
        = .writeError ∧
      (Any.run anyInput 0 1 countedSchedule (Any.init anyInput 0 rejectedHeap)).pc 1
        = .writeError) ∧
    ((AllSettled.run settledInput 0 2 1 countedSchedule
        (AllSettled.init settledInput 0 rejectedHeap)).count = lengthUint32 settledInput ∧
      (AllSettled.run settledInput 0 2 1 countedSchedule
        (AllSettled.init settledInput 0 rejectedHeap)).unpacked 0 = Value.int 1 ∧
      (AllSettled.run settledInput 0 2 1 countedSchedule
        (AllSettled.init settledInput 0 rejectedHeap)).settled
        = [PromiseSettled.zero, PromiseSettled.zero] ∧
      (AllSettled.run settledInput 0 2 1 countedSchedule
        (AllSettled.init settledInput 0 rejectedHeap)).pc 0 = .record ∧
      (AllSettled.run settledInput 0 2 1 countedSchedule
        (AllSettled.init settledInput 0 rejectedHeap)).pc 1 = .record) := by
  refine ⟨⟨by decide, rfl, by decide, rfl, by decide, by decide, by decide, by decide⟩,
    ⟨by decide, rfl, by decide, by decide, by decide, by decide⟩,
    ⟨by decide, rfl, by decide, rfl, by decide, by decide, by decide⟩,
    ⟨by decide, by decide, by decide, by decide, by decide⟩⟩

/-! ## Empty input -/

theorem All_Steps_nil (promise allAddr : Ptr) (fuel : Nat) (s t : AllState)
    (hsteps : All.Steps [] promise allAddr fuel s t) : t = s := by
  induction hsteps with
  | refl => rfl
  | tail i _ hstep _ => simp [All.step] at hstep

theorem Race_Steps_nil (promise : Ptr) (fuel : Nat) (s t : RaceState)
    (hsteps : Race.Steps [] promise fuel s t) : t = s := by
  induction hsteps with
  | refl => rfl
  | tail i _ hstep _ => simp [Race.step] at hstep

theorem Any_Steps_nil (promise : Ptr) (fuel : Nat) (s t : AnyState)
    (hsteps : Any.Steps [] promise fuel s t) : t = s := by
  induction hsteps with
  | refl => rfl
  | tail i _ hstep _ => simp [Any.step] at hstep

theorem AllSettled_Steps_nil (promise settledAddr : Ptr) (fuel : Nat) (s t : AllSettledState)
    (hsteps : AllSettled.Steps [] promise settledAddr fuel s t) : t = s := by
  induction hsteps with
  | refl => rfl
  | tail i _ hstep _ => simp [AllSettled.step] at hstep

/-- C17. Empty input never settles: for the empty `arr`, in each of `All`,
`Race`, `Any` and `AllSettled` no goroutine exists that could run a statement
(the step of every goroutine number is undefined in every state), so the only
reachable state is the initial one, in which the promise is as
`createPromise` built it: pending, signal not fired, neither value nor
reason. -/
theorem empty_input_never_settles (promise addr : Ptr) (fuel : Nat) (h : Heap) :
    ((∀ i s, All.step [] promise addr fuel i s = none) ∧
      ∀ s, All.Steps [] promise addr fuel (All.init [] promise h) s →
        s.heap promise = newPromise ∧ (s.heap promise).status = internalPending ∧
        (s.heap promise).wait = false) ∧
    ((∀ i s, Race.step [] promise fuel i s = none) ∧
      ∀ s, Race.Steps [] promise fuel (Race.init promise h) s →
        s.heap promise = newPromise ∧ (s.heap promise).status = internalPending ∧
        (s.heap promise).wait = false) ∧
    ((∀ i s, Any.step [] promise fuel i s = none) ∧
      ∀ s, Any.Steps [] promise fuel (Any.init [] promise h) s →
        s.heap promise = newPromise ∧ (s.heap promise).status = internalPending ∧
        (s.heap promise).wait = false) ∧
    ((∀ i s, AllSettled.step [] promise addr fuel i s = none) ∧
      ∀ s, AllSettled.Steps [] promise addr fuel (AllSettled.init [] promise h) s →
        s.heap promise = newPromise ∧ (s.heap promise).status = internalPending ∧
        (s.heap promise).wait = false) := by
  have hnew : createPromise promise h promise = newPromise := by simp [createPromise]
  have hpend : (createPromise promise h promise).status = internalPending := by
    rw [hnew]
    rfl
  have hopen : (createPromise promise h promise).wait = false := by
    rw [hnew]
    rfl
  refine ⟨⟨?_, ?_⟩, ⟨?_, ?_⟩, ⟨?_, ?_⟩, ⟨?_, ?_⟩⟩
  · intro i s
    simp [All.step]
  · intro s hs
    rw [All_Steps_nil promise addr fuel _ s hs]
    exact ⟨hnew, hpend, hopen⟩
  · intro i s
    simp [Race.step]
  · intro s hs
    rw [Race_Steps_nil promise fuel _ s hs]
    exact ⟨hnew, hpend, hopen⟩
  · intro i s
    simp [Any.step]
  · intro s hs
    rw [Any_Steps_nil promise fuel _ s hs]
    exact ⟨hnew, hpend, hopen⟩
  · intro i s
    simp [AllSettled.step]
  · intro s hs
    rw [AllSettled_Steps_nil promise addr fuel _ s hs]
    exact ⟨hnew, hpend, hopen⟩

/-- Witness of C17: `All` of the empty input under a schedule that names
goroutines 0 and 1. -/
theorem empty_input_never_settles_witness :
    (All.run [] 0 1 0 countedSchedule (All.init [] 0 emptyHeap)).heap 0 = newPromise ∧
    ((All.run [] 0 1 0 countedSchedule (All.init [] 0 emptyHeap)).heap 0).status
      = internalPending ∧
    ((All.run [] 0 1 0 countedSchedule (All.init [] 0 emptyHeap)).heap 0).wait = false :=
  (empty_input_never_settles 0 1 0 emptyHeap).1.2 _
    (All.Steps_of_schedule [] 0 1 0 countedSchedule _)

/-! ## Rejection with the nil reason -/

theorem All_single_nil (h : Heap) (p promise addr : Ptr) (fuel : Nat)
    (hu : unpackPromise (createPromise promise h) fuel (.promise p) = .done (Value.nil, none)) :
    ((All.run [Value.promise p] promise addr fuel (List.replicate 6 0)
      (All.init [Value.promise p] promise h)).heap promise).status = internalFulfilled ∧
    ((All.run [Value.promise p] promise addr fuel (List.replicate 6 0)
      (All.init [Value.promise p] promise h)).heap promise).fulfilled = Value.slice addr ∧
    (All.run [Value.promise p] promise addr fuel (List.replicate 6 0)
      (All.init [Value.promise p] promise h)).all = [Value.nil] ∧
    (All.run [Value.promise p] promise addr fuel (List.replicate 6 0)
      (All.init [Value.promise p] promise h)).rejected = 0 := by
  simp [List.replicate, All.run, All.step, All.init, hu, lengthUint32]
  simp [fulfillPromise, compareAndSwapStatus, createPromise, newPromise, closeWait]

theorem Race_single_nil (h : Heap) (p promise : Ptr) (fuel : Nat)
    (hu : unpackPromise (createPromise promise h) fuel (.promise p) = .done (Value.nil, none)) :
    ((Race.run [Value.promise p] promise fuel (List.replicate 8 0)
      (Race.init promise h)).heap promise).status = internalFulfilled ∧
    ((Race.run [Value.promise p] promise fuel (List.replicate 8 0)
      (Race.init promise h)).heap promise).fulfilled = Value.nil ∧
    (Race.run [Value.promise p] promise fuel (List.replicate 8 0)
      (Race.init promise h)).resolved = 1 ∧
    (Race.run [Value.promise p] promise fuel (List.replicate 8 0)
      (Race.init promise h)).rejected = 0 := by
  simp [List.replicate, Race.run, Race.step, Race.init, hu, lengthUint32]
  simp [fulfillPromise, compareAndSwapStatus, createPromise, newPromise, closeWait]

theorem Any_single_nil (h : Heap) (p promise : Ptr) (fuel : Nat)
    (hu : unpackPromise (createPromise promise h) fuel (.promise p) = .done (Value.nil, none)) :
    ((Any.run [Value.promise p] promise fuel (List.replicate 6 0)
      (Any.init [Value.promise p] promise h)).heap promise).status = internalFulfilled ∧
    ((Any.run [Value.promise p] promise fuel (List.replicate 6 0)
      (Any.init [Value.promise p] promise h)).heap promise).fulfilled = Value.nil ∧
    (Any.run [Value.promise p] promise fuel (List.replicate 6 0)
      (Any.init [Value.promise p] promise h)).errors = [none] ∧
    (Any.run [Value.promise p] promise fuel (List.replicate 6 0)
      (Any.init [Value.promise p] promise h)).pc 0 = .finished := by
  simp [List.replicate, Any.run, Any.step, Any.init, hu, lengthUint32]
  simp [fulfillPromise, compareAndSwapStatus, createPromise, newPromise, closeWait]

theorem AllSettled_single_nil (h : Heap) (p promise addr : Ptr) (fuel : Nat)
    (hu : unpackPromise (createPromise promise h) fuel (.promise p) = .done (Value.nil, none)) :
    ((AllSettled.run [Value.promise p] promise addr fuel (List.replicate 5 0)
      (AllSettled.init [Value.promise p] promise h)).heap promise).status = internalFulfilled ∧
    ((AllSettled.run [Value.promise p] promise addr fuel (List.replicate 5 0)
      (AllSettled.init [Value.promise p] promise h)).heap promise).fulfilled = Value.slice addr ∧
    (AllSettled.run [Value.promise p] promise addr fuel (List.replicate 5 0)
      (AllSettled.init [Value.promise p] promise h)).settled
      = [{ Status := "fulfilled", Reason := none, Value := Value.nil }] := by
  simp [List.replicate, AllSettled.run, AllSettled.step, AllSettled.init, hu, lengthUint32]
  simp [fulfillPromise, compareAndSwapStatus, createPromise, newPromise, closeWait,
    PromiseSettled.of, PromiseStatusFulfilled]

/-- C18. A promise `p` rejected with the nil reason (signal fired, status
rejected, reason nil, value unset) is classified in two ways. By its status:
`Catch` and `ThenCatch` invoke the rejection handler with nil, and `Then`
invokes no handler and rejects the derived promise with nil. By its reason:
`unpackPromise` returns `(nil, nil)`, so resolving a pending promise with `p`
fulfills it with nil, `All`, `Race`, `Any` and `AllSettled` of the input
`[p]` end fulfilled (`All` with the slot nil, `Race` and `Any` with nil,
`AllSettled` with the record `{fulfilled, nil, nil}`), and `Wait` returns
`(nil, nil)`. For every reason that is not nil the two agree: `unpackPromise`
returns that reason, and resolving a pending promise with such a promise
rejects it with that reason. The handler invocations are those of the heap:
outside the derived promise `Catch` and `ThenCatch` leave exactly the heap
that one invocation of the catch-handler on nil leaves, and `Then` leaves the
heap untouched. -/
theorem nil_reason_classification (h : Heap) (p promise addr : Ptr) (fuel : Nat)
    (hw : (h p).wait = true) (hs : (h p).status = internalRejected)
    (hr : (h p).rejected = none) (hf : (h p).fulfilled = Value.nil)
    (hpend : (h promise).status = internalPending) :
    ((∀ catch_ : PromiseCatch,
        (Catch.goroutine p promise catch_ fuel h).calls = [Call.onRejected none]) ∧
      (∀ (then_ : PromiseThen) (catch_ : PromiseCatch),
        (ThenCatch.goroutine p promise then_ catch_ fuel h).calls = [Call.onRejected none]) ∧
      (∀ then_ : PromiseThen,
        (Then.goroutine p promise then_ fuel h).calls = [] ∧
        ((Then.goroutine p promise then_ fuel h).heap promise).status = internalRejected ∧
        ((Then.goroutine p promise then_ fuel h).heap promise).rejected = none)) ∧
    (unpackPromise h fuel (.promise p) = .done (Value.nil, none) ∧
      (∃ h1, assignPromise fuel promise (.promise p) h = .done h1 ∧
        (h1 promise).status = internalFulfilled ∧ (h1 promise).fulfilled = Value.nil) ∧
      Wait p h = .done (Value.nil, none)) ∧
    (((All.run [Value.promise p] promise addr fuel (List.replicate 6 0)
        (All.init [Value.promise p] promise h)).heap promise).status = internalFulfilled ∧
      (All.run [Value.promise p] promise addr fuel (List.replicate 6 0)
        (All.init [Value.promise p] promise h)).all = [Value.nil] ∧
      ((Race.run [Value.promise p] promise fuel (List.replicate 8 0)
        (Race.init promise h)).heap promise).status = internalFulfilled ∧
      ((Race.run [Value.promise p] promise fuel (List.replicate 8 0)
        (Race.init promise h)).heap promise).fulfilled = Value.nil ∧
      ((Any.run [Value.promise p] promise fuel (List.replicate 6 0)
        (Any.init [Value.promise p] promise h)).heap promise).status = internalFulfilled ∧
      ((Any.run [Value.promise p] promise fuel (List.replicate 6 0)
        (Any.init [Value.promise p] promise h)).heap promise).fulfilled = Value.nil ∧
      ((AllSettled.run [Value.promise p] promise addr fuel (List.replicate 5 0)
        (AllSettled.init [Value.promise p] promise h)).heap promise).status
        = internalFulfilled ∧
      (AllSettled.run [Value.promise p] promise addr fuel (List.replicate 5 0)
        (AllSettled.init [Value.promise p] promise h)).settled
        = [{ Status := "fulfilled", Reason := none, Value := Value.nil }]) ∧
    (∀ (h2 : Heap) (e : GoError) (q : Ptr), (h2 p).wait = true →
      (h2 p).status = internalRejected → (h2 p).rejected = some e →
      (h2 q).status = internalPending →
      unpackPromise h2 fuel (.promise p) = .done (Value.nil, some e) ∧
      ∃ h3, assignPromise fuel q (.promise p) h2 = .done h3 ∧
        (h3 q).status = internalRejected ∧ (h3 q).rejected = some e) ∧
    ((∀ (catch_ : PromiseCatch) (q : Ptr), q ≠ promise →
        (Catch.goroutine p promise catch_ fuel h).heap q = (catch_ none h).2 q) ∧
      (∀ (then_ : PromiseThen) (catch_ : PromiseCatch) (q : Ptr), q ≠ promise →
        (ThenCatch.goroutine p promise then_ catch_ fuel h).heap q = (catch_ none h).2 q) ∧
      (∀ (then_ : PromiseThen) (q : Ptr), q ≠ promise →
        (Then.goroutine p promise then_ fuel h).heap q = h q)) := by
  have hn : ¬ (internalRejected = internalFulfilled) := by decide
  have hne : p ≠ promise := by
    intro e
    rw [e, hpend] at hs
    exact absurd hs (by decide)
  have hu : unpackPromise h fuel (.promise p) = .done (Value.nil, none) := by
    rw [unpackPromise_promise_rejected h fuel p hw hs, hr]
  have hcell : createPromise promise h p = h p := by
    simp [createPromise, Function.update_noteq hne]
  have hu2 : unpackPromise (createPromise promise h) fuel (.promise p)
      = .done (Value.nil, none) := by
    rw [unpackPromise_promise_rejected _ fuel p (by rw [hcell]; exact hw)
      (by rw [hcell]; exact hs), hcell, hr]
  refine ⟨⟨?_, ?_, ?_⟩, ⟨hu, ?_, ?_⟩, ?_, ?_, ⟨?_, ?_, ?_⟩⟩
  rotate_left 7
  · intro catch_ q hq
    simp only [Catch.goroutine, hw, hs, hr, if_true, hn, if_false]
    exact resolvePromise_other fuel promise q _ _ _ _ hq
  · intro then_ catch_ q hq
    simp only [ThenCatch.goroutine, hw, hs, hr, if_true, hn, if_false]
    exact resolvePromise_other fuel promise q _ _ _ _ hq
  · intro then_ q hq
    simp only [Then.goroutine, hw, hs, hr, if_true, hn, if_false]
    exact rejectPromise_other promise q _ h hq
  · intro catch_
    simp only [Catch.goroutine, hw, hs, hr, if_true, hn, if_false]
    cases resolvePromise fuel promise _ _ _ <;> rfl
  · intro then_ catch_
    simp only [ThenCatch.goroutine, hw, hs, hr, if_true, hn, if_false]
    cases resolvePromise fuel promise _ _ _ <;> rfl
  · intro then_
    simp [Then.goroutine, hw, hs, hr, rejectPromise_pending _ _ _ hpend]
  · refine ⟨_, assignPromise_of_unpack fuel promise _ Value.nil h hu, ?_⟩
    simp [fulfillPromise_pending _ _ _ hpend]
  · simp [Wait, hw, hf, hr]
  · have hA := All_single_nil h p promise addr fuel hu2
    have hR := Race_single_nil h p promise fuel hu2
    have hY := Any_single_nil h p promise fuel hu2
    have hS := AllSettled_single_nil h p promise addr fuel hu2
    exact ⟨hA.1, hA.2.2.1, hR.1, hR.2.1, hY.1, hY.2.1, hS.1, hS.2.2⟩
  · intro h2 e q hw2 hs2 hr2 hq
    have hu3 : unpackPromise h2 fuel (.promise p) = .done (Value.nil, some e) := by
      rw [unpackPromise_promise_rejected h2 fuel p hw2 hs2, hr2]
    refine ⟨hu3, _, assignPromise_of_unpack_reason fuel q _ Value.nil e h2 hu3, ?_⟩
    simp [rejectPromise_pending _ _ _ hq]

/-- Witness of C18: promise 1 of `nilRejectedHeap`, derived promise 0. -/
theorem nil_reason_classification_witness :
    (nilRejectedHeap 1).status = internalRejected ∧
    (Catch.goroutine 1 0 catchNil 0 nilRejectedHeap).calls = [Call.onRejected none] ∧
    unpackPromise nilRejectedHeap 0 (.promise 1) = .done (Value.nil, none) ∧
    Wait 1 nilRejectedHeap = .done (Value.nil, none) :=
  ⟨by decide,
    (nil_reason_classification nilRejectedHeap 1 0 2 0 (by decide) (by decide) (by decide)
      (by decide) (by decide)).1.1 catchNil,
    (nil_reason_classification nilRejectedHeap 1 0 2 0 (by decide) (by decide) (by decide)
      (by decide) (by decide)).2.1.1,
    (nil_reason_classification nilRejectedHeap 1 0 2 0 (by decide) (by decide) (by decide)
      (by decide) (by decide)).2.1.2.2⟩

end GoPromise
